import Mathlib

/-!
# Gravidy: step quantizer, energy diagnostics, binary termination and the driver loop

Shallow embedding of parts of `NbodyUtils.cpp` and of `Hermite4CPU::integration`
(`Hermite4CPU_integration.cpp`).

The C++ `double` is embedded as an arbitrary linearly ordered field `α` with a floor
function (for `std::ceil`); every definition is computable and can be evaluated at `α = ℚ`.
The arithmetic on `double` is exact in this model, with three exceptions: the quotient of
line 395 of `normalize_dt` has a version rounded by a parameter `fl` (`normalize_dt_fl`),
the `float` variables of `get_center_of_density` are converted by `Env.to_float`, and
`normalize_dt_nan` runs the step quantizer on doubles that may be NaN.  `round_double` and
`round_float` are the roundings to the nearest `double` and `float`.  Infinities are not
modelled.  `std::sqrt` is a parameter `sqrt`.
Arrays addressed through a pointer (`h_r`, `h_v`, ...) are total maps from indices.
The member functions that `integration()` calls and that are defined in other files are
the fields of the record `Hermite4CPU`; the `while` loop is run for a bounded number of
passes, and a read outside a vector ends the run with `Outcome.out_of_range`.
-/

namespace Gravidy

/-! ## Constants of `common.hpp` -/

/-- Lower time-step limit, `#define D_TIME_MIN (1.1920928955078125e-07)`. -/
def D_TIME_MIN {α : Type} [LinearOrderedField α] : α := 1.1920928955078125e-07

/-- Upper time-step limit, `#define D_TIME_MAX (0.125)`. -/
def D_TIME_MAX {α : Type} [LinearOrderedField α] : α := 0.125

/-! ## `NbodyUtils::normalize_dt` -/

/-- Lines 373-410 of `normalize_dt`: the value of the local `new_dt` after the
seven-way `if / else if` chain and before the two limit tests, with the quotient
`t / (2 * old_dt)` of line 395 exact (`normalize_dt_bin_fl` has it rounded). -/
def normalize_dt_bin {α : Type} [LinearOrderedField α] [FloorRing α]
    (new_dt old_dt t : α) (_i : Nat) : α :=
  if new_dt ≤ old_dt / 8 then
    D_TIME_MIN
  else if old_dt / 8 < new_dt ∧ new_dt ≤ old_dt / 4 then
    old_dt / 8
  else if old_dt / 4 < new_dt ∧ new_dt ≤ old_dt / 2 then
    old_dt / 4
  else if old_dt / 2 < new_dt ∧ new_dt ≤ old_dt then
    old_dt / 2
  else if old_dt < new_dt ∧ new_dt ≤ old_dt * 2 then
    old_dt
  else if 2 * old_dt < new_dt then
    let val := t / (2 * old_dt)
    if ((Int.ceil val : ℤ) : α) = val then
      2 * old_dt
    else
      old_dt
  else
    old_dt

/-- Lines 412-421 of `normalize_dt`: the two limit tests applied to the binned value. -/
def normalize_dt_clamp {α : Type} [LinearOrderedField α] (new_dt : α) : α :=
  if new_dt < D_TIME_MIN then
    D_TIME_MIN
  else if new_dt > D_TIME_MAX then
    D_TIME_MAX
  else
    new_dt

/-- The function `NbodyUtils::normalize_dt(new_dt, old_dt, t, i)`. -/
def normalize_dt {α : Type} [LinearOrderedField α] [FloorRing α]
    (new_dt old_dt t : α) (i : Nat) : α :=
  normalize_dt_clamp (normalize_dt_bin new_dt old_dt t i)

/-- Lines 373-410 of `normalize_dt` with the rounding of the quotient of line 395: the
machine stores in `val` the double nearest to `t / (2 * old_dt)`, here `fl` of the exact
quotient.  The quotients by 8, 4, 2 and the products by 2 of the chain are exact in
binary floating point. -/
def normalize_dt_bin_fl {α : Type} [LinearOrderedField α] [FloorRing α] (fl : α → α)
    (new_dt old_dt t : α) (_i : Nat) : α :=
  if new_dt ≤ old_dt / 8 then
    D_TIME_MIN
  else if old_dt / 8 < new_dt ∧ new_dt ≤ old_dt / 4 then
    old_dt / 8
  else if old_dt / 4 < new_dt ∧ new_dt ≤ old_dt / 2 then
    old_dt / 4
  else if old_dt / 2 < new_dt ∧ new_dt ≤ old_dt then
    old_dt / 2
  else if old_dt < new_dt ∧ new_dt ≤ old_dt * 2 then
    old_dt
  else if 2 * old_dt < new_dt then
    let val := fl (t / (2 * old_dt))
    if ((Int.ceil val : ℤ) : α) = val then
      2 * old_dt
    else
      old_dt
  else
    old_dt

/-- The function `NbodyUtils::normalize_dt(new_dt, old_dt, t, i)` with the quotient of line
395 rounded by `fl`. -/
def normalize_dt_fl {α : Type} [LinearOrderedField α] [FloorRing α] (fl : α → α)
    (new_dt old_dt t : α) (i : Nat) : α :=
  normalize_dt_clamp (normalize_dt_bin_fl fl new_dt old_dt t i)

/-- The integer nearest to `x`, the even one of the two when `x` lies half-way. -/
def round_half_even {α : Type} [LinearOrderedField α] [FloorRing α] (x : α) : ℤ :=
  if x + 1 / 2 = ((Int.floor (x + 1 / 2) : ℤ) : α) ∧ Int.floor (x + 1 / 2) % 2 = 1 then
    Int.floor (x + 1 / 2) - 1
  else Int.floor (x + 1 / 2)

/-- Rounding of `q` to the nearest binary floating-point number with `p` fraction bits
(round to nearest, ties to even): with `2^e ≤ |q| < 2^(e+1)` the result is the multiple of
`2^(e-p)` nearest to `q`.  The exponent range is not limited (no overflow, no subnormal
numbers). -/
def round_to_bits {α : Type} [LinearOrderedField α] [FloorRing α] (p : ℤ) (q : α) : α :=
  if q = 0 then 0
  else (round_half_even (q / (2 : α) ^ (Int.log 2 |q| - p)) : α) * (2 : α) ^ (Int.log 2 |q| - p)

/-- Rounding to the nearest `double` (52 fraction bits). -/
def round_double {α : Type} [LinearOrderedField α] [FloorRing α] (q : α) : α :=
  round_to_bits 52 q

/-- Rounding to the nearest `float` (23 fraction bits). -/
def round_float {α : Type} [LinearOrderedField α] [FloorRing α] (q : α) : α :=
  round_to_bits 23 q

/-- Which branch of the chain of lines 373-410 of `normalize_dt` is taken on numbers: `1`
to `6` for the six tested conditions in their order, `7` for the final `else`
(`normalize_dt_branch_nan` admits NaN). -/
def normalize_dt_branch {α : Type} [LinearOrderedField α] (new_dt old_dt : α) : Nat :=
  if new_dt ≤ old_dt / 8 then 1
  else if old_dt / 8 < new_dt ∧ new_dt ≤ old_dt / 4 then 2
  else if old_dt / 4 < new_dt ∧ new_dt ≤ old_dt / 2 then 3
  else if old_dt / 2 < new_dt ∧ new_dt ≤ old_dt then 4
  else if old_dt < new_dt ∧ new_dt ≤ old_dt * 2 then 5
  else if 2 * old_dt < new_dt then 6
  else 7

/-- The comparison `a <= b` of two doubles of which either may be NaN (`none`): it is
false when one of them is NaN. -/
def nan_le {α : Type} [LinearOrderedField α] (a b : Option α) : Bool :=
  match a, b with
  | some x, some y => decide (x ≤ y)
  | _, _ => false

/-- The comparison `a < b` of two doubles of which either may be NaN (`none`). -/
def nan_lt {α : Type} [LinearOrderedField α] (a b : Option α) : Bool :=
  match a, b with
  | some x, some y => decide (x < y)
  | _, _ => false

/-- The comparison `a == b` of two doubles of which either may be NaN (`none`). -/
def nan_eq {α : Type} [LinearOrderedField α] (a b : Option α) : Bool :=
  match a, b with
  | some x, some y => decide (x = y)
  | _, _ => false

/-- The chain of lines 373-410 of `normalize_dt` on doubles that may be NaN: the branch
taken, `1` to `6` for the six tested conditions, `7` for the final `else`.  An arithmetic
operation on NaN gives NaN. -/
def normalize_dt_branch_nan {α : Type} [LinearOrderedField α] (new_dt old_dt : Option α) :
    Nat :=
  if nan_le new_dt (old_dt.map (fun o => o / 8)) then 1
  else if nan_lt (old_dt.map (fun o => o / 8)) new_dt &&
      nan_le new_dt (old_dt.map (fun o => o / 4)) then 2
  else if nan_lt (old_dt.map (fun o => o / 4)) new_dt &&
      nan_le new_dt (old_dt.map (fun o => o / 2)) then 3
  else if nan_lt (old_dt.map (fun o => o / 2)) new_dt && nan_le new_dt old_dt then 4
  else if nan_lt old_dt new_dt && nan_le new_dt (old_dt.map (fun o => o * 2)) then 5
  else if nan_lt (old_dt.map (fun o => 2 * o)) new_dt then 6
  else 7

/-- Lines 373-410 of `normalize_dt` on doubles that may be NaN (`none`): the value of the
local `new_dt` after the chain. -/
def normalize_dt_bin_nan {α : Type} [LinearOrderedField α] [FloorRing α]
    (new_dt old_dt t : Option α) (_i : Nat) : Option α :=
  if nan_le new_dt (old_dt.map (fun o => o / 8)) then
    some D_TIME_MIN
  else if nan_lt (old_dt.map (fun o => o / 8)) new_dt &&
      nan_le new_dt (old_dt.map (fun o => o / 4)) then
    old_dt.map (fun o => o / 8)
  else if nan_lt (old_dt.map (fun o => o / 4)) new_dt &&
      nan_le new_dt (old_dt.map (fun o => o / 2)) then
    old_dt.map (fun o => o / 4)
  else if nan_lt (old_dt.map (fun o => o / 2)) new_dt && nan_le new_dt old_dt then
    old_dt.map (fun o => o / 2)
  else if nan_lt old_dt new_dt && nan_le new_dt (old_dt.map (fun o => o * 2)) then
    old_dt
  else if nan_lt (old_dt.map (fun o => 2 * o)) new_dt then
    let val := t.bind (fun tv => old_dt.map (fun o => tv / (2 * o)))
    if nan_eq (val.map (fun v => ((Int.ceil v : ℤ) : α))) val then
      old_dt.map (fun o => 2 * o)
    else
      old_dt
  else
    old_dt

/-- Lines 412-421 of `normalize_dt` on a double that may be NaN. -/
def normalize_dt_clamp_nan {α : Type} [LinearOrderedField α] (new_dt : Option α) :
    Option α :=
  if nan_lt new_dt (some D_TIME_MIN) then
    some D_TIME_MIN
  else if nan_lt (some D_TIME_MAX) new_dt then
    some D_TIME_MAX
  else
    new_dt

/-- The function `NbodyUtils::normalize_dt(new_dt, old_dt, t, i)` on doubles that may be
NaN (`none`). -/
def normalize_dt_nan {α : Type} [LinearOrderedField α] [FloorRing α]
    (new_dt old_dt t : Option α) (i : Nat) : Option α :=
  normalize_dt_clamp_nan (normalize_dt_bin_nan new_dt old_dt t i)

/-- The relation "`t` is an integer multiple of `d`". -/
def IsIntMultiple {α : Type} [LinearOrderedField α] (t d : α) : Prop :=
  ∃ k : ℤ, t = (k : α) * d

/-! ## Data model -/

/-- The struct `double4` of `common.hpp`. -/
structure double4 (α : Type) where
  x : α
  y : α
  z : α
  w : α

/-- The struct `Forces` of `common.hpp`: acceleration `a[3]` and jerk `a1[3]`. -/
structure Forces (α : Type) where
  a : Fin 3 → α
  a1 : Fin 3 → α

/-- Modelled from the spec: the energy record `ns->en` is declared in `NbodySystem.hpp`,
which is not among the sources; these are the members the code under study accesses. -/
structure Energy (α : Type) where
  ini : α
  tmp : α
  kinetic : α
  potential : α

/-- Modelled from the spec: the option record `ns->ops` is declared outside the sources;
`integration()` reads its flags `print_all` and `print_lagrange`. -/
structure Ops where
  print_all : Bool
  print_lagrange : Bool

/-- Modelled from the spec: the class `NbodySystem` (the state store, `ns`) is declared in
`NbodySystem.hpp`, which is not among the sources; these are the members the code under
study accesses.  The mass of particle `i` is `h_r[i].w`. -/
structure NbodySystem (α : Type) where
  n : Nat
  h_r : Nat → double4 α
  h_v : Nat → double4 α
  h_f : Nat → Forces α
  h_old : Nat → Forces α
  h_t : Nat → α
  h_dt : Nat → α
  en : Energy α
  r_cl : α
  total_mass : α
  h_a2 : Nat → double4 α
  h_a3 : Nat → double4 α
  r_virial : α
  t_cr : α
  dt_cl : α
  r_core : α
  r_hm : α
  t_rlx : α
  integration_time : α
  iterations : Nat
  ops : Ops

/-- Modelled from the spec: the member record `MParticle` of a multiple system is declared
in `MultipleSystem.hpp`, which is not among the sources; these are the members the
termination block accesses (relative position, velocity and force, and the slot id). -/
structure MParticle (α : Type) where
  id : Nat
  r : double4 α
  v : double4 α
  f : Forces α

/-- Modelled from the spec: `operator+` on `double4` is defined outside the sources; the
spec's "position = CoM + relative, velocity = CoM + relative" is the componentwise sum. -/
def double4.add {α : Type} [LinearOrderedField α] (p q : double4 α) : double4 α :=
  { x := p.x + q.x, y := p.y + q.y, z := p.z + q.z, w := p.w + q.w }

/-- Modelled from the spec: `operator+` on `Forces` is defined outside the sources;
"forces inherit from primary" plus the relative force, componentwise. -/
def Forces.add {α : Type} [LinearOrderedField α] (p q : Forces α) : Forces α :=
  { a := fun c => p.a c + q.a c, a1 := fun c => p.a1 c + q.a1 c }

/-- A counted loop `for (k = lo; k < hi; k++) s = body(k, s)`. -/
def forLoop {σ : Type} (lo hi : Nat) (body : Nat → σ → σ) (init : σ) : σ :=
  (List.range' lo (hi - lo)).foldl (fun s k => body k s) init

/-! ## `NbodyUtils::get_energy`, `get_potential`, `get_kinetic` -/

/-- One pass of the inner `j` loop shared by `get_energy` (lines 441-446) and
`get_potential` (lines 544-549): `epot_tmp -= (m_i * m_j) / sqrt(r2)`. -/
def epot_step {α : Type} [LinearOrderedField α] (sqrt : α → α) (ns : NbodySystem α)
    (i j : Nat) (epot_tmp : α) : α :=
  let rx := (ns.h_r j).x - (ns.h_r i).x
  let ry := (ns.h_r j).y - (ns.h_r i).y
  let rz := (ns.h_r j).z - (ns.h_r i).z
  let r2 := rx * rx + ry * ry + rz * rz
  epot_tmp - ((ns.h_r i).w * (ns.h_r j).w) / sqrt r2

/-- Body of the outer `i` loop of `get_energy` (lines 438-522, built without `PN`). -/
def get_energy_body {α : Type} [LinearOrderedField α] (sqrt : α → α) (i : Nat)
    (ns : NbodySystem α) : NbodySystem α :=
  let epot_tmp := forLoop (i + 1) ns.n (fun j e => epot_step sqrt ns i j e) 0
  let vvx := (ns.h_v i).x * (ns.h_v i).x
  let vvy := (ns.h_v i).y * (ns.h_v i).y
  let vvz := (ns.h_v i).z * (ns.h_v i).z
  let vv2 := vvx + vvy + vvz
  let ekin_tmp := 0.5 * (ns.h_r i).w * vv2
  let ns1 := { ns with en := { ns.en with kinetic := ns.en.kinetic + ekin_tmp } }
  { ns1 with en := { ns1.en with potential := ns1.en.potential + epot_tmp } }

/-- The function `NbodyUtils::get_energy(ext)` built without `PN`: the returned value and
the state with `en.potential`, `en.kinetic` rewritten. -/
def get_energy {α : Type} [LinearOrderedField α] (sqrt : α → α) (ns : NbodySystem α)
    (ext : α) : α × NbodySystem α :=
  let ns1 := { ns with en := { ns.en with potential := 0 } }
  let ns2 := { ns1 with en := { ns1.en with kinetic := 0 } }
  let ns3 := forLoop 0 ns2.n (get_energy_body sqrt) ns2
  (ns3.en.kinetic + ns3.en.potential + ext, ns3)

/-- The function `NbodyUtils::get_potential()`. -/
def get_potential {α : Type} [LinearOrderedField α] (sqrt : α → α) (ns : NbodySystem α) : α :=
  forLoop 0 ns.n
    (fun i epot =>
      let epot_tmp := forLoop (i + 1) ns.n (fun j e => epot_step sqrt ns i j e) 0
      epot + epot_tmp)
    0

/-- The function `NbodyUtils::get_kinetic()`. -/
def get_kinetic {α : Type} [LinearOrderedField α] (ns : NbodySystem α) : α :=
  forLoop 0 ns.n
    (fun i ekin =>
      let vx := (ns.h_v i).x * (ns.h_v i).x
      let vy := (ns.h_v i).y * (ns.h_v i).y
      let vz := (ns.h_v i).z * (ns.h_v i).z
      let v2 := vx + vy + vz
      let ekin_tmp := 0.5 * (ns.h_r i).w * v2
      ekin + ekin_tmp)
    0

/-! ## Global attributes and the time-step formula of `NbodyUtils.cpp` -/

/-- Gravitational constant, `#define G 1`. -/
def G {α : Type} [LinearOrderedField α] : α := 1

/-- Neighbour amount for the centre of density, `#define J 10`. -/
def J : Nat := 10

/-- The function `NbodyUtils::get_virial_radius(energy)`. -/
def get_virial_radius {α : Type} [LinearOrderedField α] (ns : NbodySystem α) (energy : α) : α :=
  (-G * ns.total_mass * ns.total_mass) / (4 * energy)

/-- The function `NbodyUtils::get_crossing_time(r_virial)`. -/
def get_crossing_time {α : Type} [LinearOrderedField α] (sqrt : α → α) (ns : NbodySystem α)
    (r_virial : α) : α :=
  let M := ns.total_mass
  let Rv3 := r_virial * r_virial * r_virial
  let Ut := sqrt (Rv3 / (G * M))
  let t_cr := 2 * sqrt 2 * Ut
  t_cr

/-- The function `NbodyUtils::get_close_encounter_radius(r_virial)`. -/
def get_close_encounter_radius {α : Type} [LinearOrderedField α] (ns : NbodySystem α)
    (r_virial : α) : α :=
  (4.0 * r_virial) / (ns.n : α)

/-- The function `NbodyUtils::get_close_encounter_timestep(r_cl)`. -/
def get_close_encounter_timestep {α : Type} [LinearOrderedField α] (sqrt : α → α)
    (ns : NbodySystem α) (r_cl : α) : α :=
  let r_cl3 := r_cl * r_cl * r_cl
  0.04 * sqrt (r_cl3 * (ns.n : α))

/-- Lines 61-71 of `nbody_attributes()`: the four assignments that precede the core
radius and the relaxation time. -/
def nbody_attributes_radii {α : Type} [LinearOrderedField α] (sqrt : α → α)
    (ns : NbodySystem α) : NbodySystem α :=
  let ns := { ns with r_virial := get_virial_radius ns ns.en.ini }
  let ns := { ns with t_cr := get_crossing_time sqrt ns ns.r_virial }
  let ns := { ns with r_cl := get_close_encounter_radius ns ns.r_virial }
  let ns := { ns with dt_cl := get_close_encounter_timestep sqrt ns ns.r_cl }
  ns

/-- The function `NbodyUtils::get_magnitude(x, y, z)`. -/
def get_magnitude {α : Type} [LinearOrderedField α] (sqrt : α → α) (x y z : α) : α :=
  sqrt (x * x + y * y + z * z)

/-- The function `NbodyUtils::get_timestep_normal(i, ETA)`.  The result is `none` when
the divisor of line 363 is zero: the double returned is then an infinity or NaN, not a
number. -/
def get_timestep_normal {α : Type} [LinearOrderedField α] (sqrt : α → α)
    (ns : NbodySystem α) (i : Nat) (ETA : α) : Option α :=
  let ax1_2 := (ns.h_a2 i).x + ns.h_dt i * (ns.h_a3 i).x
  let ay1_2 := (ns.h_a2 i).y + ns.h_dt i * (ns.h_a3 i).y
  let az1_2 := (ns.h_a2 i).z + ns.h_dt i * (ns.h_a3 i).z
  let abs_a1 := get_magnitude sqrt ((ns.h_f i).a 0) ((ns.h_f i).a 1) ((ns.h_f i).a 2)
  let abs_j1 := get_magnitude sqrt ((ns.h_f i).a1 0) ((ns.h_f i).a1 1) ((ns.h_f i).a1 2)
  let abs_j12 := abs_j1 * abs_j1
  let abs_a1_3 := get_magnitude sqrt (ns.h_a3 i).x (ns.h_a3 i).y (ns.h_a3 i).z
  let abs_a1_2 := get_magnitude sqrt ax1_2 ay1_2 az1_2
  let abs_a1_22 := abs_a1_2 * abs_a1_2
  if abs_j1 * abs_a1_3 + abs_a1_22 = 0 then none
  else
    let normal_dt :=
      sqrt (ETA * ((abs_a1 * abs_a1_2 + abs_j12) / (abs_j1 * abs_a1_3 + abs_a1_22)))
    some normal_dt

/-! ## Cluster diagnostics of `NbodyUtils.cpp` -/

/-- Modelled from the spec: the struct `double3` is declared outside the sources. -/
structure double3 (α : Type) where
  x : α
  y : α
  z : α

/-- Modelled from the spec: the struct `Distance` (a particle index with its distance,
ordered by the distance) is declared in `NbodyUtils.hpp`, which is not among the
sources. -/
structure Distance (α : Type) where
  index : Nat
  value : α

/-- Library functions and constants that `NbodyUtils.cpp` uses and does not define:
`std::sqrt`, `std::log`, `M_PI`, the macros `CORE_MASS` and `LAGRANGE_RADII`, and
`std::sort` on a vector of `Distance`; and `to_float`, the conversion of a `double` to
`float` that an assignment to a `float` variable makes. -/
structure Env (α : Type) where
  sqrt : α → α
  log : α → α
  M_PI : α
  CORE_MASS : α
  LAGRANGE_RADII : List α
  sort : List (Distance α) → List (Distance α)
  to_float : α → α

/-- The members of the class `NbodyUtils` besides `ns`: the centre of density `cod`, the
vector `radii` and the vector `layers_radii`. -/
structure NbodyUtils (α : Type) where
  cod : double3 α
  radii : List (Distance α)
  layers_radii : List α

/-- What `std::sort` guarantees: the result is a rearrangement of the input in ascending
order of the distance. -/
def SortContract {α : Type} [LinearOrderedField α]
    (sort : List (Distance α) → List (Distance α)) : Prop :=
  ∀ l, (sort l).Perm l ∧ (sort l).Pairwise (fun a b => a.value ≤ b.value)

/-- The index `i - 1` computed in `unsigned int`: `0 - 1` wraps to `2^32 - 1`. -/
def unsigned_pred (i : Nat) : Nat := (i + 4294967295) % 4294967296

/-- All entries of a list of optional values, when none is missing. -/
def collect {β : Type} : List (Option β) → Option (List β)
  | [] => some []
  | none :: _ => none
  | some a :: rest =>
    match collect rest with
    | none => none
    | some as => some (a :: as)

/-- Lines 177-201 of `get_center_of_density()`: the density `p[i]` of particle `i`, or
`none` when the read `d[J]` is outside the vector `d` of size `n`.  The variables `radius`,
`aa` and `bb` are `float` (lines 167-168): each assignment converts, and `aa / bb` is a
`float` division.  The pass for particle `i` is taken to run without another thread
writing `radius`, `aa` or `bb` in between. -/
def density_of {α : Type} [LinearOrderedField α] (env : Env α) (ns : NbodySystem α)
    (i : Nat) : Option α :=
  let empty : Distance α := { index := 0, value := 0 }
  let d := (List.range ns.n).map (fun j =>
    if i ≠ j then
      let rx := (ns.h_r j).x - (ns.h_r i).x
      let ry := (ns.h_r j).y - (ns.h_r i).y
      let rz := (ns.h_r j).z - (ns.h_r i).z
      { index := j, value := env.sqrt (rx * rx + ry * ry + rz * rz) }
    else empty)
  let d := env.sort d
  match d[J]? with
  | none => none
  | some dJ =>
    let radius := env.to_float dJ.value
    let aa := env.to_float (((J - 1 : Nat) : α) * (ns.h_r i).w)
    let bb := env.to_float ((4.0 * env.M_PI * radius * radius * radius) / 3.0)
    some (env.to_float (aa / bb))

/-- The function `NbodyUtils::get_center_of_density()`, or `none` when a read of `d[J]`
is outside the vector.  The accumulator `dsum` is a `float` (line 167): `dsum += p[i]`
converts the sum. -/
def get_center_of_density {α : Type} [LinearOrderedField α] (env : Env α)
    (ns : NbodySystem α) : Option (double3 α) :=
  match collect ((List.range ns.n).map (density_of env ns)) with
  | none => none
  | some p =>
    let acc := forLoop 0 ns.n
      (fun i (st : α × double3 α) =>
        (env.to_float (st.1 + p.getD i 0),
          { x := st.2.x + (ns.h_r i).x * p.getD i 0
            y := st.2.y + (ns.h_r i).y * p.getD i 0
            z := st.2.z + (ns.h_r i).z * p.getD i 0 }))
      (0, { x := 0, y := 0, z := 0 })
    let dsum := acc.1
    some { x := acc.2.x / dsum, y := acc.2.y / dsum, z := acc.2.z / dsum }

/-- The vector `distances` of lines 234-242: `{index = i, value = |cod - r_i|}` for
`i < n`. -/
def distances_to {α : Type} [LinearOrderedField α] (env : Env α) (cod : double3 α)
    (ns : NbodySystem α) : List (Distance α) :=
  (List.range ns.n).map (fun i =>
    let rx := cod.x - (ns.h_r i).x
    let ry := cod.y - (ns.h_r i).y
    let rz := cod.z - (ns.h_r i).z
    { index := i, value := env.sqrt (rx * rx + ry * ry + rz * rz) })

/-- State of the loop of `get_halfmass_radius()` (lines 246-254): the accumulated mass,
the index `j` and whether `break` was taken. -/
structure HalfMassLoop (α : Type) where
  half_mass : α
  j : Nat
  broke : Bool

/-- One pass of the loop of lines 246-254 over the sorted vector `distances`. -/
def halfmass_step {α : Type} [LinearOrderedField α] (ns : NbodySystem α)
    (distances : List (Distance α)) (i : Nat) (st : HalfMassLoop α) : HalfMassLoop α :=
  if st.broke then st
  else if st.half_mass ≥ ns.total_mass / 2.0 then { st with j := i, broke := true }
  else { st with half_mass :=
    st.half_mass + (ns.h_r (distances.getD i { index := 0, value := 0 }).index).w }

/-- The function `NbodyUtils::get_halfmass_radius()`, or `none` when the read
`distances[j-1]` is outside the vector. -/
def get_halfmass_radius {α : Type} [LinearOrderedField α] (env : Env α)
    (nu : NbodyUtils α) (ns : NbodySystem α) : Option α :=
  let distances := env.sort (distances_to env nu.cod ns)
  let st := forLoop 0 ns.n (halfmass_step ns distances)
    { half_mass := 0, j := 0, broke := false }
  match distances[unsigned_pred st.j]? with
  | none => none
  | some d => some d.value

/-- State of the loop of `get_core_radius()` (lines 132-141). -/
structure CoreLoop (α : Type) where
  core_mass : α
  radius : Option α
  broke : Bool

/-- The function `NbodyUtils::get_core_radius()`, or `none` when the read `d[i]` after
`i -= 1` is outside the vector. -/
def get_core_radius {α : Type} [LinearOrderedField α] (env : Env α)
    (nu : NbodyUtils α) (ns : NbodySystem α) : Option α :=
  let d := env.sort ((List.range ns.n).map (fun i =>
    let rx := (ns.h_r i).x - nu.cod.x
    let ry := (ns.h_r i).y - nu.cod.y
    let rz := (ns.h_r i).z - nu.cod.z
    let r := env.sqrt (rx * rx + ry * ry + rz * rz)
    ({ index := i, value := r } : Distance α)))
  let st := forLoop 0 ns.n
    (fun i (st : CoreLoop α) =>
      if st.broke then st
      else if st.core_mass > ns.total_mass * env.CORE_MASS then
        { st with radius := (d[unsigned_pred i]?).map (fun e => e.value), broke := true }
      else { st with core_mass :=
        st.core_mass + (ns.h_r (d.getD i { index := 0, value := 0 }).index).w })
    { core_mass := 0, radius := some 0, broke := false }
  st.radius

/-- The function `NbodyUtils::get_half_mass_relaxation_time()`: the returned time with
the updated `cod` and `ns->r_hm`, or `none` after a read outside a vector. -/
def get_half_mass_relaxation_time {α : Type} [LinearOrderedField α] (env : Env α)
    (nu : NbodyUtils α) (ns : NbodySystem α) : Option (α × NbodyUtils α × NbodySystem α) :=
  match get_center_of_density env ns with
  | none => none
  | some c =>
    let nu := { nu with cod := c }
    match get_halfmass_radius env nu ns with
    | none => none
    | some r_h =>
      let ns := { ns with r_hm := r_h }
      let a := env.sqrt (((ns.n : α) * r_h * r_h * r_h) / (G * (ns.total_mass / (ns.n : α))))
      let b := 1 / env.log (0.11 * (ns.n : α))
      let t_rh := 0.138 * a * b
      some (t_rh, nu, ns)

/-- The function `NbodyUtils::nbody_attributes()`, or `none` after a read outside a
vector in the core radius or the relaxation time. -/
def nbody_attributes {α : Type} [LinearOrderedField α] (env : Env α)
    (nu : NbodyUtils α) (ns : NbodySystem α) : Option (NbodyUtils α × NbodySystem α) :=
  let ns := nbody_attributes_radii env.sqrt ns
  match get_core_radius env nu ns with
  | none => none
  | some r_core =>
    let ns := { ns with r_core := r_core }
    match get_half_mass_relaxation_time env nu ns with
    | none => none
    | some out => some (out.2.1, { out.2.2 with t_rlx := out.1 })

/-- State of the loop of `get_layers()` (lines 307-327). -/
structure LayersLoop (α : Type) where
  tmp_mass : α
  layer_id : Nat
  layers_radii : List α
  broke : Bool

/-- One pass of the loop of `get_layers()`, or `none` when `LAGRANGE_RADII[layer_id]` or
`layers_radii[layer_id]` is outside its table. -/
def get_layers_step {α : Type} [LinearOrderedField α] (env : Env α) (ns : NbodySystem α)
    (radii : List (Distance α)) (i : Nat) (st : LayersLoop α) : Option (LayersLoop α) :=
  if st.broke then some st
  else if st.tmp_mass ≥ ns.total_mass then some { st with broke := true }
  else
    match env.LAGRANGE_RADII[st.layer_id]? with
    | none => none
    | some fraction =>
      let ri := radii.getD i { index := 0, value := 0 }
      if st.tmp_mass > fraction then
        if st.layer_id < st.layers_radii.length then
          some { st with
            layers_radii := st.layers_radii.set st.layer_id ri.value
            layer_id := st.layer_id + 1
            tmp_mass := st.tmp_mass + (ns.h_r ri.index).w }
        else none
      else some { st with tmp_mass := st.tmp_mass + (ns.h_r ri.index).w }

/-- The function `NbodyUtils::get_layers()`: the new `layers_radii`, or `none` after an
access outside a table. -/
def get_layers {α : Type} [LinearOrderedField α] (env : Env α) (nu : NbodyUtils α)
    (ns : NbodySystem α) : Option (NbodyUtils α) :=
  let st := forLoop 0 ns.n (fun i st => Option.bind st (get_layers_step env ns nu.radii i))
    (some { tmp_mass := 0, layer_id := 0, layers_radii := nu.layers_radii, broke := false })
  match st with
  | none => none
  | some st => some { nu with layers_radii := st.layers_radii }

/-- The function `NbodyUtils::get_radii()`. -/
def get_radii {α : Type} [LinearOrderedField α] (env : Env α) (nu : NbodyUtils α)
    (ns : NbodySystem α) : NbodyUtils α :=
  { nu with radii := (List.range ns.n).map (fun i =>
      let rx := (ns.h_r i).x - nu.cod.x
      let ry := (ns.h_r i).y - nu.cod.y
      let rz := (ns.h_r i).z - nu.cod.z
      { index := i, value := env.sqrt (rx * rx + ry * ry + rz * rz) }) }

/-- The function `NbodyUtils::lagrange_radii()`, or `none` after an access outside a
vector or table. -/
def lagrange_radii {α : Type} [LinearOrderedField α] (env : Env α) (nu : NbodyUtils α)
    (ns : NbodySystem α) : Option (NbodyUtils α) :=
  match get_center_of_density env ns with
  | none => none
  | some c =>
    let nu := { nu with cod := c }
    let nu := get_radii env nu ns
    let nu := { nu with radii := env.sort nu.radii }
    get_layers env nu ns

/-! ## Termination block of `Hermite4CPU::integration` -/

/-- Lines 245-269 of `integration()`: the body of `if (r > ns->r_cl)` for one multiple
system with members `part0`, `part1`, up to the energy log (whose argument
`nu->get_energy(0)` rewrites `en`).  The operators `+` on `double4` and on `Forces` are
the parameters `add4`, `addF`; `a += b` is `a = a + b`. -/
def termination_restore {α : Type} [LinearOrderedField α]
    (add4 : double4 α → double4 α → double4 α) (addF : Forces α → Forces α → Forces α)
    (sqrt : α → α) (ns : NbodySystem α) (part0 part1 : MParticle α) : NbodySystem α :=
  let id0 := part0.id
  let id1 := part1.id
  -- Part1
  let ns := { ns with h_r := Function.update ns.h_r id1 (add4 (ns.h_r id0) part1.r) }
  let ns := { ns with h_v := Function.update ns.h_v id1 (add4 (ns.h_v id0) part1.v) }
  let ns := { ns with h_r := Function.update ns.h_r id1 { ns.h_r id1 with w := part1.r.w } }
  let ns := { ns with h_f := Function.update ns.h_f id1 (addF (ns.h_f id0) part1.f) }
  let ns := { ns with h_old := Function.update ns.h_old id1 (ns.h_f id1) }
  let ns := { ns with h_t := Function.update ns.h_t id1 (ns.h_t id0) }
  let ns := { ns with h_dt := Function.update ns.h_dt id1 D_TIME_MIN }
  -- Part0
  let ns := { ns with h_r := Function.update ns.h_r id0 (add4 (ns.h_r id0) part0.r) }
  let ns := { ns with h_v := Function.update ns.h_v id0 (add4 (ns.h_v id0) part0.v) }
  let ns := { ns with h_r := Function.update ns.h_r id0 { ns.h_r id0 with w := part0.r.w } }
  let ns := { ns with h_f := Function.update ns.h_f id0 (addF (ns.h_f id0) part0.f) }
  let ns := { ns with h_old := Function.update ns.h_old id0 (ns.h_f id0) }
  let ns := { ns with h_t := Function.update ns.h_t id0 (ns.h_t id0) }
  let ns := { ns with h_dt := Function.update ns.h_dt id0 D_TIME_MIN }
  (get_energy sqrt ns 0).2

/-! ## Multiple systems in `Hermite4CPU::integration` -/

/-- Modelled from the spec: the class `MultipleSystem` is declared in `MultipleSystem.hpp`,
which is not among the sources; `integration()` accesses its members `parts[0]`,
`parts[1]` and `ini_e`. -/
structure MultipleSystem (α : Type) where
  parts : Nat → MParticle α
  ini_e : α

/-- Modelled from the spec: the pair record `binary_id` reported by the encounter detector
is declared outside the sources; `integration()` reads `id_a` and `id_b`. -/
structure binary_id where
  id_a : Nat
  id_b : Nat

/-- Modelled from the spec: the ghost particle `SParticle` is declared outside the
sources; the spawn diagnostic reads its centre-of-mass position `r` and velocity `v`. -/
structure SParticle (α : Type) where
  r : double4 α
  v : double4 α

/-- Member separation `r` of lines 237-241 for the system `m`. -/
def member_separation {α : Type} [LinearOrderedField α] (sqrt : α → α)
    (m : MultipleSystem α) : α :=
  let part0 := m.parts 0
  let part1 := m.parts 1
  let rx := part1.r.x - part0.r.x
  let ry := part1.r.y - part0.r.y
  let rz := part1.r.z - part0.r.z
  sqrt (rx * rx + ry * ry + rz * rz)

/-- Lines 232-274 of `integration()`: the termination scan
`for (i = 0; i < ms.size(); i++) { if (r > r_cl) { restore; ms.erase(ms.begin()+i); } }`,
started at index `i`; the index advances after an erase as well. -/
def termination_scan {α : Type} [LinearOrderedField α]
    (add4 : double4 α → double4 α → double4 α) (addF : Forces α → Forces α → Forces α)
    (sqrt : α → α) (i : Nat) (ms : List (MultipleSystem α)) (ns : NbodySystem α) :
    List (MultipleSystem α) × NbodySystem α :=
  if h : i < ms.length then
    let part0 := (ms.get ⟨i, h⟩).parts 0
    let part1 := (ms.get ⟨i, h⟩).parts 1
    let r := member_separation sqrt (ms.get ⟨i, h⟩)
    if r > ns.r_cl then
      let ns1 := termination_restore add4 addF sqrt ns part0 part1
      termination_scan add4 addF sqrt (i + 1) (ms.eraseIdx i) ns1
    else
      termination_scan add4 addF sqrt (i + 1) ms ns
  else
    (ms, ns)
termination_by ms.length - i
decreasing_by
  · rw [List.length_eraseIdx_of_lt h]; omega
  · omega

/-- Lines 117-145 of `integration()`: the SPLIT / REDO diagnostic after a spawn.  The two
member slots are saved, overwritten with the split members, and written back; the printed
energies are not part of the state. -/
def spawn_diagnostic {α : Type} [LinearOrderedField α]
    (add4 : double4 α → double4 α → double4 α) (ns : NbodySystem α) (sp : SParticle α)
    (part0 part1 : MParticle α) : NbodySystem α :=
  let id0 := part0.id
  let id1 := part1.id
  let tmp_r0 := ns.h_r id0
  let tmp_v0 := ns.h_v id0
  let tmp_r1 := ns.h_r id1
  let tmp_v1 := ns.h_v id1
  let ns := { ns with h_r := Function.update ns.h_r id1 (add4 sp.r part1.r) }
  let ns := { ns with h_v := Function.update ns.h_v id1 (add4 sp.v part1.v) }
  let ns := { ns with h_r := Function.update ns.h_r id1 { ns.h_r id1 with w := part1.r.w } }
  let ns := { ns with h_r := Function.update ns.h_r id0 (add4 sp.r part0.r) }
  let ns := { ns with h_v := Function.update ns.h_v id0 (add4 sp.v part0.v) }
  let ns := { ns with h_r := Function.update ns.h_r id0 { ns.h_r id0 with w := part0.r.w } }
  let ns := { ns with h_r := Function.update ns.h_r id0 tmp_r0 }
  let ns := { ns with h_v := Function.update ns.h_v id0 tmp_v0 }
  let ns := { ns with h_r := Function.update ns.h_r id1 tmp_r1 }
  let ns := { ns with h_v := Function.update ns.h_v id1 tmp_v1 }
  ns

/-- Lines 178-204 of `integration()`: the per-system energy diagnostic at a global
synchronization.  The two member slots are saved, `ee` gets the kinetic energy, the slots
are overwritten with the split members, `ee` gets the potential energy, and the slots are
written back.  The result is the new `ee` and the state. -/
def sync_diagnostic {α : Type} [LinearOrderedField α]
    (add4 : double4 α → double4 α → double4 α) (sqrt : α → α) (ns : NbodySystem α) (ee : α)
    (part0 part1 : MParticle α) : α × NbodySystem α :=
  let id0 := part0.id
  let id1 := part1.id
  let tmp_r0 := ns.h_r id0
  let tmp_r1 := ns.h_r id1
  let tmp_v0 := ns.h_v id0
  let tmp_v1 := ns.h_v id1
  let ee := ee + get_kinetic ns
  let ns := { ns with h_r := Function.update ns.h_r id1 (add4 (ns.h_r id0) part1.r) }
  let ns := { ns with h_v := Function.update ns.h_v id1 (add4 (ns.h_v id0) part1.v) }
  let ns := { ns with h_r := Function.update ns.h_r id1 { ns.h_r id1 with w := part1.r.w } }
  let ns := { ns with h_r := Function.update ns.h_r id0 (add4 (ns.h_r id0) part0.r) }
  let ns := { ns with h_v := Function.update ns.h_v id0 (add4 (ns.h_v id0) part0.v) }
  let ns := { ns with h_r := Function.update ns.h_r id0 { ns.h_r id0 with w := part0.r.w } }
  let ee := ee + get_potential sqrt ns
  let ns := { ns with h_r := Function.update ns.h_r id0 tmp_r0 }
  let ns := { ns with h_r := Function.update ns.h_r id1 tmp_r1 }
  let ns := { ns with h_v := Function.update ns.h_v id0 tmp_v0 }
  let ns := { ns with h_v := Function.update ns.h_v id1 tmp_v1 }
  (ee, ns)

/-- Lines 89-159 of `integration()`: the binary creation loop
`for (b = 0; b < pairs.size(); b++) { ...; ms.push_back(new_ms); pairs.erase(pairs.begin()); }`
started at index `b`.  Lines 91-112 (constructor, `add_particle`, `create_ghost_particle`,
`adjust_particles`, `evaluation`, `init_timestep`, `get_energy` of `MultipleSystem`) are
not among the sources and are the parameter `spawn`, which returns the ghost particle, the
new system and the updated state. -/
def creation_loop {α : Type} [LinearOrderedField α]
    (add4 : double4 α → double4 α → double4 α)
    (spawn : binary_id → NbodySystem α → SParticle α × MultipleSystem α × NbodySystem α)
    (b : Nat) (pairs : List binary_id) (ms : List (MultipleSystem α)) (ns : NbodySystem α) :
    List binary_id × List (MultipleSystem α) × NbodySystem α :=
  if h : b < pairs.length then
    let out := spawn (pairs.get ⟨b, h⟩) ns
    let sp := out.1
    let new_ms := out.2.1
    let ns1 := spawn_diagnostic add4 out.2.2 sp (new_ms.parts 0) (new_ms.parts 1)
    creation_loop add4 spawn (b + 1) pairs.tail (ms ++ [new_ms]) ns1
  else
    (pairs, ms, ns)
termination_by pairs.length - b
decreasing_by
  rw [List.length_tail]; omega

/-- Lines 87-160 of `integration()`: `if (new_binaries) { creation loop }`. -/
def binary_creation {α : Type} [LinearOrderedField α]
    (add4 : double4 α → double4 α → double4 α)
    (spawn : binary_id → NbodySystem α → SParticle α × MultipleSystem α × NbodySystem α)
    (new_binaries : Bool) (pairs : List binary_id) (ms : List (MultipleSystem α))
    (ns : NbodySystem α) : List binary_id × List (MultipleSystem α) × NbodySystem α :=
  if new_binaries then creation_loop add4 spawn 0 pairs ms ns else (pairs, ms, ns)

/-- The member ids `(parts[0].id, parts[1].id)` of a multiple system. -/
def MultipleSystem.members {α : Type} (m : MultipleSystem α) : List Nat :=
  [(m.parts 0).id, (m.parts 1).id]

/-- The ids `(id_a, id_b)` of a reported pair. -/
def binary_id.ids (p : binary_id) : List Nat := [p.id_a, p.id_b]

/-- Each particle id is a member of at most one multiple system of `ms`. -/
def NoSharedMember {α : Type} (ms : List (MultipleSystem α)) : Prop :=
  (ms.map MultipleSystem.members).Pairwise List.Disjoint

/-- The new system built by `spawn` has the reported pair as its members (lines 93-98:
`new_ms.add_particle(id_a); new_ms.add_particle(id_b);`). -/
def SpawnKeepsIds {α : Type}
    (spawn : binary_id → NbodySystem α → SParticle α × MultipleSystem α × NbodySystem α) :
    Prop :=
  ∀ p ns, (spawn p ns).2.1.members = p.ids

/-! ## Closed forms of the energy diagnostics, following the spec -/

/-- Squared length `|v|²` of the spatial part of a `double4`. -/
def norm2 {α : Type} [LinearOrderedField α] (v : double4 α) : α :=
  v.x * v.x + v.y * v.y + v.z * v.z

/-- Separation `|r_q - r_p|` of two positions, with `sqrt` the square root in use. -/
def separation {α : Type} [LinearOrderedField α] (sqrt : α → α) (p q : double4 α) : α :=
  sqrt ((q.x - p.x) * (q.x - p.x) + (q.y - p.y) * (q.y - p.y) + (q.z - p.z) * (q.z - p.z))

/-- The index pairs `(i, j)` with `i < j < n`. -/
def pairsBelow (n : Nat) : Finset (Nat × Nat) :=
  (Finset.range n ×ˢ Finset.range n).filter (fun p => p.1 < p.2)

/-- Kinetic energy of the spec: `½ Σ_i m_i |v_i|²`. -/
def spec_kinetic {α : Type} [LinearOrderedField α] (ns : NbodySystem α) : α :=
  1 / 2 * ∑ i in Finset.range ns.n, (ns.h_r i).w * norm2 (ns.h_v i)

/-- Potential energy of the spec: `− Σ_{i<j} m_i m_j / |r_j − r_i|`, unsoftened. -/
def spec_potential {α : Type} [LinearOrderedField α] (sqrt : α → α) (ns : NbodySystem α) : α :=
  - ∑ p in pairsBelow ns.n,
      (ns.h_r p.1).w * (ns.h_r p.2).w / separation sqrt (ns.h_r p.1) (ns.h_r p.2)

/-- Pairwise distinct positions among the first `n` particles. -/
def DistinctPositions {α : Type} (ns : NbodySystem α) : Prop :=
  ∀ i j, i < ns.n → j < ns.n → i ≠ j →
    ((ns.h_r i).x, (ns.h_r i).y, (ns.h_r i).z) ≠ ((ns.h_r j).x, (ns.h_r j).y, (ns.h_r j).z)

/-! ## Closed forms of the time-step formula and of the centre of mass -/

/-- Time-step formula of the spec (Makino and Aarseth 1992, eq. 7) on the magnitudes
`|a|`, `|j|`, `|a⁽²⁾|`, `|a⁽³⁾|`:
`√(η (|a| |a⁽²⁾| + |j|²) / (|j| |a⁽³⁾| + |a⁽²⁾|²))`. -/
def spec_timestep {α : Type} [LinearOrderedField α] (sqrt : α → α)
    (ETA abs_a abs_j abs_a2 abs_a3 : α) : α :=
  sqrt (ETA * ((abs_a * abs_a2 + abs_j * abs_j) / (abs_j * abs_a3 + abs_a2 * abs_a2)))

/-- Length of a 3-vector, with `sqrt` the square root in use. -/
def norm3 {α : Type} [LinearOrderedField α] (sqrt : α → α) (x y z : α) : α :=
  sqrt (x * x + y * y + z * z)

/-- The divisor `|j| |a⁽³⁾| + |a⁽²⁾|²` of the time-step formula for particle `i`, with
`a⁽²⁾ = h_a2[i] + h_dt[i] h_a3[i]`; the derivatives are non-degenerate when it is not
zero. -/
def timestep_divisor {α : Type} [LinearOrderedField α] (sqrt : α → α) (ns : NbodySystem α)
    (i : Nat) : α :=
  norm3 sqrt ((ns.h_f i).a1 0) ((ns.h_f i).a1 1) ((ns.h_f i).a1 2) *
      norm3 sqrt (ns.h_a3 i).x (ns.h_a3 i).y (ns.h_a3 i).z +
    norm3 sqrt ((ns.h_a2 i).x + ns.h_dt i * (ns.h_a3 i).x)
        ((ns.h_a2 i).y + ns.h_dt i * (ns.h_a3 i).y)
        ((ns.h_a2 i).z + ns.h_dt i * (ns.h_a3 i).z) *
      norm3 sqrt ((ns.h_a2 i).x + ns.h_dt i * (ns.h_a3 i).x)
        ((ns.h_a2 i).y + ns.h_dt i * (ns.h_a3 i).y)
        ((ns.h_a2 i).z + ns.h_dt i * (ns.h_a3 i).z)

/-- Mass-weighted mean `(m0 p + m1 q) / (m0 + m1)` of the spatial parts of `p` and `q`. -/
def weightedMean {α : Type} [LinearOrderedField α] (m0 m1 : α) (p q : double4 α) :
    α × α × α :=
  ((m0 * p.x + m1 * q.x) / (m0 + m1), (m0 * p.y + m1 * q.y) / (m0 + m1),
    (m0 * p.z + m1 * q.z) / (m0 + m1))

/-- Spatial part `(x, y, z)` of a `double4`. -/
def spatial {α : Type} (p : double4 α) : α × α × α := (p.x, p.y, p.z)

/-- Centre-of-mass frame condition `m0 p + m1 q = 0` on the spatial parts. -/
def Balanced {α : Type} [LinearOrderedField α] (m0 m1 : α) (p q : double4 α) : Prop :=
  m0 * p.x + m1 * q.x = 0 ∧ m0 * p.y + m1 * q.y = 0 ∧ m0 * p.z + m1 * q.z = 0

/-- A state for the time-step formula: particle `0` has `a = (3,0,0)`, `j = (1,0,0)`,
stored `a⁽²⁾ = (2,0,0)`, `a⁽³⁾ = (24,0,0)` and step `1/8`. -/
def timestepState : NbodySystem ℚ :=
  { n := 1
    h_r := fun _ => ⟨0, 0, 0, 1⟩
    h_v := fun _ => ⟨0, 0, 0, 0⟩
    h_f := fun _ => ⟨fun c => if c = 0 then 3 else 0, fun c => if c = 0 then 1 else 0⟩
    h_old := fun _ => ⟨fun _ => 0, fun _ => 0⟩
    h_t := fun _ => 0
    h_dt := fun _ => 1 / 8
    en := ⟨0, 0, 0, 0⟩
    r_cl := 1
    total_mass := 1
    h_a2 := fun _ => ⟨2, 0, 0, 0⟩
    h_a3 := fun _ => ⟨24, 0, 0, 0⟩
    r_virial := 0
    t_cr := 0
    dt_cl := 0
    r_core := 0
    r_hm := 0
    t_rlx := 0
    integration_time := 0
    iterations := 0
    ops := ⟨false, false⟩ }

/-! ## Closed form of the centre of density, following the spec -/

/-- The distances from particle `i` to every particle, with `0` as the self-entry. -/
def neighbourDistances {α : Type} [LinearOrderedField α] (env : Env α) (ns : NbodySystem α)
    (i : Nat) : List α :=
  (List.range ns.n).map (fun j =>
    if i ≠ j then separation env.sqrt (ns.h_r i) (ns.h_r j) else 0)

/-- The distance `d_{i,J}`: the entry at index `J` of the ascending list of the distances
from particle `i`, whose self-entry is `0`. -/
def jthNeighbourDistance {α : Type} [LinearOrderedField α] (env : Env α)
    (ns : NbodySystem α) (i : Nat) : α :=
  ((neighbourDistances env ns i).insertionSort (fun a b => a ≤ b)).getD J 0

/-- The distances from particle `i` to the other particles. -/
def otherDistances {α : Type} [LinearOrderedField α] (env : Env α) (ns : NbodySystem α)
    (i : Nat) : List α :=
  ((List.range ns.n).erase i).map (fun j => separation env.sqrt (ns.h_r i) (ns.h_r j))

/-- The distance from particle `i` to its `J`-th nearest other particle. -/
def jthNearestOther {α : Type} [LinearOrderedField α] (env : Env α) (ns : NbodySystem α)
    (i : Nat) : α :=
  ((otherDistances env ns i).insertionSort (fun a b => a ≤ b)).getD (J - 1) 0

/-- Density estimate of the spec: `ρ_i = (J − 1) m_i / ((4π/3) d_{i,J}³)`. -/
def spec_density {α : Type} [LinearOrderedField α] (env : Env α) (ns : NbodySystem α)
    (i : Nat) : α :=
  ((J : α) - 1) * (ns.h_r i).w / ((4 * env.M_PI / 3) * jthNeighbourDistance env ns i ^ 3)

/-- Centre of density of the spec: the density-weighted mean `Σ_i ρ_i r_i / Σ_i ρ_i`. -/
def spec_center_of_density {α : Type} [LinearOrderedField α] (env : Env α)
    (ns : NbodySystem α) : double3 α :=
  { x := (∑ i in Finset.range ns.n, spec_density env ns i * (ns.h_r i).x)
      / ∑ i in Finset.range ns.n, spec_density env ns i
    y := (∑ i in Finset.range ns.n, spec_density env ns i * (ns.h_r i).y)
      / ∑ i in Finset.range ns.n, spec_density env ns i
    z := (∑ i in Finset.range ns.n, spec_density env ns i * (ns.h_r i).z)
      / ∑ i in Finset.range ns.n, spec_density env ns i }

/-- The density estimate with the conversions to `float` of the code:
`float(float((J − 1) m_i) / float(4π r³ / 3))` with `r = float(d_{i,J})`. -/
def float_density {α : Type} [LinearOrderedField α] (env : Env α) (ns : NbodySystem α)
    (i : Nat) : α :=
  env.to_float
    (env.to_float (((J : α) - 1) * (ns.h_r i).w) /
      env.to_float
        ((4 * env.M_PI * env.to_float (jthNeighbourDistance env ns i) *
            env.to_float (jthNeighbourDistance env ns i) *
            env.to_float (jthNeighbourDistance env ns i)) / 3))

/-- The sum of `f 0, ..., f (n-1)` accumulated in a `float`:
`dsum_0 = 0`, `dsum_(k+1) = float(dsum_k + f k)`. -/
def float_sum {α : Type} [LinearOrderedField α] (to_float : α → α) (f : Nat → α) : Nat → α
  | 0 => 0
  | k + 1 => to_float (float_sum to_float f k + f k)

/-- The centre of density with the conversions to `float` of the code: the sums of
`ρ_i r_i` over the `float` sum of the `ρ_i`. -/
def float_center_of_density {α : Type} [LinearOrderedField α] (env : Env α)
    (ns : NbodySystem α) : double3 α :=
  { x := (∑ i in Finset.range ns.n, float_density env ns i * (ns.h_r i).x)
      / float_sum env.to_float (float_density env ns) ns.n
    y := (∑ i in Finset.range ns.n, float_density env ns i * (ns.h_r i).y)
      / float_sum env.to_float (float_density env ns) ns.n
    z := (∑ i in Finset.range ns.n, float_density env ns i * (ns.h_r i).z)
      / float_sum env.to_float (float_density env ns) ns.n }

/-- The ascending sort by distance used where `std::sort` has to be evaluated. -/
def sortByValue {α : Type} [LinearOrderedField α] (l : List (Distance α)) :
    List (Distance α) :=
  l.insertionSort (fun a b => a.value ≤ b.value)

/-! ## Scenario states -/

/-- Scenario "two-body circular" of the spec: `n = 2`, `m1 = m2 = 0.5`,
`r1 = (-0.5,0,0)`, `r2 = (0.5,0,0)`, `v1 = (0,-0.5,0)`, `v2 = (0,0.5,0)`. -/
def twoBodyCircular {α : Type} [LinearOrderedField α] : NbodySystem α :=
  { n := 2
    h_r := fun i => if i = 0 then ⟨-0.5, 0, 0, 0.5⟩ else ⟨0.5, 0, 0, 0.5⟩
    h_v := fun i => if i = 0 then ⟨0, -0.5, 0, 0⟩ else ⟨0, 0.5, 0, 0⟩
    h_f := fun _ => ⟨fun _ => 0, fun _ => 0⟩
    h_old := fun _ => ⟨fun _ => 0, fun _ => 0⟩
    h_t := fun _ => 0
    h_dt := fun _ => D_TIME_MAX
    en := ⟨0, 0, 0, 0⟩
    r_cl := 1
    total_mass := 1
    h_a2 := fun _ => ⟨0, 0, 0, 0⟩
    h_a3 := fun _ => ⟨0, 0, 0, 0⟩
    r_virial := 0
    t_cr := 0
    dt_cl := 0
    r_core := 0
    r_hm := 0
    t_rlx := 0
    integration_time := 0
    iterations := 0
    ops := ⟨false, false⟩ }

/-- A state for the termination block: the primary slot `0` holds the centre of mass
`r = (1,2,3)`, `v = (4,5,6)` at time `1/2` with step `1/8`; the relic slot `1` has mass `0`. -/
def terminationState : NbodySystem ℚ :=
  { n := 2
    h_r := fun i => if i = 0 then ⟨1, 2, 3, 1⟩ else ⟨1, 2, 3, 0⟩
    h_v := fun i => if i = 0 then ⟨4, 5, 6, 0⟩ else ⟨4, 5, 6, 0⟩
    h_f := fun _ => ⟨fun _ => 0, fun _ => 0⟩
    h_old := fun _ => ⟨fun _ => 0, fun _ => 0⟩
    h_t := fun i => if i = 0 then 1 / 2 else 1 / 4
    h_dt := fun _ => 1 / 8
    en := ⟨0, 0, 0, 0⟩
    r_cl := 1
    total_mass := 1
    h_a2 := fun _ => ⟨0, 0, 0, 0⟩
    h_a3 := fun _ => ⟨0, 0, 0, 0⟩
    r_virial := 0
    t_cr := 0
    dt_cl := 0
    r_core := 0
    r_hm := 0
    t_rlx := 0
    integration_time := 0
    iterations := 0
    ops := ⟨false, false⟩ }

/-- Member `0` of the system terminated in `terminationState`. -/
def terminationPart0 : MParticle ℚ :=
  { id := 0, r := ⟨-1, 0, 0, 1 / 2⟩, v := ⟨0, -1, 0, 0⟩, f := ⟨fun _ => 0, fun _ => 0⟩ }

/-- Member `1` of the system terminated in `terminationState`. -/
def terminationPart1 : MParticle ℚ :=
  { id := 1, r := ⟨1, 0, 0, 1 / 2⟩, v := ⟨0, 1, 0, 0⟩, f := ⟨fun _ => 0, fun _ => 0⟩ }

/-- A two-member system on slots `id0`, `id1` whose members sit at `∓(1,0,0)` from the
centre of mass: separation `2`. -/
def farSystem (id0 id1 : Nat) : MultipleSystem ℚ :=
  { parts := fun k =>
      if k = 0 then
        { id := id0, r := ⟨-1, 0, 0, 1 / 2⟩, v := ⟨0, -1, 0, 0⟩, f := ⟨fun _ => 0, fun _ => 0⟩ }
      else
        { id := id1, r := ⟨1, 0, 0, 1 / 2⟩, v := ⟨0, 1, 0, 0⟩, f := ⟨fun _ => 0, fun _ => 0⟩ }
    ini_e := 0 }

/-- A state with four slots and close-encounter radius `r_cl = 1`: slots `0` and `2` hold
the centres of mass of two binaries, slots `1` and `3` their zero-mass relics. -/
def scanState : NbodySystem ℚ :=
  { n := 4
    h_r := fun i => if i < 2 then ⟨0, 0, 0, if i = 0 then 1 else 0⟩
      else ⟨10, 0, 0, if i = 2 then 1 else 0⟩
    h_v := fun _ => ⟨0, 0, 0, 0⟩
    h_f := fun _ => ⟨fun _ => 0, fun _ => 0⟩
    h_old := fun _ => ⟨fun _ => 0, fun _ => 0⟩
    h_t := fun _ => 1
    h_dt := fun _ => 1 / 8
    en := ⟨0, 0, 0, 0⟩
    r_cl := 1
    total_mass := 2
    h_a2 := fun _ => ⟨0, 0, 0, 0⟩
    h_a3 := fun _ => ⟨0, 0, 0, 0⟩
    r_virial := 0
    t_cr := 0
    dt_cl := 0
    r_core := 0
    r_hm := 0
    t_rlx := 0
    integration_time := 0
    iterations := 0
    ops := ⟨false, false⟩ }

/-- Modelled from the spec: lines 91-112 of `integration()` call members of
`MultipleSystem` that are not among the sources.  This instance of the parameter `spawn`
only performs `add_particle(id_a); add_particle(id_b)` as the spec describes it (the
members are the ordered pair of particle ids, with the slot contents) and leaves the
state unchanged; it is used where only the member ids matter. -/
def spawnIds (p : binary_id) (ns : NbodySystem ℚ) :
    SParticle ℚ × MultipleSystem ℚ × NbodySystem ℚ :=
  (⟨ns.h_r p.id_a, ns.h_v p.id_a⟩,
    { parts := fun k =>
        if k = 0 then
          { id := p.id_a, r := ns.h_r p.id_a, v := ns.h_v p.id_a, f := ns.h_f p.id_a }
        else
          { id := p.id_b, r := ns.h_r p.id_b, v := ns.h_v p.id_b, f := ns.h_f p.id_b }
      ini_e := 0 },
    ns)

/-- Rational stand-ins for the library functions and constants: `Rat.sqrt` (exact on
squares of rationals), the table `LAGRANGE_RADII = {0.6, 1.0}`, `CORE_MASS = 0.1`, the
ascending insertion sort for `std::sort`, `355/113` for `M_PI`, conversions to `float`
without rounding; `log` is not evaluated by any diagnostic studied here and is a
placeholder. -/
def ratEnv : Env ℚ :=
  { sqrt := Rat.sqrt
    log := fun x => x
    M_PI := 355 / 113
    CORE_MASS := 0.1
    LAGRANGE_RADII := [0.6, 1.0]
    sort := sortByValue
    to_float := fun x => x }

/-- The environment `ratEnv` with the double nearest to `π` for `M_PI` and the rounding to
the nearest `float` for the conversions. -/
def floatEnv : Env ℚ :=
  { ratEnv with M_PI := 884279719003555 / 281474976710656, to_float := round_float }

/-- Eleven particles of mass `1/11` on the `x` axis at `x = 0, 1, ..., 10`;
`total_mass = 1`. -/
def lineState : NbodySystem ℚ :=
  { n := 11
    h_r := fun i => ⟨(i : ℚ), 0, 0, 1 / 11⟩
    h_v := fun _ => ⟨0, 0, 0, 0⟩
    h_f := fun _ => ⟨fun _ => 0, fun _ => 0⟩
    h_old := fun _ => ⟨fun _ => 0, fun _ => 0⟩
    h_t := fun _ => 0
    h_dt := fun _ => 1 / 8
    en := ⟨0, 0, 0, 0⟩
    r_cl := 1
    total_mass := 1
    h_a2 := fun _ => ⟨0, 0, 0, 0⟩
    h_a3 := fun _ => ⟨0, 0, 0, 0⟩
    r_virial := 0
    t_cr := 0
    dt_cl := 0
    r_core := 0
    r_hm := 0
    t_rlx := 0
    integration_time := 0
    iterations := 0
    ops := ⟨false, false⟩ }

/-- Eleven particles of mass `1` on the `x` axis at `x = 0, 1, ..., 10` and one particle
of mass `100` at `x = 1000`; `total_mass = 111` is the sum of the masses. -/
def heavyFarState : NbodySystem ℚ :=
  { n := 12
    h_r := fun i => ⟨if i < 11 then (i : ℚ) else 1000, 0, 0, if i < 11 then 1 else 100⟩
    h_v := fun _ => ⟨0, 0, 0, 0⟩
    h_f := fun _ => ⟨fun _ => 0, fun _ => 0⟩
    h_old := fun _ => ⟨fun _ => 0, fun _ => 0⟩
    h_t := fun _ => 0
    h_dt := fun _ => 1 / 8
    en := ⟨0, 0, 0, 0⟩
    r_cl := 1
    total_mass := 111
    h_a2 := fun _ => ⟨0, 0, 0, 0⟩
    h_a3 := fun _ => ⟨0, 0, 0, 0⟩
    r_virial := 0
    t_cr := 0
    dt_cl := 0
    r_core := 0
    r_hm := 0
    t_rlx := 0
    integration_time := 0
    iterations := 0
    ops := ⟨false, false⟩ }

/-- The centre of density of `heavyFarState`, about `(5.003, 0, 0)`. -/
def heavyFarCod : double3 ℚ :=
  { x := 347552545928365 / 69466824705673, y := 0, z := 0 }

/-- The vector `distances` of `heavyFarState` after `std::sort`: the heavy particle `11`
is the farthest from the centre of density. -/
def heavyFarSorted : List (Distance ℚ) :=
  [{ index := 5, value := 218422400000 / 69466824705673 },
        { index := 6, value := 69248402305673 / 69466824705673 },
        { index := 4, value := 69685247105673 / 69466824705673 },
        { index := 7, value := 138715227011346 / 69466824705673 },
        { index := 3, value := 139152071811346 / 69466824705673 },
        { index := 8, value := 208182051717019 / 69466824705673 },
        { index := 2, value := 208618896517019 / 69466824705673 },
        { index := 9, value := 277648876422692 / 69466824705673 },
        { index := 1, value := 278085721222692 / 69466824705673 },
        { index := 10, value := 347115701128365 / 69466824705673 },
        { index := 0, value := 347552545928365 / 69466824705673 },
        { index := 11, value := 69119272159744635 / 69466824705673 }]

/-- The members of `NbodyUtils` as its constructor leaves them for a table of two
Lagrange fractions. -/
def initialUtils : NbodyUtils ℚ :=
  { cod := { x := 0, y := 0, z := 0 }, radii := [], layers_radii := [0, 0] }

/-- The vector `radii` of `lineState` after `std::sort`, for the centre of density
`(5, 0, 0)`. -/
def lineSorted : List (Distance ℚ) :=
  [{ index := 5, value := 0 },
    { index := 4, value := 1 },
    { index := 6, value := 1 },
    { index := 3, value := 2 },
    { index := 7, value := 2 },
    { index := 2, value := 3 },
    { index := 8, value := 3 },
    { index := 1, value := 4 },
    { index := 9, value := 4 },
    { index := 0, value := 5 },
    { index := 10, value := 5 }]

/-- The state `lineState` with initial energy `en.ini = -1/4`. -/
def boundLineState : NbodySystem ℚ :=
  { lineState with en := { ini := -1 / 4, tmp := -1 / 4, kinetic := 0, potential := -1 / 4 } }

/-! ## The driver `Hermite4CPU::integration` -/

/-- The macro `ETA_S` of `common.hpp`. -/
def ETA_S {α : Type} [LinearOrderedField α] : α := 0.01

/-- The objects `integration()` works on: the state store `ns`, the utilities `nu`, and
the remaining members of the integrator (`h_p`, `h_move`, `h_r_sphere`, `nb_list`, ...),
which only the functions outside the sources use, as `priv`. -/
structure Machine (α ε : Type) where
  ns : NbodySystem α
  nu : NbodyUtils α
  priv : ε

/-- The member functions of `Hermite4CPU` and of `MultipleSystem` that `integration()`
calls and that are not among the sources.  Each one may rewrite the whole machine; the
arguments passed by pointer are parts of it.  `init_dt` and `next_integration_time` return
the new `ATIME`, `find_particles_to_move` returns `nact`, `get_close_encounters` returns
`new_binaries` and the vector `pairs`, `multiple_systems_integration` returns the vector
`ms`.  `spawn` stands for lines 91-112 and `ms_get_energy` for
`MultipleSystem::get_energy()`, which may read the state store. -/
structure Hermite4CPU (α ε : Type) where
  update_neighbour_radius : Machine α ε → Machine α ε
  init_acc_jrk : Machine α ε → Machine α ε
  init_dt : α → α → Machine α ε → α × Machine α ε
  find_particles_to_move : α → Machine α ε → Int × Machine α ε
  save_old_acc_jrk : Int → Machine α ε → Machine α ε
  multiple_systems_integration :
    List (MultipleSystem α) → α → Machine α ε → List (MultipleSystem α) × Machine α ε
  predicted_pos_vel : α → Machine α ε → Machine α ε
  update_acc_jrk : Int → Machine α ε → Machine α ε
  get_close_encounters :
    α → List binary_id → Int → Machine α ε → Bool × List binary_id × Machine α ε
  correction_pos_vel : α → Int → Machine α ε → Machine α ε
  spawn : binary_id → NbodySystem α → SParticle α × MultipleSystem α × NbodySystem α
  next_integration_time : α → Machine α ε → α × Machine α ε
  ms_get_energy : MultipleSystem α → NbodySystem α → α

/-- The calls of lines 60-166 of `integration()`; `binary_creation` is the block of lines
87-160. -/
inductive Phase where
  | find_particles_to_move
  | save_old_acc_jrk
  | multiple_systems_integration
  | predicted_pos_vel
  | update_acc_jrk
  | get_close_encounters
  | correction_pos_vel
  | binary_creation
  | next_integration_time
deriving DecidableEq

/-- The local variables of `integration()` (lines 8-12 and 50-53) with the machine, and
the output `energy_log`: the energies passed to `logger->print_energy_log` at lines 36,
209 and 212, in order. -/
structure LoopState (α ε : Type) where
  m : Machine α ε
  ATIME : α
  ITIME : α
  nact : Int
  nsteps : Int
  interactions : Int
  new_binaries : Bool
  pairs : List binary_id
  ms : List (MultipleSystem α)
  ms_energy : α
  energy_log : List α

/-- Lines 58-166 of `integration()`: one pass of the loop body up to the clock advance. -/
def loop_head {α ε : Type} [LinearOrderedField α] (P : Hermite4CPU α ε)
    (s : LoopState α ε) : LoopState α ε :=
  let s := { s with ITIME := s.ATIME }
  let out := P.find_particles_to_move s.ITIME s.m
  let s := { s with nact := out.1, m := out.2 }
  let s := { s with m := P.save_old_acc_jrk s.nact s.m }
  let s :=
    if 0 < s.ms.length then
      let out := P.multiple_systems_integration s.ms s.ITIME s.m
      { s with ms := out.1, m := out.2 }
    else s
  let s := { s with m := P.predicted_pos_vel s.ITIME s.m }
  let s := { s with m := P.update_acc_jrk s.nact s.m }
  let s := { s with new_binaries := false }
  let out := P.get_close_encounters s.ITIME s.pairs s.nact s.m
  let s := { s with new_binaries := out.1, pairs := out.2.1, m := out.2.2 }
  let s := { s with m := P.correction_pos_vel s.ITIME s.nact s.m }
  let s :=
    if s.new_binaries then
      let out := binary_creation double4.add P.spawn s.new_binaries s.pairs s.ms s.m.ns
      { s with pairs := out.1, ms := out.2.1, m := { s.m with ns := out.2.2 } }
    else s
  let s := { s with interactions := s.interactions + s.nact * (s.m.ns.n : Int) }
  let out := P.next_integration_time s.ATIME s.m
  { s with ATIME := out.1, m := out.2 }

/-- Lines 172-205 of `integration()`: the loop over `ms` at a global synchronization,
started with `ee = 0`; the result is `ee`, `ms_energy` and the state store. -/
def sync_energy {α ε : Type} [LinearOrderedField α] (P : Hermite4CPU α ε) (sqrt : α → α)
    (ms : List (MultipleSystem α)) (ms_energy : α) (ns : NbodySystem α) :
    α × α × NbodySystem α :=
  ms.foldl
    (fun (st : α × α × NbodySystem α) msi =>
      let ms_energy := st.2.1 + P.ms_get_energy msi st.2.2
      let out := sync_diagnostic double4.add sqrt st.2.2 st.1 (msi.parts 0) (msi.parts 1)
      (out.1, ms_energy, out.2))
    (0, ms_energy, ns)

/-- Lines 172-212 of `integration()`: the energies of the multiple systems and the two
energy logs of a global synchronization. -/
def loop_sync_energy {α ε : Type} [LinearOrderedField α] (P : Hermite4CPU α ε) (env : Env α)
    (s : LoopState α ε) : LoopState α ε :=
  let acc := sync_energy P env.sqrt s.ms s.ms_energy s.m.ns
  let ee := acc.1
  let s := { s with ms_energy := acc.2.1, m := { s.m with ns := acc.2.2 } }
  let s := if ee ≠ 0 then { s with energy_log := s.energy_log ++ [ee + s.ms_energy] } else s
  let e := get_energy env.sqrt s.m.ns s.ms_energy
  { s with m := { s.m with ns := e.2 }, energy_log := s.energy_log ++ [e.1] }

/-- Lines 214-275 of `integration()`: the optional outputs and the termination scan, or
`none` after an access outside a vector in `lagrange_radii()`. -/
def loop_sync_rest {α ε : Type} [LinearOrderedField α] (env : Env α)
    (s : LoopState α ε) : Option (LoopState α ε) :=
  match (if s.m.ns.ops.print_lagrange then lagrange_radii env s.m.nu s.m.ns
         else some s.m.nu) with
  | none => none
  | some nu =>
    let s := { s with m := { s.m with nu := nu } }
    if 0 < s.ms.length then
      let out := termination_scan double4.add Forces.add env.sqrt 0 s.ms s.m.ns
      some { s with ms := out.1, m := { s.m with ns := out.2 } }
    else some s

/-- Lines 58-286 of `integration()`: one pass of the body of the main loop. -/
def loop_body {α ε : Type} [LinearOrderedField α] (P : Hermite4CPU α ε) (env : Env α)
    (s : LoopState α ε) : Option (LoopState α ε) :=
  let s := loop_head P s
  match (if s.nact = (s.m.ns.n : Int) then loop_sync_rest env (loop_sync_energy P env s)
         else some s) with
  | none => none
  | some s =>
    let s := { s with ms_energy := 0.0 }
    let s := { s with nsteps := s.nsteps + s.nact }
    some { s with m := { s.m with ns := { s.m.ns with iterations := s.m.ns.iterations + 1 } } }

/-- How a run ends: the loop is left in state `s`, or a vector is accessed outside its
range, or the passes allowed to the model are used up while the guard still holds. -/
inductive Outcome (σ : Type) where
  | finished (s : σ)
  | out_of_range
  | out_of_fuel

/-- Lines 55-287 of `integration()`: `while (ITIME < ns->integration_time) { body }`, run
for at most `fuel` passes. -/
def main_loop {α ε : Type} [LinearOrderedField α] (P : Hermite4CPU α ε) (env : Env α) :
    Nat → LoopState α ε → Outcome (LoopState α ε)
  | 0, s => if s.ITIME < s.m.ns.integration_time then Outcome.out_of_fuel
            else Outcome.finished s
  | fuel + 1, s =>
    if s.ITIME < s.m.ns.integration_time then
      match loop_body P env s with
      | none => Outcome.out_of_range
      | some s1 => main_loop P env fuel s1
    else Outcome.finished s

/-- The state after `k` passes of the body of the main loop, without the guard. -/
def loop_iterate {α ε : Type} [LinearOrderedField α] (P : Hermite4CPU α ε) (env : Env α) :
    Nat → LoopState α ε → Option (LoopState α ε)
  | 0, s => some s
  | k + 1, s =>
    match loop_body P env s with
    | none => none
    | some s1 => loop_iterate P env k s1

/-- Lines 19-20 of `integration()`: `ns->en.ini = nu->get_energy(); ns->en.tmp =
ns->en.ini;` (the argument of `get_energy` is `0`). -/
def initial_energy {α : Type} [LinearOrderedField α] (sqrt : α → α) (ns : NbodySystem α) :
    NbodySystem α :=
  let e := get_energy sqrt ns 0
  let ns := { e.2 with en := { e.2.en with ini := e.1 } }
  { ns with en := { ns.en with tmp := ns.en.ini } }

/-- Lines 6-53 of `integration()`: everything before the main loop, or `none` after an
access outside a vector in `nbody_attributes()` or `lagrange_radii()`.  `interactions`
is the value of the static counter when the function is entered. -/
def integration_entry {α ε : Type} [LinearOrderedField α] (P : Hermite4CPU α ε)
    (env : Env α) (m : Machine α ε) (interactions : Int) : Option (LoopState α ε) :=
  let ATIME : α := 1.0e+10
  let ITIME : α := 0.0
  let nact : Int := 0
  let nsteps : Int := 0
  let ns := initial_energy env.sqrt m.ns
  match nbody_attributes env m.nu ns with
  | none => none
  | some out =>
    let m := { m with nu := out.1, ns := out.2 }
    let m := P.update_neighbour_radius m
    let m := P.init_acc_jrk m
    let o := P.init_dt ATIME ETA_S m
    let ATIME := o.1
    let m := o.2
    let energy_log := [m.ns.en.ini]
    match (if m.ns.ops.print_lagrange then lagrange_radii env m.nu m.ns
           else some m.nu) with
    | none => none
    | some nu =>
      some { m := { m with nu := nu }, ATIME := ATIME, ITIME := ITIME, nact := nact,
             nsteps := nsteps, interactions := interactions, new_binaries := false,
             pairs := [], ms := [], ms_energy := 0.0,
             energy_log := energy_log }

/-- The function `Hermite4CPU::integration()`, run for at most `fuel` passes of the main
loop. -/
def integration {α ε : Type} [LinearOrderedField α] (P : Hermite4CPU α ε) (env : Env α)
    (m : Machine α ε) (interactions : Int) (fuel : Nat) : Outcome (LoopState α ε) :=
  match integration_entry P env m interactions with
  | none => Outcome.out_of_range
  | some s => main_loop P env fuel s

/-- What one call of lines 60-166 does to the local variables and the machine: the
statement of `integration()` that makes the call.  `get_close_encounters` stands for lines
77-79, `binary_creation` for the block of lines 87-160 and `next_integration_time` for
lines 163-166. -/
def run_phase {α ε : Type} [LinearOrderedField α] (P : Hermite4CPU α ε) :
    Phase → LoopState α ε → LoopState α ε
  | Phase.find_particles_to_move, s =>
    { s with nact := (P.find_particles_to_move s.ITIME s.m).1,
             m := (P.find_particles_to_move s.ITIME s.m).2 }
  | Phase.save_old_acc_jrk, s => { s with m := P.save_old_acc_jrk s.nact s.m }
  | Phase.multiple_systems_integration, s =>
    if 0 < s.ms.length then
      { s with ms := (P.multiple_systems_integration s.ms s.ITIME s.m).1,
               m := (P.multiple_systems_integration s.ms s.ITIME s.m).2 }
    else s
  | Phase.predicted_pos_vel, s => { s with m := P.predicted_pos_vel s.ITIME s.m }
  | Phase.update_acc_jrk, s => { s with m := P.update_acc_jrk s.nact s.m }
  | Phase.get_close_encounters, s =>
    { s with new_binaries := (P.get_close_encounters s.ITIME s.pairs s.nact s.m).1,
             pairs := (P.get_close_encounters s.ITIME s.pairs s.nact s.m).2.1,
             m := (P.get_close_encounters s.ITIME s.pairs s.nact s.m).2.2 }
  | Phase.correction_pos_vel, s => { s with m := P.correction_pos_vel s.ITIME s.nact s.m }
  | Phase.binary_creation, s =>
    if s.new_binaries then
      { s with
        pairs := (binary_creation double4.add P.spawn s.new_binaries s.pairs s.ms s.m.ns).1,
        ms := (binary_creation double4.add P.spawn s.new_binaries s.pairs s.ms s.m.ns).2.1,
        m := { s.m with
          ns := (binary_creation double4.add P.spawn s.new_binaries s.pairs s.ms s.m.ns).2.2 } }
    else s
  | Phase.next_integration_time, s =>
    { s with interactions := s.interactions + s.nact * (s.m.ns.n : Int),
             ATIME := (P.next_integration_time s.ATIME s.m).1,
             m := (P.next_integration_time s.ATIME s.m).2 }

/-- Following the spec's words ("within one iteration: predict → ... → advance clock"): a
pass that takes the clock and then runs the phases in the order `order`. -/
def spec_pass {α ε : Type} [LinearOrderedField α] (P : Hermite4CPU α ε) (order : List Phase)
    (s : LoopState α ε) : LoopState α ε :=
  order.foldl (fun st ph => run_phase P ph st) { s with ITIME := s.ATIME }

/-- The order of the spec: predict, force on the active set, correct (with the step
reselection), encounter detection, optional spawn, clock advance, after the selection of
the active set and the integration of the existing systems. -/
def spec_phase_order : List Phase :=
  [Phase.find_particles_to_move, Phase.save_old_acc_jrk, Phase.multiple_systems_integration,
   Phase.predicted_pos_vel, Phase.update_acc_jrk, Phase.correction_pos_vel,
   Phase.get_close_encounters, Phase.binary_creation, Phase.next_integration_time]

/-- The order with the encounter detection before the correction. -/
def code_phase_order : List Phase :=
  [Phase.find_particles_to_move, Phase.save_old_acc_jrk, Phase.multiple_systems_integration,
   Phase.predicted_pos_vel, Phase.update_acc_jrk, Phase.get_close_encounters,
   Phase.correction_pos_vel, Phase.binary_creation, Phase.next_integration_time]

/-- Stand-ins for the functions outside the sources that write down, in the private state
of the machine, the order in which they are called: each member function appends its
name.  They report `nact` active particles and `found` as the result of the encounter
detection, and leave everything else as it is. -/
def recorder {α : Type} [LinearOrderedField α] (nact : Int) (found : Bool)
    (spawn : binary_id → NbodySystem α → SParticle α × MultipleSystem α × NbodySystem α) :
    Hermite4CPU α (List Phase) :=
  { update_neighbour_radius := fun m => m
    init_acc_jrk := fun m => m
    init_dt := fun a _ m => (a, m)
    find_particles_to_move := fun _ m =>
      (nact, { m with priv := m.priv ++ [Phase.find_particles_to_move] })
    save_old_acc_jrk := fun _ m => { m with priv := m.priv ++ [Phase.save_old_acc_jrk] }
    multiple_systems_integration := fun ms _ m =>
      (ms, { m with priv := m.priv ++ [Phase.multiple_systems_integration] })
    predicted_pos_vel := fun _ m => { m with priv := m.priv ++ [Phase.predicted_pos_vel] }
    update_acc_jrk := fun _ m => { m with priv := m.priv ++ [Phase.update_acc_jrk] }
    get_close_encounters := fun _ pairs _ m =>
      (found, pairs, { m with priv := m.priv ++ [Phase.get_close_encounters] })
    correction_pos_vel := fun _ _ m =>
      { m with priv := m.priv ++ [Phase.correction_pos_vel] }
    spawn := spawn
    next_integration_time := fun t m =>
      (t, { m with priv := m.priv ++ [Phase.next_integration_time] })
    ms_get_energy := fun _ _ => 0 }

/-- Stand-ins over `ℚ` for the functions outside the sources: one particle is active in
every pass, the clock starts at `0` and advances by `1/8`, no encounter is reported, and
nothing else changes. -/
def stubHermite : Hermite4CPU ℚ Unit :=
  { update_neighbour_radius := fun m => m
    init_acc_jrk := fun m => m
    init_dt := fun _ _ m => (0, m)
    find_particles_to_move := fun _ m => (1, m)
    save_old_acc_jrk := fun _ m => m
    multiple_systems_integration := fun ms _ m => (ms, m)
    predicted_pos_vel := fun _ m => m
    update_acc_jrk := fun _ m => m
    get_close_encounters := fun _ pairs _ m => (false, pairs, m)
    correction_pos_vel := fun _ _ m => m
    spawn := fun p ns => spawnIds p ns
    next_integration_time := fun t m => (t + 1 / 8, m)
    ms_get_energy := fun _ _ => 0 }

/-- The state at the head of the main loop for the two-body scenario with
`integration_time = 1/4`, the clock at `0` and no multiple system. -/
def stubStart : LoopState ℚ Unit :=
  { m := { ns := { (twoBodyCircular : NbodySystem ℚ) with integration_time := 1 / 4 },
           nu := initialUtils, priv := () }
    ATIME := 0
    ITIME := 0
    nact := 0
    nsteps := 0
    interactions := 0
    new_binaries := false
    pairs := []
    ms := []
    ms_energy := 0
    energy_log := [] }

/-- Stand-ins over `ℚ` whose private state tells whether the correction of the current
pass has run: the prediction clears the mark, the correction sets it, and the encounter
detector reports an encounter exactly when it finds the mark set. -/
def probeHermite : Hermite4CPU ℚ Bool :=
  { update_neighbour_radius := fun m => m
    init_acc_jrk := fun m => m
    init_dt := fun _ _ m => (0, m)
    find_particles_to_move := fun _ m => (1, m)
    save_old_acc_jrk := fun _ m => m
    multiple_systems_integration := fun ms _ m => (ms, m)
    predicted_pos_vel := fun _ m => { m with priv := false }
    update_acc_jrk := fun _ m => m
    get_close_encounters := fun _ pairs _ m => (m.priv, pairs, m)
    correction_pos_vel := fun _ _ m => { m with priv := true }
    spawn := fun p ns => spawnIds p ns
    next_integration_time := fun t m => (t + 1 / 8, m)
    ms_get_energy := fun _ _ => 0 }

/-- The state `stubStart` with the mark of `probeHermite` cleared. -/
def probeStart : LoopState ℚ Bool :=
  { m := { ns := { (twoBodyCircular : NbodySystem ℚ) with integration_time := 1 / 4 },
           nu := initialUtils, priv := false }
    ATIME := 0
    ITIME := 0
    nact := 0
    nsteps := 0
    interactions := 0
    new_binaries := false
    pairs := []
    ms := []
    ms_energy := 0
    energy_log := [] }

/-- The machine of the two-body scenario (`n = 2`). -/
def twoBodyMachine : Machine ℚ Unit :=
  { ns := { (twoBodyCircular : NbodySystem ℚ) with integration_time := 1 / 4 },
    nu := initialUtils, priv := () }

/-- The densities of the eleven particles of `lineState` with the conversions to `float`
of `floatEnv`. -/
def lineFloatDensities : List ℚ :=
  [13422737 / 68719476736,
   4603133 / 17179869184,
   3277035 / 8589934592,
   1222917 / 2147483648,
   7767787 / 8589934592,
   13422737 / 8589934592,
   7767787 / 8589934592,
   1222917 / 2147483648,
   3277035 / 8589934592,
   4603133 / 17179869184,
   13422737 / 68719476736]

/-! ## Basic facts on the constants -/

theorem D_TIME_MIN_eq {α : Type} [LinearOrderedField α] :
    (D_TIME_MIN : α) = 1 / 8388608 := by
  unfold D_TIME_MIN; norm_num

theorem D_TIME_MAX_eq {α : Type} [LinearOrderedField α] :
    (D_TIME_MAX : α) = 1 / 8 := by
  unfold D_TIME_MAX; norm_num

theorem D_TIME_MIN_pos {α : Type} [LinearOrderedField α] : (0 : α) < D_TIME_MIN := by
  rw [D_TIME_MIN_eq]; norm_num

theorem D_TIME_MIN_lt_MAX {α : Type} [LinearOrderedField α] :
    (D_TIME_MIN : α) < D_TIME_MAX := by
  rw [D_TIME_MIN_eq, D_TIME_MAX_eq]; norm_num

theorem ceil_eq_iff_isIntMultiple {α : Type} [LinearOrderedField α] [FloorRing α]
    (t d : α) (hd : d ≠ 0) :
    ((Int.ceil (t / d) : ℤ) : α) = t / d ↔ IsIntMultiple t d := by
  constructor
  · intro h
    refine ⟨Int.ceil (t / d), ?_⟩
    rw [h]; field_simp
  · rintro ⟨k, hk⟩
    have : t / d = (k : α) := by rw [hk]; field_simp
    rw [this, Int.ceil_intCast]

theorem normalize_dt_clamp_eq_max_min {α : Type} [LinearOrderedField α] (x : α) :
    normalize_dt_clamp x = max D_TIME_MIN (min D_TIME_MAX x) := by
  have hlt : (D_TIME_MIN : α) < D_TIME_MAX := D_TIME_MIN_lt_MAX
  unfold normalize_dt_clamp
  split_ifs with h1 h2
  · rw [max_eq_left]; exact le_trans (min_le_right _ _) h1.le
  · rw [min_eq_left h2.le, max_eq_right hlt.le]
  · rw [min_eq_right (not_lt.mp h2), max_eq_right (not_lt.mp h1)]

theorem normalize_dt_bin_cases {α : Type} [LinearOrderedField α] [FloorRing α]
    (new_dt old_dt t : α) (i : Nat) :
    normalize_dt_bin new_dt old_dt t i = D_TIME_MIN ∨
    normalize_dt_bin new_dt old_dt t i = old_dt / 8 ∨
    normalize_dt_bin new_dt old_dt t i = old_dt / 4 ∨
    normalize_dt_bin new_dt old_dt t i = old_dt / 2 ∨
    normalize_dt_bin new_dt old_dt t i = old_dt ∨
    (normalize_dt_bin new_dt old_dt t i = 2 * old_dt ∧
      ((Int.ceil (t / (2 * old_dt)) : ℤ) : α) = t / (2 * old_dt)) := by
  unfold normalize_dt_bin
  simp only []
  split_ifs <;> simp_all

theorem D_TIME_MIN_eq_zpow {α : Type} [LinearOrderedField α] :
    (D_TIME_MIN : α) = (2 : α) ^ (-23 : ℤ) := by
  rw [D_TIME_MIN_eq, zpow_neg]; norm_num

theorem D_TIME_MAX_eq_zpow {α : Type} [LinearOrderedField α] :
    (D_TIME_MAX : α) = (2 : α) ^ (-3 : ℤ) := by
  rw [D_TIME_MAX_eq, zpow_neg]; norm_num

theorem normalize_dt_clamp_zpow {α : Type} [LinearOrderedField α] (j : ℤ) :
    normalize_dt_clamp ((2 : α) ^ j) = (2 : α) ^ (max (-23) (min (-3) j)) := by
  have h2 : (1 : α) < 2 := by norm_num
  unfold normalize_dt_clamp
  rw [D_TIME_MIN_eq_zpow, D_TIME_MAX_eq_zpow]
  simp only [gt_iff_lt, zpow_lt_zpow_iff_right₀ h2]
  split_ifs with h1 h3
  · congr 1; omega
  · congr 1; omega
  · congr 1; omega

theorem zpow_two_sub_nat {α : Type} [LinearOrderedField α] (k : ℤ) (c : ℕ) :
    (2 : α) ^ k / (2 : α) ^ c = (2 : α) ^ (k - c) := by
  rw [zpow_sub₀ (by norm_num : (2 : α) ≠ 0), zpow_natCast]

theorem isIntMultiple_zpow_of_le {α : Type} [LinearOrderedField α] (t : α) (a b : ℤ)
    (hab : b ≤ a) (h : IsIntMultiple t ((2 : α) ^ a)) : IsIntMultiple t ((2 : α) ^ b) := by
  obtain ⟨m, hm⟩ := h
  refine ⟨m * 2 ^ (a - b).toNat, ?_⟩
  have h2 : (2 : α) ≠ 0 := by norm_num
  have ha : a = (a - b).toNat + b := by
    have := Int.toNat_of_nonneg (sub_nonneg.mpr hab); omega
  rw [hm]
  conv_lhs => rw [ha, zpow_add₀ h2, zpow_natCast]
  push_cast
  ring

/-- Shape of the result of `normalize_dt` on a power-of-two `old_dt` inside the limits:
the result is a power of two inside the limits, whose exponent either does not exceed
that of `old_dt`, or is one more when `t` is a multiple of `2 * old_dt`. -/
theorem normalize_dt_zpow_shape {α : Type} [LinearOrderedField α] [FloorRing α]
    (k : ℤ) (hk1 : -23 ≤ k) (hk2 : k ≤ -3) (new_dt t : α) (i : Nat) :
    ∃ j : ℤ, -23 ≤ j ∧ j ≤ -3 ∧ normalize_dt new_dt ((2 : α) ^ k) t i = (2 : α) ^ j ∧
      (j ≤ k ∨ (j ≤ k + 1 ∧ IsIntMultiple t ((2 : α) ^ (k + 1)))) := by
  have h2 : (2 : α) ≠ 0 := by norm_num
  have e8 : (2 : α) ^ k / 8 = (2 : α) ^ (k - 3) := by
    have := @zpow_two_sub_nat α _ k 3; norm_num at this; exact this
  have e4 : (2 : α) ^ k / 4 = (2 : α) ^ (k - 2) := by
    have := @zpow_two_sub_nat α _ k 2; norm_num at this; exact this
  have e2 : (2 : α) ^ k / 2 = (2 : α) ^ (k - 1) := by
    have := @zpow_two_sub_nat α _ k 1; norm_num at this; exact this
  have e1 : 2 * (2 : α) ^ k = (2 : α) ^ (k + 1) := by
    rw [zpow_add₀ h2, zpow_one]; ring
  unfold normalize_dt
  rcases normalize_dt_bin_cases new_dt ((2 : α) ^ k) t i with h | h | h | h | h | ⟨h, hc⟩
  · rw [h, D_TIME_MIN_eq_zpow, normalize_dt_clamp_zpow]
    exact ⟨_, by omega, by omega, rfl, Or.inl (by omega)⟩
  · rw [h, e8, normalize_dt_clamp_zpow]
    exact ⟨_, by omega, by omega, rfl, Or.inl (by omega)⟩
  · rw [h, e4, normalize_dt_clamp_zpow]
    exact ⟨_, by omega, by omega, rfl, Or.inl (by omega)⟩
  · rw [h, e2, normalize_dt_clamp_zpow]
    exact ⟨_, by omega, by omega, rfl, Or.inl (by omega)⟩
  · rw [h, normalize_dt_clamp_zpow]
    exact ⟨_, by omega, by omega, rfl, Or.inl (by omega)⟩
  · rw [h, e1, normalize_dt_clamp_zpow]
    refine ⟨_, by omega, by omega, rfl, Or.inr ⟨by omega, ?_⟩⟩
    rw [e1] at hc
    exact (ceil_eq_iff_isIntMultiple t _ (zpow_ne_zero _ h2)).mp hc

/-- The chain of `normalize_dt` with the redundant left conjuncts removed: in a linear
order each `else if` is reached only when its left conjunct already holds. -/
theorem normalize_dt_bin_eq {α : Type} [LinearOrderedField α] [FloorRing α]
    (new_dt old_dt t : α) (i : Nat) :
    normalize_dt_bin new_dt old_dt t i =
      if new_dt ≤ old_dt / 8 then D_TIME_MIN
      else if new_dt ≤ old_dt / 4 then old_dt / 8
      else if new_dt ≤ old_dt / 2 then old_dt / 4
      else if new_dt ≤ old_dt then old_dt / 2
      else if new_dt ≤ old_dt * 2 then old_dt
      else if ((Int.ceil (t / (2 * old_dt)) : ℤ) : α) = t / (2 * old_dt) then 2 * old_dt
      else old_dt := by
  unfold normalize_dt_bin
  simp only []
  by_cases h1 : new_dt ≤ old_dt / 8
  · rw [if_pos h1, if_pos h1]
  rw [if_neg h1, if_neg h1]
  by_cases h2 : new_dt ≤ old_dt / 4
  · rw [if_pos ⟨not_le.mp h1, h2⟩, if_pos h2]
  rw [if_neg (fun h => h2 h.2), if_neg h2]
  by_cases h3 : new_dt ≤ old_dt / 2
  · rw [if_pos ⟨not_le.mp h2, h3⟩, if_pos h3]
  rw [if_neg (fun h => h3 h.2), if_neg h3]
  by_cases h4 : new_dt ≤ old_dt
  · rw [if_pos ⟨not_le.mp h3, h4⟩, if_pos h4]
  rw [if_neg (fun h => h4 h.2), if_neg h4]
  by_cases h5 : new_dt ≤ old_dt * 2
  · rw [if_pos ⟨not_le.mp h4, h5⟩, if_pos h5]
  rw [if_neg (fun h => h5 h.2), if_neg h5]
  have h6 : 2 * old_dt < new_dt := by rw [mul_comm]; exact not_le.mp h5
  rw [if_pos h6]

/-- The binned value is `D_TIME_MIN` or lies strictly below the request. -/
theorem normalize_dt_bin_min_or_lt {α : Type} [LinearOrderedField α] [FloorRing α]
    (y old_dt t : α) (i : Nat) :
    normalize_dt_bin y old_dt t i = D_TIME_MIN ∨ normalize_dt_bin y old_dt t i < y := by
  rw [normalize_dt_bin_eq]
  split_ifs with h1 h2 h3 h4 h5 h6
  · exact Or.inl rfl
  · exact Or.inr (not_le.mp h1)
  · exact Or.inr (not_le.mp h2)
  · exact Or.inr (not_le.mp h3)
  · exact Or.inr (not_le.mp h4)
  · right; rw [mul_comm]; exact not_le.mp h5
  · exact Or.inr (not_le.mp h4)

theorem normalize_dt_clamp_min {α : Type} [LinearOrderedField α] :
    normalize_dt_clamp (D_TIME_MIN : α) = D_TIME_MIN := by
  unfold normalize_dt_clamp
  rw [if_neg (lt_irrefl _), if_neg (not_lt.mpr D_TIME_MIN_lt_MAX.le)]

theorem not_isIntMultiple_sixteenth_eighth {α : Type} [LinearOrderedField α] :
    ¬ IsIntMultiple (1 / 16 : α) (1 / 8) := by
  rintro ⟨k, hk⟩
  have h : ((k * 2 : ℤ) : α) = ((1 : ℤ) : α) := by push_cast; linarith
  have h' : k * 2 = 1 := Int.cast_injective h
  omega

theorem normalize_dt_clamp_bounds {α : Type} [LinearOrderedField α] (x : α) :
    D_TIME_MIN ≤ normalize_dt_clamp x ∧ normalize_dt_clamp x ≤ D_TIME_MAX := by
  have hlt : (D_TIME_MIN : α) < D_TIME_MAX := D_TIME_MIN_lt_MAX
  unfold normalize_dt_clamp
  constructor
  · split_ifs with h1 h2
    · exact le_rfl
    · exact hlt.le
    · exact not_lt.mp h1
  · split_ifs with h1 h2
    · exact hlt.le
    · exact le_rfl
    · exact not_lt.mp h2

/-- The bin table when the quotient of line 395 is exact: for `old_dt > 0` the value before
the limit tests is `D_TIME_MIN` for `r = new_dt / old_dt ≤ 1/8`, `old_dt/8` on `(1/8, 1/4]`,
`old_dt/4` on `(1/4, 1/2]`, `old_dt/2` on `(1/2, 1]`, `old_dt` on `(1, 2]`, and for `r > 2`
it is `2*old_dt` when `t` is an integer multiple of `2*old_dt` and `old_dt` otherwise. -/
theorem normalize_dt_bin_table {α : Type} [LinearOrderedField α] [FloorRing α]
    (new_dt old_dt t : α) (i : Nat) (hold : 0 < old_dt) :
    (new_dt / old_dt ≤ 1 / 8 → normalize_dt_bin new_dt old_dt t i = D_TIME_MIN) ∧
    (1 / 8 < new_dt / old_dt → new_dt / old_dt ≤ 1 / 4 →
      normalize_dt_bin new_dt old_dt t i = old_dt / 8) ∧
    (1 / 4 < new_dt / old_dt → new_dt / old_dt ≤ 1 / 2 →
      normalize_dt_bin new_dt old_dt t i = old_dt / 4) ∧
    (1 / 2 < new_dt / old_dt → new_dt / old_dt ≤ 1 →
      normalize_dt_bin new_dt old_dt t i = old_dt / 2) ∧
    (1 < new_dt / old_dt → new_dt / old_dt ≤ 2 →
      normalize_dt_bin new_dt old_dt t i = old_dt) ∧
    (2 < new_dt / old_dt → IsIntMultiple t (2 * old_dt) →
      normalize_dt_bin new_dt old_dt t i = 2 * old_dt) ∧
    (2 < new_dt / old_dt → ¬ IsIntMultiple t (2 * old_dt) →
      normalize_dt_bin new_dt old_dt t i = old_dt) ∧
    normalize_dt new_dt old_dt t i
      = max D_TIME_MIN (min D_TIME_MAX (normalize_dt_bin new_dt old_dt t i)) := by
  have hle : ∀ c : α, new_dt / old_dt ≤ c ↔ new_dt ≤ c * old_dt := fun c => div_le_iff₀ hold
  have hlt : ∀ c : α, c < new_dt / old_dt ↔ c * old_dt < new_dt := fun c => lt_div_iff₀ hold
  have hne : (2 * old_dt) ≠ 0 := by positivity
  have hc := ceil_eq_iff_isIntMultiple t (2 * old_dt) hne
  simp only [hle, hlt]
  refine ⟨?_, ?_, ?_, ?_, ?_, ?_, ?_, ?_⟩
  · intro h
    unfold normalize_dt_bin
    rw [if_pos (by linarith)]
  · intro h1 h2
    unfold normalize_dt_bin
    rw [if_neg (by linarith), if_pos ⟨by linarith, by linarith⟩]
  · intro h1 h2
    unfold normalize_dt_bin
    rw [if_neg (by linarith), if_neg (by rintro ⟨-, h⟩; linarith),
      if_pos ⟨by linarith, by linarith⟩]
  · intro h1 h2
    unfold normalize_dt_bin
    rw [if_neg (by linarith), if_neg (by rintro ⟨-, h⟩; linarith),
      if_neg (by rintro ⟨-, h⟩; linarith), if_pos ⟨by linarith, by linarith⟩]
  · intro h1 h2
    unfold normalize_dt_bin
    rw [if_neg (by linarith), if_neg (by rintro ⟨-, h⟩; linarith),
      if_neg (by rintro ⟨-, h⟩; linarith), if_neg (by rintro ⟨-, h⟩; linarith),
      if_pos ⟨by linarith, by linarith⟩]
  · intro h1 h2
    unfold normalize_dt_bin
    rw [if_neg (by linarith), if_neg (by rintro ⟨-, h⟩; linarith),
      if_neg (by rintro ⟨-, h⟩; linarith), if_neg (by rintro ⟨-, h⟩; linarith),
      if_neg (by rintro ⟨-, h⟩; linarith), if_pos (by linarith)]
    simp only []
    rw [if_pos (hc.mpr h2)]
  · intro h1 h2
    unfold normalize_dt_bin
    rw [if_neg (by linarith), if_neg (by rintro ⟨-, h⟩; linarith),
      if_neg (by rintro ⟨-, h⟩; linarith), if_neg (by rintro ⟨-, h⟩; linarith),
      if_neg (by rintro ⟨-, h⟩; linarith), if_pos (by linarith)]
    simp only []
    rw [if_neg (fun h => h2 (hc.mp h))]
  · unfold normalize_dt
    exact normalize_dt_clamp_eq_max_min _

/-- The scenario `old_dt = 1/16`, `new_dt = 1/30`: the exact table returns `1/32`. -/
theorem normalize_dt_bin_table_scenario :
    (0 : ℚ) < 1 / 16 ∧ normalize_dt (1 / 30 : ℚ) (1 / 16) 0 0 = 1 / 32 := by
  have h := normalize_dt_bin_table (1 / 30 : ℚ) (1 / 16) 0 0 (by norm_num)
  refine ⟨by norm_num, ?_⟩
  rw [h.2.2.2.2.2.2.2, h.2.2.2.1 (by norm_num) (by norm_num), D_TIME_MIN_eq, D_TIME_MAX_eq]
  norm_num

/-- C2: for all `new_dt`, `old_dt` (also zero or negative) and `t`, the value returned by
`normalize_dt` lies in `[D_TIME_MIN, D_TIME_MAX]`, and a step whose binned value is below
`D_TIME_MIN` is returned as exactly `D_TIME_MIN`. -/
theorem normalize_dt_in_limits {α : Type} [LinearOrderedField α] [FloorRing α]
    (new_dt old_dt t : α) (i : Nat) :
    D_TIME_MIN ≤ normalize_dt new_dt old_dt t i ∧
    normalize_dt new_dt old_dt t i ≤ D_TIME_MAX ∧
    (normalize_dt_bin new_dt old_dt t i < D_TIME_MIN →
      normalize_dt new_dt old_dt t i = D_TIME_MIN) := by
  refine ⟨(normalize_dt_clamp_bounds _).1, (normalize_dt_clamp_bounds _).2, ?_⟩
  intro h
  unfold normalize_dt normalize_dt_clamp
  rw [if_pos h]

/-- Witness for C2: `new_dt = 2^-24`, `old_dt = 2^-22` bins to `old_dt/8 = 2^-25`, below
`D_TIME_MIN`, and `D_TIME_MIN` is returned. -/
theorem normalize_dt_in_limits_witness :
    normalize_dt_bin (1 / 16777216 : ℚ) (1 / 4194304) 1 0 < D_TIME_MIN ∧
    normalize_dt (1 / 16777216 : ℚ) (1 / 4194304) 1 0 = D_TIME_MIN := by
  have hb : normalize_dt_bin (1 / 16777216 : ℚ) (1 / 4194304) 1 0 < D_TIME_MIN := by
    unfold normalize_dt_bin
    rw [D_TIME_MIN_eq]
    norm_num
  exact ⟨hb, (normalize_dt_in_limits (1 / 16777216 : ℚ) (1 / 4194304) 1 0).2.2 hb⟩

/-- C3: power-of-two discipline: for `old_dt = 2^k` with `-23 ≤ k ≤ -3`, every `new_dt`
and every `t`, `normalize_dt new_dt old_dt t i` is `2^k'` for some `-23 ≤ k' ≤ -3`. -/
theorem normalize_dt_power_of_two {α : Type} [LinearOrderedField α] [FloorRing α]
    (k : ℤ) (hk1 : -23 ≤ k) (hk2 : k ≤ -3) (new_dt t : α) (i : Nat) :
    ∃ k' : ℤ, -23 ≤ k' ∧ k' ≤ -3 ∧ normalize_dt new_dt ((2 : α) ^ k) t i = (2 : α) ^ k' := by
  obtain ⟨j, h1, h2, h3, -⟩ := normalize_dt_zpow_shape k hk1 hk2 new_dt t i
  exact ⟨j, h1, h2, h3⟩

/-- Witness for C3: `old_dt = 2^-4`, `new_dt = 1/30`, `t = 0`. -/
theorem normalize_dt_power_of_two_witness :
    ∃ k' : ℤ, -23 ≤ k' ∧ k' ≤ -3 ∧
      normalize_dt (1 / 30 : ℚ) ((2 : ℚ) ^ (-4 : ℤ)) 0 0 = (2 : ℚ) ^ k' :=
  normalize_dt_power_of_two (-4) (by decide) (by decide) (1 / 30 : ℚ) 0 0

/-- C4: block-step commensurability: for `old_dt = 2^k` with `-23 ≤ k ≤ -3`, `t` an integer
multiple of `old_dt` and every `new_dt`, the step `dt' = normalize_dt new_dt old_dt t i`
divides `t` exactly, hence `t + dt'` is an integer multiple of `dt'`. -/
theorem normalize_dt_commensurable {α : Type} [LinearOrderedField α] [FloorRing α]
    (k : ℤ) (hk1 : -23 ≤ k) (hk2 : k ≤ -3) (new_dt t : α) (i : Nat)
    (ht : IsIntMultiple t ((2 : α) ^ k)) :
    IsIntMultiple t (normalize_dt new_dt ((2 : α) ^ k) t i) ∧
    IsIntMultiple (t + normalize_dt new_dt ((2 : α) ^ k) t i)
      (normalize_dt new_dt ((2 : α) ^ k) t i) := by
  obtain ⟨j, -, -, h3, h4⟩ := normalize_dt_zpow_shape k hk1 hk2 new_dt t i
  have hdiv : IsIntMultiple t (normalize_dt new_dt ((2 : α) ^ k) t i) := by
    rw [h3]
    rcases h4 with h | ⟨h, hm⟩
    · exact isIntMultiple_zpow_of_le t k j h ht
    · exact isIntMultiple_zpow_of_le t (k + 1) j h hm
  refine ⟨hdiv, ?_⟩
  obtain ⟨m, hm⟩ := hdiv
  refine ⟨m + 1, ?_⟩
  push_cast
  rw [add_mul, one_mul, ← hm]

/-- Witness for C4: `old_dt = 2^-4`, `t = 3 * 2^-4`, `new_dt = 1/5`. -/
theorem normalize_dt_commensurable_witness :
    IsIntMultiple (3 * (2 : ℚ) ^ (-4 : ℤ)) ((2 : ℚ) ^ (-4 : ℤ)) ∧
    IsIntMultiple (3 * (2 : ℚ) ^ (-4 : ℤ))
      (normalize_dt (1 / 5 : ℚ) ((2 : ℚ) ^ (-4 : ℤ)) (3 * (2 : ℚ) ^ (-4 : ℤ)) 0) :=
  ⟨⟨3, by norm_num⟩,
   (normalize_dt_commensurable (-4) (by decide) (by decide) (1 / 5 : ℚ)
      (3 * (2 : ℚ) ^ (-4 : ℤ)) 0 ⟨3, by norm_num⟩).1⟩

/-- C5, counterexample: with `old_dt = 1/16`, `t = 0` the request `1/30` is quantized to
`1/32`, and quantizing `1/32` again against the same `old_dt` gives `1/64`. -/
theorem normalize_dt_not_idempotent :
    normalize_dt (1 / 30 : ℚ) (1 / 16) 0 0 = 1 / 32 ∧
    normalize_dt (normalize_dt (1 / 30 : ℚ) (1 / 16) 0 0) (1 / 16) 0 0 = 1 / 64 ∧
    normalize_dt (normalize_dt (1 / 30 : ℚ) (1 / 16) 0 0) (1 / 16) 0 0
      ≠ normalize_dt (1 / 30 : ℚ) (1 / 16) 0 0 := by
  have h1 : normalize_dt (1 / 30 : ℚ) (1 / 16) 0 0 = 1 / 32 := by
    unfold normalize_dt normalize_dt_clamp
    rw [normalize_dt_bin_eq, D_TIME_MIN_eq, D_TIME_MAX_eq]
    norm_num
  have h2 : normalize_dt (1 / 32 : ℚ) (1 / 16) 0 0 = 1 / 64 := by
    unfold normalize_dt normalize_dt_clamp
    rw [normalize_dt_bin_eq, D_TIME_MIN_eq, D_TIME_MAX_eq]
    norm_num
  refine ⟨h1, ?_, ?_⟩
  · rw [h1, h2]
  · rw [h1, h2]; norm_num

/-- C5, amended: quantizing the quantized step again (same `old_dt`, same `t`) never
increases it, and returns the same value exactly when that value is `D_TIME_MIN`. -/
theorem normalize_dt_twice {α : Type} [LinearOrderedField α] [FloorRing α]
    (new_dt old_dt t : α) (i : Nat) :
    normalize_dt (normalize_dt new_dt old_dt t i) old_dt t i ≤ normalize_dt new_dt old_dt t i ∧
    (normalize_dt (normalize_dt new_dt old_dt t i) old_dt t i = normalize_dt new_dt old_dt t i
      ↔ normalize_dt new_dt old_dt t i = D_TIME_MIN) := by
  obtain ⟨hlo, hhi⟩ := normalize_dt_clamp_bounds (normalize_dt_bin new_dt old_dt t i)
  change D_TIME_MIN ≤ normalize_dt new_dt old_dt t i at hlo
  change normalize_dt new_dt old_dt t i ≤ D_TIME_MAX at hhi
  generalize normalize_dt new_dt old_dt t i = y at hlo hhi
  have key : normalize_dt y old_dt t i = D_TIME_MIN ∨ normalize_dt y old_dt t i < y := by
    unfold normalize_dt
    rcases normalize_dt_bin_min_or_lt y old_dt t i with h | h
    · rw [h, normalize_dt_clamp_min]; exact Or.inl rfl
    · unfold normalize_dt_clamp
      split_ifs with h1 h2
      · exact Or.inl rfl
      · exact absurd (lt_of_lt_of_le h hhi) (not_lt.mpr h2.le)
      · exact Or.inr h
  refine ⟨?_, ?_, ?_⟩
  · rcases key with h | h
    · rw [h]; exact hlo
    · exact h.le
  · intro h
    rcases key with h' | h'
    · rw [← h, h']
    · exact absurd h (ne_of_lt h')
  · intro h
    rcases key with h' | h'
    · rw [h', h]
    · rw [h] at h'
      exact absurd h' (not_lt.mpr (normalize_dt_clamp_bounds (normalize_dt_bin D_TIME_MIN old_dt t i)).1)

/-- C6, counterexample: at `t = 0` (a multiple of `2 * old_dt = 1/8`) the growth request
`new_dt = 1/5` against `old_dt = 1/16` returns `1/8`, not `1/16`. -/
theorem normalize_dt_growth_at_zero :
    normalize_dt (1 / 5 : ℚ) (1 / 16) 0 0 = 1 / 8 ∧
    normalize_dt (1 / 5 : ℚ) (1 / 16) 0 0 ≠ 1 / 16 := by
  have h : normalize_dt (1 / 5 : ℚ) (1 / 16) 0 0 = 1 / 8 := by
    unfold normalize_dt normalize_dt_clamp
    rw [normalize_dt_bin_eq, D_TIME_MIN_eq, D_TIME_MAX_eq]
    norm_num
  exact ⟨h, by rw [h]; norm_num⟩

/-- C6, amended: `normalize_dt(new_dt = 1/5, old_dt = 1/16, t, i)` returns `1/16` for every
`t` that is not an integer multiple of `1/8`, and `1/8` for every `t` that is. -/
theorem normalize_dt_growth {α : Type} [LinearOrderedField α] [FloorRing α]
    (t : α) (i : Nat) :
    (¬ IsIntMultiple t (1 / 8) → normalize_dt (1 / 5) (1 / 16) t i = 1 / 16) ∧
    (IsIntMultiple t (1 / 8) → normalize_dt (1 / 5) (1 / 16) t i = 1 / 8) := by
  have hc := ceil_eq_iff_isIntMultiple t (2 * (1 / 16) : α) (by norm_num)
  have e : (2 * (1 / 16) : α) = 1 / 8 := by norm_num
  rw [e] at hc
  have hbin : normalize_dt_bin (1 / 5) (1 / 16) t i
      = if ((Int.ceil (t / (1 / 8)) : ℤ) : α) = t / (1 / 8) then (1 / 8 : α) else 1 / 16 := by
    rw [normalize_dt_bin_eq, e,
      if_neg (by norm_num), if_neg (by norm_num), if_neg (by norm_num), if_neg (by norm_num),
      if_neg (by norm_num)]
  unfold normalize_dt normalize_dt_clamp
  rw [hbin, D_TIME_MIN_eq, D_TIME_MAX_eq]
  constructor
  · intro h
    rw [if_neg (fun h' => h (hc.mp h'))]
    norm_num
  · intro h
    rw [if_pos (hc.mpr h)]
    norm_num

/-- Witness for C6 (amended): `t = 1/16` is not a multiple of `1/8` and the result is
`1/16`. -/
theorem normalize_dt_growth_witness :
    ¬ IsIntMultiple (1 / 16 : ℚ) (1 / 8) ∧ normalize_dt (1 / 5 : ℚ) (1 / 16) (1 / 16) 0 = 1 / 16 :=
  ⟨not_isIntMultiple_sixteenth_eighth,
   (normalize_dt_growth (1 / 16 : ℚ) 0).1 not_isIntMultiple_sixteenth_eighth⟩

/-- C7, counterexample: the collapse request `new_dt = 1/100` against `old_dt = 1/16` lies in
the bin `(old_dt/8, old_dt/4]` and returns `1/128`, which is not `D_TIME_MIN`. -/
theorem normalize_dt_collapse_at_zero :
    normalize_dt (1 / 100 : ℚ) (1 / 16) 0 0 = 1 / 128 ∧
    normalize_dt (1 / 100 : ℚ) (1 / 16) 0 0 ≠ D_TIME_MIN := by
  have h : normalize_dt (1 / 100 : ℚ) (1 / 16) 0 0 = 1 / 128 := by
    unfold normalize_dt normalize_dt_clamp
    rw [normalize_dt_bin_eq, D_TIME_MIN_eq, D_TIME_MAX_eq]
    norm_num
  exact ⟨h, by rw [h, D_TIME_MIN_eq]; norm_num⟩

/-- C7, amended: for every particle time `t`,
`normalize_dt(new_dt = 1/100, old_dt = 1/16, t, i)` returns `old_dt / 8 = 1/128`. -/
theorem normalize_dt_collapse {α : Type} [LinearOrderedField α] [FloorRing α]
    (t : α) (i : Nat) :
    normalize_dt (1 / 100) (1 / 16) t i = 1 / 128 := by
  have hbin : normalize_dt_bin (1 / 100 : α) (1 / 16) t i = 1 / 16 / 8 := by
    rw [normalize_dt_bin_eq, if_neg (by norm_num), if_pos (by norm_num)]
  unfold normalize_dt normalize_dt_clamp
  rw [hbin, D_TIME_MIN_eq, D_TIME_MAX_eq]
  norm_num

/-! ## Energy diagnostics -/

theorem forLoop_add {α : Type} [LinearOrderedField α] (f : Nat → α) (lo hi : Nat) (a : α) :
    forLoop lo hi (fun k e => e + f k) a = a + ∑ k in Finset.Ico lo hi, f k := by
  unfold forLoop
  generalize hlen : hi - lo = len
  induction len generalizing lo a with
  | zero =>
    have : hi ≤ lo := Nat.sub_eq_zero_iff_le.mp hlen
    simp [Finset.Ico_eq_empty_of_le this]
  | succ m ih =>
    have hlt : lo < hi := by omega
    rw [List.range'_succ, List.foldl_cons, ih (lo + 1) (a + f lo) (by omega),
      Finset.sum_eq_sum_Ico_succ_bot hlt, add_assoc]

theorem forLoop_sub {α : Type} [LinearOrderedField α] (f : Nat → α) (lo hi : Nat) (a : α) :
    forLoop lo hi (fun k e => e - f k) a = a - ∑ k in Finset.Ico lo hi, f k := by
  have h := forLoop_add (fun k => - f k) lo hi a
  simp only [← sub_eq_add_neg, Finset.sum_neg_distrib] at h
  exact h

/-- Row `i` of the potential sum: `Σ_{i<j<n} m_i m_j / |r_j − r_i|`. -/
theorem epot_row {α : Type} [LinearOrderedField α] (sqrt : α → α) (ns : NbodySystem α)
    (i : Nat) :
    forLoop (i + 1) ns.n (fun j e => epot_step sqrt ns i j e) 0
      = - ∑ j in Finset.Ico (i + 1) ns.n,
          (ns.h_r i).w * (ns.h_r j).w / separation sqrt (ns.h_r i) (ns.h_r j) := by
  have h := forLoop_sub
    (fun j => (ns.h_r i).w * (ns.h_r j).w / separation sqrt (ns.h_r i) (ns.h_r j))
    (i + 1) ns.n 0
  rw [zero_sub] at h
  exact h

theorem sum_pairsBelow {α : Type} [LinearOrderedField α] (n : Nat) (g : Nat → Nat → α) :
    ∑ p in pairsBelow n, g p.1 p.2
      = ∑ i in Finset.range n, ∑ j in Finset.Ico (i + 1) n, g i j := by
  unfold pairsBelow
  rw [Finset.sum_filter, Finset.sum_product]
  refine Finset.sum_congr rfl (fun i _ => ?_)
  rw [← Finset.sum_filter]
  refine Finset.sum_congr ?_ (fun _ _ => rfl)
  ext j
  simp only [Finset.mem_filter, Finset.mem_range, Finset.mem_Ico]
  omega

/-- Effect of a run of the outer loop body of `get_energy` over the indices `l`: only
`en.kinetic` and `en.potential` change, by the sums of the per-particle terms. -/
theorem foldl_get_energy_body {α : Type} [LinearOrderedField α] (sqrt : α → α)
    (l : List Nat) (ns : NbodySystem α) :
    l.foldl (fun s k => get_energy_body sqrt k s) ns =
      { ns with en := { ns.en with
          kinetic := ns.en.kinetic
            + (l.map (fun i => 1 / 2 * ((ns.h_r i).w * norm2 (ns.h_v i)))).sum
          potential := ns.en.potential
            + (l.map (fun i => - ∑ j in Finset.Ico (i + 1) ns.n,
                (ns.h_r i).w * (ns.h_r j).w
                  / separation sqrt (ns.h_r i) (ns.h_r j))).sum } } := by
  induction l generalizing ns with
  | nil => simp
  | cons i l ih =>
    have hb : get_energy_body sqrt i ns =
        { ns with en := { ns.en with
            kinetic := ns.en.kinetic + 1 / 2 * ((ns.h_r i).w * norm2 (ns.h_v i))
            potential := ns.en.potential
              + - ∑ j in Finset.Ico (i + 1) ns.n,
                (ns.h_r i).w * (ns.h_r j).w
                  / separation sqrt (ns.h_r i) (ns.h_r j) } } := by
      unfold get_energy_body
      simp only []
      rw [epot_row]
      have e : (0.5 : α) * (ns.h_r i).w
          * ((ns.h_v i).x * (ns.h_v i).x + (ns.h_v i).y * (ns.h_v i).y
            + (ns.h_v i).z * (ns.h_v i).z)
          = 1 / 2 * ((ns.h_r i).w * norm2 (ns.h_v i)) := by
        unfold norm2; norm_num; ring
      rw [e]
    rw [List.foldl_cons, ih, hb]
    simp only [List.map_cons, List.sum_cons, add_assoc]

theorem list_range_sum_eq {α : Type} [LinearOrderedField α] (f : Nat → α) (n : Nat) :
    ((List.range' 0 (n - 0)).map f).sum = ∑ i in Finset.range n, f i := by
  rw [Nat.sub_zero, ← List.range_eq_range']
  induction n with
  | zero => simp
  | succ m ih =>
    rw [List.range_succ, List.map_append, List.sum_append, ih, Finset.sum_range_succ]
    simp

theorem get_kinetic_eq {α : Type} [LinearOrderedField α] (ns : NbodySystem α) :
    get_kinetic ns = spec_kinetic ns := by
  unfold get_kinetic spec_kinetic
  simp only []
  rw [forLoop_add, zero_add, ← Finset.range_eq_Ico, Finset.mul_sum]
  refine Finset.sum_congr rfl (fun i _ => ?_)
  unfold norm2; norm_num; ring

theorem get_potential_eq {α : Type} [LinearOrderedField α] (sqrt : α → α)
    (ns : NbodySystem α) : get_potential sqrt ns = spec_potential sqrt ns := by
  unfold get_potential spec_potential
  simp only []
  rw [forLoop_add, zero_add, ← Finset.range_eq_Ico,
    sum_pairsBelow ns.n
      (fun i j => (ns.h_r i).w * (ns.h_r j).w / separation sqrt (ns.h_r i) (ns.h_r j)),
    ← Finset.sum_neg_distrib]
  exact Finset.sum_congr rfl (fun i _ => epot_row sqrt ns i)

/-- The state and value produced by `get_energy`: `en.kinetic` and `en.potential` hold the
closed forms, nothing else changes, and the value is their sum plus `ext`. -/
theorem get_energy_eq {α : Type} [LinearOrderedField α] (sqrt : α → α)
    (ns : NbodySystem α) (ext : α) :
    get_energy sqrt ns ext =
      (spec_kinetic ns + spec_potential sqrt ns + ext,
        { ns with en := { ns.en with
            kinetic := spec_kinetic ns, potential := spec_potential sqrt ns } }) := by
  have hk : (0 : α) + ((List.range' 0 (ns.n - 0)).map
      (fun i => 1 / 2 * ((ns.h_r i).w * norm2 (ns.h_v i)))).sum = spec_kinetic ns := by
    rw [zero_add, list_range_sum_eq, ← Finset.mul_sum]; rfl
  have hp : (0 : α) + ((List.range' 0 (ns.n - 0)).map
      (fun i => - ∑ j in Finset.Ico (i + 1) ns.n,
        (ns.h_r i).w * (ns.h_r j).w / separation sqrt (ns.h_r i) (ns.h_r j))).sum
      = spec_potential sqrt ns := by
    rw [zero_add, list_range_sum_eq, Finset.sum_neg_distrib]
    unfold spec_potential
    rw [sum_pairsBelow ns.n
      (fun i j => (ns.h_r i).w * (ns.h_r j).w / separation sqrt (ns.h_r i) (ns.h_r j))]
  unfold get_energy forLoop
  simp only []
  rw [foldl_get_energy_body]
  simp only []
  rw [hk, hp]

/-- C8: for every system of `n` particles at pairwise distinct positions and every `ext`,
`get_energy(ext)` (built without `PN`) stores `en.kinetic = ½ Σ_i m_i |v_i|²` and
`en.potential = − Σ_{i<j} m_i m_j / |r_j − r_i|` (no softening), returns
`en.kinetic + en.potential + ext`, and this equals `get_kinetic() + get_potential() + ext`
on the same particle state (which `get_energy` leaves unchanged). -/
theorem get_energy_closed_form {α : Type} [LinearOrderedField α] (sqrt : α → α)
    (ns : NbodySystem α) (ext : α) (_hdistinct : DistinctPositions ns) :
    (get_energy sqrt ns ext).2.en.kinetic = spec_kinetic ns ∧
    (get_energy sqrt ns ext).2.en.potential = spec_potential sqrt ns ∧
    (get_energy sqrt ns ext).1
      = (get_energy sqrt ns ext).2.en.kinetic + (get_energy sqrt ns ext).2.en.potential + ext ∧
    (get_energy sqrt ns ext).1 = get_kinetic ns + get_potential sqrt ns + ext ∧
    (get_energy sqrt ns ext).1
      = get_kinetic (get_energy sqrt ns ext).2
        + get_potential sqrt (get_energy sqrt ns ext).2 + ext ∧
    (get_energy sqrt ns ext).2.n = ns.n ∧
    (get_energy sqrt ns ext).2.h_r = ns.h_r ∧
    (get_energy sqrt ns ext).2.h_v = ns.h_v := by
  rw [get_energy_eq, get_kinetic_eq, get_potential_eq, get_kinetic_eq, get_potential_eq]
  exact ⟨rfl, rfl, rfl, rfl, rfl, rfl, rfl, rfl⟩

theorem twoBodyCircular_distinct {α : Type} [LinearOrderedField α] :
    DistinctPositions (twoBodyCircular : NbodySystem α) := by
  intro i j hi hj hij
  have hn : (twoBodyCircular : NbodySystem α).n = 2 := rfl
  rw [hn] at hi hj
  have h : (-0.5 : α) ≠ 0.5 := by norm_num
  interval_cases i <;> interval_cases j
  · exact absurd rfl hij
  · simp only [twoBodyCircular]
    intro he
    exact h (congrArg Prod.fst he)
  · simp only [twoBodyCircular]
    intro he
    exact h (congrArg Prod.fst he).symm
  · exact absurd rfl hij

theorem rat_sqrt_one : Rat.sqrt 1 = 1 := by
  have h := Rat.sqrt_eq 1
  rwa [mul_one, abs_one] at h

/-- Energies of the two-body circular scenario for any square root exact at `1`. -/
theorem twoBodyCircular_energies {α : Type} [LinearOrderedField α] (sqrt : α → α)
    (hsqrt : sqrt 1 = 1) :
    spec_kinetic (twoBodyCircular : NbodySystem α) = 1 / 8 ∧
    spec_potential sqrt (twoBodyCircular : NbodySystem α) = -(1 / 4) := by
  constructor
  · unfold spec_kinetic
    simp only [twoBodyCircular, Finset.sum_range_succ, Finset.sum_range_zero, norm2]
    norm_num
  · unfold spec_potential
    rw [sum_pairsBelow (twoBodyCircular : NbodySystem α).n
      (fun i j => ((twoBodyCircular : NbodySystem α).h_r i).w
        * ((twoBodyCircular : NbodySystem α).h_r j).w
        / separation sqrt ((twoBodyCircular : NbodySystem α).h_r i)
            ((twoBodyCircular : NbodySystem α).h_r j))]
    have e : ((0.5 : α) - -0.5) * (0.5 - -0.5) + (0 - 0) * (0 - 0) + (0 - 0) * (0 - 0) = 1 := by
      norm_num
    simp only [twoBodyCircular, Finset.sum_range_succ, Finset.sum_range_zero, separation]
    simp [e, hsqrt]
    norm_num
    rw [hsqrt, div_one]

/-- Witness for C8: the two-body circular state has distinct positions; its stored
kinetic and potential energies are the closed forms. -/
theorem get_energy_closed_form_witness :
    DistinctPositions (twoBodyCircular : NbodySystem ℚ) ∧
    (get_energy Rat.sqrt (twoBodyCircular : NbodySystem ℚ) 3).2.en.kinetic
      = spec_kinetic (twoBodyCircular : NbodySystem ℚ) ∧
    (get_energy Rat.sqrt (twoBodyCircular : NbodySystem ℚ) 3).2.en.potential
      = spec_potential Rat.sqrt (twoBodyCircular : NbodySystem ℚ) :=
  ⟨twoBodyCircular_distinct,
   (get_energy_closed_form Rat.sqrt twoBodyCircular 3 twoBodyCircular_distinct).1,
   (get_energy_closed_form Rat.sqrt twoBodyCircular 3 twoBodyCircular_distinct).2.1⟩

/-- C9, counterexample: on the two-body circular state `get_energy(0)` returns `-1/8`
(kinetic `1/8`, potential `-1/4`), not `-0.25`. -/
theorem twoBodyCircular_energy_value :
    (get_energy Rat.sqrt (twoBodyCircular : NbodySystem ℚ) 0).1 = -(1 / 8) ∧
    (get_energy Rat.sqrt (twoBodyCircular : NbodySystem ℚ) 0).1 ≠ -0.25 := by
  have h : (get_energy Rat.sqrt (twoBodyCircular : NbodySystem ℚ) 0).1 = -(1 / 8) := by
    rw [get_energy_eq, (twoBodyCircular_energies Rat.sqrt rat_sqrt_one).1,
      (twoBodyCircular_energies Rat.sqrt rat_sqrt_one).2]
    norm_num
  exact ⟨h, by rw [h]; norm_num⟩

/-- C9, amended: on the two-body circular state (`G = 1`, any square root exact at `1`)
`get_energy(0)` stores kinetic energy `0.125` and potential energy `-0.25` and returns the
total energy `E = -0.125`. -/
theorem twoBodyCircular_energy {α : Type} [LinearOrderedField α] (sqrt : α → α)
    (hsqrt : sqrt 1 = 1) :
    (get_energy sqrt (twoBodyCircular : NbodySystem α) 0).1 = -0.125 ∧
    (get_energy sqrt (twoBodyCircular : NbodySystem α) 0).2.en.kinetic = 0.125 ∧
    (get_energy sqrt (twoBodyCircular : NbodySystem α) 0).2.en.potential = -0.25 := by
  rw [get_energy_eq, (twoBodyCircular_energies sqrt hsqrt).1,
    (twoBodyCircular_energies sqrt hsqrt).2]
  refine ⟨?_, ?_, ?_⟩ <;> norm_num

/-- Witness for C9 (amended): the rational square root `Rat.sqrt` is exact at `1`. -/
theorem twoBodyCircular_energy_witness :
    Rat.sqrt 1 = 1 ∧ (get_energy Rat.sqrt (twoBodyCircular : NbodySystem ℚ) 0).1 = -0.125 :=
  ⟨rat_sqrt_one, (twoBodyCircular_energy Rat.sqrt rat_sqrt_one).1⟩

/-! ## Binary termination -/

/-- C10: after the termination block for a system with members `part0` (slot `id0`, the
primary) and `part1` (slot `id1`, a different slot), with `c_r`, `c_v` the position and
velocity held in slot `id0` before the block: slot `idk` has position `c_r + partk.r` and
velocity `c_v + partk.v` (slot `id1` is built from the value `c_r`, `c_v`, not from the
updated slot `id0`), mass `h_r[idk].w = partk.r.w`, `h_t[id1] = h_t[id0]` with `h_t[id0]`
unchanged, and `h_dt[id0] = h_dt[id1] = D_TIME_MIN`. -/
theorem termination_restore_slots {α : Type} [LinearOrderedField α]
    (add4 : double4 α → double4 α → double4 α) (addF : Forces α → Forces α → Forces α)
    (sqrt : α → α) (ns : NbodySystem α) (part0 part1 : MParticle α)
    (hid : part0.id ≠ part1.id) :
    (termination_restore add4 addF sqrt ns part0 part1).h_r part0.id
      = { add4 (ns.h_r part0.id) part0.r with w := part0.r.w } ∧
    (termination_restore add4 addF sqrt ns part0 part1).h_r part1.id
      = { add4 (ns.h_r part0.id) part1.r with w := part1.r.w } ∧
    (termination_restore add4 addF sqrt ns part0 part1).h_v part0.id
      = add4 (ns.h_v part0.id) part0.v ∧
    (termination_restore add4 addF sqrt ns part0 part1).h_v part1.id
      = add4 (ns.h_v part0.id) part1.v ∧
    ((termination_restore add4 addF sqrt ns part0 part1).h_r part0.id).w = part0.r.w ∧
    ((termination_restore add4 addF sqrt ns part0 part1).h_r part1.id).w = part1.r.w ∧
    (termination_restore add4 addF sqrt ns part0 part1).h_t part1.id = ns.h_t part0.id ∧
    (termination_restore add4 addF sqrt ns part0 part1).h_t part0.id = ns.h_t part0.id ∧
    (termination_restore add4 addF sqrt ns part0 part1).h_dt part0.id = D_TIME_MIN ∧
    (termination_restore add4 addF sqrt ns part0 part1).h_dt part1.id = D_TIME_MIN := by
  unfold termination_restore
  simp only [get_energy_eq]
  simp [Function.update, hid, hid.symm]

/-- Witness for C10: terminating the system of `terminationState` (slots `0` and `1`,
componentwise `+`) puts member `1` at `(1,2,3) + (1,0,0)` with mass `1/2`. -/
theorem termination_restore_slots_witness :
    terminationPart0.id ≠ terminationPart1.id ∧
    (termination_restore double4.add Forces.add Rat.sqrt terminationState
      terminationPart0 terminationPart1).h_r 1 = ⟨2, 2, 3, 1 / 2⟩ ∧
    (termination_restore double4.add Forces.add Rat.sqrt terminationState
      terminationPart0 terminationPart1).h_dt 0 = D_TIME_MIN := by
  have hne : terminationPart0.id ≠ terminationPart1.id := by decide
  have h := termination_restore_slots double4.add Forces.add Rat.sqrt terminationState
    terminationPart0 terminationPart1 hne
  refine ⟨hne, ?_, h.2.2.2.2.2.2.2.2.1⟩
  have h1 := h.2.1
  rw [show terminationPart1.id = 1 from rfl, show terminationPart0.id = 0 from rfl] at h1
  rw [h1]
  simp only [terminationState, terminationPart1, double4.add]
  norm_num

/-! ## Step limits -/

/-- C20: the literal `D_TIME_MIN` (`1.1920928955078125e-07`) equals `2^-23` exactly and
`D_TIME_MAX` (`0.125`) equals `2^-3` exactly, so `D_TIME_MAX / D_TIME_MIN = 2^20`. -/
theorem step_limits_powers_of_two {α : Type} [LinearOrderedField α] :
    (D_TIME_MIN : α) = (2 : α) ^ (-23 : ℤ) ∧
    (D_TIME_MAX : α) = (2 : α) ^ (-3 : ℤ) ∧
    (D_TIME_MAX : α) / D_TIME_MIN = (2 : α) ^ (20 : ℕ) := by
  refine ⟨D_TIME_MIN_eq_zpow, D_TIME_MAX_eq_zpow, ?_⟩
  rw [D_TIME_MIN_eq, D_TIME_MAX_eq]
  norm_num

/-! ## Time-step formula -/

theorem rat_sqrt_sq (q : ℚ) (hq : 0 ≤ q) : Rat.sqrt (q * q) = q := by
  rw [Rat.sqrt_eq, abs_of_nonneg hq]

/-- The value of `get_timestep_normal`: it is not a number exactly when the divisor is
zero, and otherwise the formula of the spec with the second derivative advanced over the
step, `a⁽²⁾ + dt a⁽³⁾`. -/
theorem get_timestep_normal_eq {α : Type} [LinearOrderedField α] (sqrt : α → α)
    (ns : NbodySystem α) (i : Nat) (ETA : α) :
    get_timestep_normal sqrt ns i ETA =
      if timestep_divisor sqrt ns i = 0 then none
      else some (spec_timestep sqrt ETA
        (norm3 sqrt ((ns.h_f i).a 0) ((ns.h_f i).a 1) ((ns.h_f i).a 2))
        (norm3 sqrt ((ns.h_f i).a1 0) ((ns.h_f i).a1 1) ((ns.h_f i).a1 2))
        (norm3 sqrt ((ns.h_a2 i).x + ns.h_dt i * (ns.h_a3 i).x)
          ((ns.h_a2 i).y + ns.h_dt i * (ns.h_a3 i).y)
          ((ns.h_a2 i).z + ns.h_dt i * (ns.h_a3 i).z))
        (norm3 sqrt (ns.h_a3 i).x (ns.h_a3 i).y (ns.h_a3 i).z)) := rfl

theorem rat_sqrt_of_sq (q r : ℚ) (hr : 0 ≤ r) (h : q = r * r) : Rat.sqrt q = r := by
  rw [h, rat_sqrt_sq r hr]

theorem timestepState_divisor : timestep_divisor Rat.sqrt timestepState 0 = 49 := by
  have h1 : Rat.sqrt 1 = 1 := rat_sqrt_of_sq 1 1 (by norm_num) (by norm_num)
  have h25 : Rat.sqrt 25 = 5 := rat_sqrt_of_sq 25 5 (by norm_num) (by norm_num)
  have h576 : Rat.sqrt 576 = 24 := rat_sqrt_of_sq 576 24 (by norm_num) (by norm_num)
  have h10 : ¬ ((1 : Fin 3) = 0) := by decide
  have h20 : ¬ ((2 : Fin 3) = 0) := by decide
  simp only [timestep_divisor, timestepState, norm3, if_neg h10, if_neg h20, if_true]
  norm_num [h1, h25, h576]

theorem timestepState_value :
    get_timestep_normal Rat.sqrt timestepState 0 (1 / 100) = some (2 / 35) := by
  have h9 : Rat.sqrt 9 = 3 := rat_sqrt_of_sq 9 3 (by norm_num) (by norm_num)
  have h1 : Rat.sqrt 1 = 1 := rat_sqrt_of_sq 1 1 (by norm_num) (by norm_num)
  have h25 : Rat.sqrt 25 = 5 := rat_sqrt_of_sq 25 5 (by norm_num) (by norm_num)
  have h576 : Rat.sqrt 576 = 24 := rat_sqrt_of_sq 576 24 (by norm_num) (by norm_num)
  have hx : Rat.sqrt (4 / 1225) = 2 / 35 :=
    rat_sqrt_of_sq (4 / 1225) (2 / 35) (by norm_num) (by norm_num)
  have h10 : ¬ ((1 : Fin 3) = 0) := by decide
  have h20 : ¬ ((2 : Fin 3) = 0) := by decide
  have hd : ¬ (timestep_divisor Rat.sqrt timestepState 0 = 0) := by
    rw [timestepState_divisor]
    norm_num
  rw [get_timestep_normal_eq, if_neg hd]
  simp only [timestepState, norm3, spec_timestep, if_neg h10, if_neg h20, if_true]
  norm_num [h9, h1, h25, h576, hx]

/-- C19, counterexample: for particle `0` of `timestepState` (`|a| = 3`, `|j| = 1`, stored
`a⁽²⁾ = (2,0,0)`, `a⁽³⁾ = (24,0,0)`, `dt = 1/8`, `ETA = 0.01`), whose derivatives are not
degenerate (the divisor is `49`), the code returns `2/35`, while the formula on the stored
`h_a2[i]` gives `1/20`. -/
theorem get_timestep_normal_not_stored_a2 :
    timestep_divisor Rat.sqrt timestepState 0 = 49 ∧
    get_timestep_normal Rat.sqrt timestepState 0 (1 / 100) = some (2 / 35) ∧
    spec_timestep Rat.sqrt (1 / 100)
      (norm3 Rat.sqrt ((timestepState.h_f 0).a 0) ((timestepState.h_f 0).a 1)
        ((timestepState.h_f 0).a 2))
      (norm3 Rat.sqrt ((timestepState.h_f 0).a1 0) ((timestepState.h_f 0).a1 1)
        ((timestepState.h_f 0).a1 2))
      (norm3 Rat.sqrt (timestepState.h_a2 0).x (timestepState.h_a2 0).y (timestepState.h_a2 0).z)
      (norm3 Rat.sqrt (timestepState.h_a3 0).x (timestepState.h_a3 0).y (timestepState.h_a3 0).z)
      = 1 / 20 ∧
    get_timestep_normal Rat.sqrt timestepState 0 (1 / 100) ≠
      some (spec_timestep Rat.sqrt (1 / 100)
        (norm3 Rat.sqrt ((timestepState.h_f 0).a 0) ((timestepState.h_f 0).a 1)
          ((timestepState.h_f 0).a 2))
        (norm3 Rat.sqrt ((timestepState.h_f 0).a1 0) ((timestepState.h_f 0).a1 1)
          ((timestepState.h_f 0).a1 2))
        (norm3 Rat.sqrt (timestepState.h_a2 0).x (timestepState.h_a2 0).y
          (timestepState.h_a2 0).z)
        (norm3 Rat.sqrt (timestepState.h_a3 0).x (timestepState.h_a3 0).y
          (timestepState.h_a3 0).z)) := by
  have h9 : Rat.sqrt 9 = 3 := rat_sqrt_of_sq 9 3 (by norm_num) (by norm_num)
  have h1 : Rat.sqrt 1 = 1 := rat_sqrt_of_sq 1 1 (by norm_num) (by norm_num)
  have h4 : Rat.sqrt 4 = 2 := rat_sqrt_of_sq 4 2 (by norm_num) (by norm_num)
  have h576 : Rat.sqrt 576 = 24 := rat_sqrt_of_sq 576 24 (by norm_num) (by norm_num)
  have hx : Rat.sqrt (1 / 400) = 1 / 20 :=
    rat_sqrt_of_sq (1 / 400) (1 / 20) (by norm_num) (by norm_num)
  have h10 : ¬ ((1 : Fin 3) = 0) := by decide
  have h20 : ¬ ((2 : Fin 3) = 0) := by decide
  have hspec : spec_timestep Rat.sqrt (1 / 100)
      (norm3 Rat.sqrt ((timestepState.h_f 0).a 0) ((timestepState.h_f 0).a 1)
        ((timestepState.h_f 0).a 2))
      (norm3 Rat.sqrt ((timestepState.h_f 0).a1 0) ((timestepState.h_f 0).a1 1)
        ((timestepState.h_f 0).a1 2))
      (norm3 Rat.sqrt (timestepState.h_a2 0).x (timestepState.h_a2 0).y (timestepState.h_a2 0).z)
      (norm3 Rat.sqrt (timestepState.h_a3 0).x (timestepState.h_a3 0).y (timestepState.h_a3 0).z)
      = 1 / 20 := by
    simp only [timestepState, norm3, spec_timestep, if_neg h10, if_neg h20, if_true]
    norm_num [h9, h1, h4, h576, hx]
  refine ⟨timestepState_divisor, timestepState_value, hspec, ?_⟩
  rw [timestepState_value, hspec]
  norm_num

/-- C19, amended: for every particle `i` with non-degenerate derivatives (the divisor
`|j| |a3| + |a2|^2` is not zero) `get_timestep_normal(i, ETA)` returns
`sqrt(ETA * (|a| |a2| + |j|^2) / (|j| |a3| + |a2|^2))` where `a = h_f[i].a`,
`j = h_f[i].a1`, `a3 = h_a3[i]` and `a2 = h_a2[i] + h_dt[i] * h_a3[i]`, the stored second
derivative advanced over the current step; and the value returned is a number exactly when
the divisor is not zero. -/
theorem get_timestep_normal_formula {α : Type} [LinearOrderedField α] (sqrt : α → α)
    (ns : NbodySystem α) (i : Nat) (ETA : α)
    (hnd : timestep_divisor sqrt ns i ≠ 0) :
    get_timestep_normal sqrt ns i ETA =
      some (spec_timestep sqrt ETA
        (norm3 sqrt ((ns.h_f i).a 0) ((ns.h_f i).a 1) ((ns.h_f i).a 2))
        (norm3 sqrt ((ns.h_f i).a1 0) ((ns.h_f i).a1 1) ((ns.h_f i).a1 2))
        (norm3 sqrt ((ns.h_a2 i).x + ns.h_dt i * (ns.h_a3 i).x)
          ((ns.h_a2 i).y + ns.h_dt i * (ns.h_a3 i).y)
          ((ns.h_a2 i).z + ns.h_dt i * (ns.h_a3 i).z))
        (norm3 sqrt (ns.h_a3 i).x (ns.h_a3 i).y (ns.h_a3 i).z)) ∧
    (∀ (ns1 : NbodySystem α) (k : Nat) (e : α),
      get_timestep_normal sqrt ns1 k e = none ↔ timestep_divisor sqrt ns1 k = 0) := by
  refine ⟨?_, ?_⟩
  · rw [get_timestep_normal_eq, if_neg hnd]
  · intro ns1 k e
    rw [get_timestep_normal_eq]
    by_cases h : timestep_divisor sqrt ns1 k = 0
    · rw [if_pos h]
      exact ⟨fun _ => h, fun _ => rfl⟩
    · rw [if_neg h]
      exact ⟨fun hc => Option.noConfusion hc, fun hc => absurd hc h⟩

/-- Witness for C19 as amended: particle `0` of `timestepState` has the divisor `49`. -/
theorem get_timestep_normal_formula_witness :
    timestep_divisor Rat.sqrt timestepState 0 ≠ 0 ∧
    get_timestep_normal Rat.sqrt timestepState 0 (1 / 100) =
      some (spec_timestep Rat.sqrt (1 / 100)
        (norm3 Rat.sqrt ((timestepState.h_f 0).a 0) ((timestepState.h_f 0).a 1)
          ((timestepState.h_f 0).a 2))
        (norm3 Rat.sqrt ((timestepState.h_f 0).a1 0) ((timestepState.h_f 0).a1 1)
          ((timestepState.h_f 0).a1 2))
        (norm3 Rat.sqrt
          ((timestepState.h_a2 0).x + timestepState.h_dt 0 * (timestepState.h_a3 0).x)
          ((timestepState.h_a2 0).y + timestepState.h_dt 0 * (timestepState.h_a3 0).y)
          ((timestepState.h_a2 0).z + timestepState.h_dt 0 * (timestepState.h_a3 0).z))
        (norm3 Rat.sqrt (timestepState.h_a3 0).x (timestepState.h_a3 0).y
          (timestepState.h_a3 0).z)) :=
  have hd : timestep_divisor Rat.sqrt timestepState 0 ≠ 0 := by
    rw [timestepState_divisor]
    norm_num
  ⟨hd, (get_timestep_normal_formula Rat.sqrt timestepState 0 (1 / 100) hd).1⟩

/-! ## Binary termination: centre of mass -/

/-- Positions and velocities of the two member slots after the termination block (members
in different slots). -/
theorem termination_restore_members {α : Type} [LinearOrderedField α]
    (add4 : double4 α → double4 α → double4 α) (addF : Forces α → Forces α → Forces α)
    (sqrt : α → α) (ns : NbodySystem α) (part0 part1 : MParticle α)
    (hid : part0.id ≠ part1.id) :
    (termination_restore add4 addF sqrt ns part0 part1).h_r part0.id
      = { add4 (ns.h_r part0.id) part0.r with w := part0.r.w } ∧
    (termination_restore add4 addF sqrt ns part0 part1).h_r part1.id
      = { add4 (ns.h_r part0.id) part1.r with w := part1.r.w } ∧
    (termination_restore add4 addF sqrt ns part0 part1).h_v part0.id
      = add4 (ns.h_v part0.id) part0.v ∧
    (termination_restore add4 addF sqrt ns part0 part1).h_v part1.id
      = add4 (ns.h_v part0.id) part1.v := by
  unfold termination_restore
  simp only [get_energy_eq]
  simp [Function.update, hid, hid.symm]

theorem weightedMean_add {α : Type} [LinearOrderedField α] (m0 m1 : α)
    (c p q : double4 α) (w0 w1 w2 w3 : α) (hm : m0 + m1 ≠ 0) (h : Balanced m0 m1 p q) :
    weightedMean m0 m1 { double4.add c p with w := w0 } { double4.add c q with w := w1 }
      = spatial c ∧
    weightedMean m0 m1 { double4.add c p with w := w2 } { double4.add c q with w := w3 }
      = spatial c := by
  obtain ⟨hx, hy, hz⟩ := h
  have key : ∀ a u v : α, m0 * u + m1 * v = 0 →
      (m0 * (a + u) + m1 * (a + v)) / (m0 + m1) = a := by
    intro a u v huv
    rw [div_eq_iff hm]
    linear_combination huv
  unfold weightedMean spatial double4.add
  simp only [key _ _ _ hx, key _ _ _ hy, key _ _ _ hz, and_self]

/-- C11: binary termination preserves the centre of mass: for members in different slots
with `m0*dr0 + m1*dr1 = 0`, `m0*dv0 + m1*dv1 = 0` and `m0 + m1 ≠ 0` (`m_k = part_k.r.w`,
`+` the componentwise sum), the mass-weighted mean position and velocity of the two
restored slots equal the position and velocity held in the primary slot `id0` before
termination. -/
theorem termination_preserves_com {α : Type} [LinearOrderedField α]
    (addF : Forces α → Forces α → Forces α) (sqrt : α → α) (ns : NbodySystem α)
    (part0 part1 : MParticle α) (hid : part0.id ≠ part1.id)
    (hm : part0.r.w + part1.r.w ≠ 0)
    (hr : Balanced part0.r.w part1.r.w part0.r part1.r)
    (hv : Balanced part0.r.w part1.r.w part0.v part1.v) :
    weightedMean
        ((termination_restore double4.add addF sqrt ns part0 part1).h_r part0.id).w
        ((termination_restore double4.add addF sqrt ns part0 part1).h_r part1.id).w
        ((termination_restore double4.add addF sqrt ns part0 part1).h_r part0.id)
        ((termination_restore double4.add addF sqrt ns part0 part1).h_r part1.id)
      = spatial (ns.h_r part0.id) ∧
    weightedMean
        ((termination_restore double4.add addF sqrt ns part0 part1).h_r part0.id).w
        ((termination_restore double4.add addF sqrt ns part0 part1).h_r part1.id).w
        ((termination_restore double4.add addF sqrt ns part0 part1).h_v part0.id)
        ((termination_restore double4.add addF sqrt ns part0 part1).h_v part1.id)
      = spatial (ns.h_v part0.id) := by
  obtain ⟨h0, h1, h2, h3⟩ :=
    termination_restore_members double4.add addF sqrt ns part0 part1 hid
  rw [h0, h1, h2, h3]
  constructor
  · exact (weightedMean_add _ _ (ns.h_r part0.id) part0.r part1.r _ _ 0 0 hm hr).1
  · have h := (weightedMean_add part0.r.w part1.r.w (ns.h_v part0.id) part0.v part1.v
      ((ns.h_v part0.id).w + part0.v.w) ((ns.h_v part0.id).w + part1.v.w) 0 0 hm hv).1
    exact h

/-- Witness for C11: the members of `terminationState` (masses `1/2`, offsets `∓(1,0,0)`,
velocities `∓(0,1,0)`) are balanced, and the restored pair has its centre of mass at the
former primary position `(1,2,3)`. -/
theorem termination_preserves_com_witness :
    terminationPart0.id ≠ terminationPart1.id ∧
    weightedMean
        ((termination_restore double4.add Forces.add Rat.sqrt terminationState
          terminationPart0 terminationPart1).h_r 0).w
        ((termination_restore double4.add Forces.add Rat.sqrt terminationState
          terminationPart0 terminationPart1).h_r 1).w
        ((termination_restore double4.add Forces.add Rat.sqrt terminationState
          terminationPart0 terminationPart1).h_r 0)
        ((termination_restore double4.add Forces.add Rat.sqrt terminationState
          terminationPart0 terminationPart1).h_r 1)
      = (1, 2, 3) := by
  have hne : terminationPart0.id ≠ terminationPart1.id := by decide
  have hr : Balanced terminationPart0.r.w terminationPart1.r.w
      terminationPart0.r terminationPart1.r := by
    simp only [Balanced, terminationPart0, terminationPart1]; norm_num
  have hv : Balanced terminationPart0.r.w terminationPart1.r.w
      terminationPart0.v terminationPart1.v := by
    simp only [Balanced, terminationPart0, terminationPart1]; norm_num
  have hm : terminationPart0.r.w + terminationPart1.r.w ≠ 0 := by
    simp only [terminationPart0, terminationPart1]; norm_num
  exact ⟨hne, (termination_preserves_com Forces.add Rat.sqrt terminationState
    terminationPart0 terminationPart1 hne hm hr hv).1⟩

/-! ## Termination scan -/

theorem termination_scan_done {α : Type} [LinearOrderedField α]
    (add4 : double4 α → double4 α → double4 α) (addF : Forces α → Forces α → Forces α)
    (sqrt : α → α) (i : Nat) (ms : List (MultipleSystem α)) (ns : NbodySystem α)
    (h : ¬ i < ms.length) :
    termination_scan add4 addF sqrt i ms ns = (ms, ns) := by
  rw [termination_scan, dif_neg h]

theorem termination_scan_erase {α : Type} [LinearOrderedField α]
    (add4 : double4 α → double4 α → double4 α) (addF : Forces α → Forces α → Forces α)
    (sqrt : α → α) (i : Nat) (ms : List (MultipleSystem α)) (ns : NbodySystem α)
    (h : i < ms.length) (hr : member_separation sqrt (ms.get ⟨i, h⟩) > ns.r_cl) :
    termination_scan add4 addF sqrt i ms ns =
      termination_scan add4 addF sqrt (i + 1) (ms.eraseIdx i)
        (termination_restore add4 addF sqrt ns ((ms.get ⟨i, h⟩).parts 0)
          ((ms.get ⟨i, h⟩).parts 1)) := by
  rw [termination_scan, dif_pos h]
  simp only []
  rw [if_pos hr]

theorem termination_scan_keep {α : Type} [LinearOrderedField α]
    (add4 : double4 α → double4 α → double4 α) (addF : Forces α → Forces α → Forces α)
    (sqrt : α → α) (i : Nat) (ms : List (MultipleSystem α)) (ns : NbodySystem α)
    (h : i < ms.length) (hr : ¬ member_separation sqrt (ms.get ⟨i, h⟩) > ns.r_cl) :
    termination_scan add4 addF sqrt i ms ns =
      termination_scan add4 addF sqrt (i + 1) ms ns := by
  rw [termination_scan, dif_pos h]
  simp only []
  rw [if_neg hr]

theorem termination_restore_r_cl {α : Type} [LinearOrderedField α]
    (add4 : double4 α → double4 α → double4 α) (addF : Forces α → Forces α → Forces α)
    (sqrt : α → α) (ns : NbodySystem α) (part0 part1 : MParticle α) :
    (termination_restore add4 addF sqrt ns part0 part1).r_cl = ns.r_cl := by
  unfold termination_restore
  simp only [get_energy_eq]

/-- The scan only removes systems and never changes `r_cl`. -/
theorem termination_scan_sublist {α : Type} [LinearOrderedField α]
    (add4 : double4 α → double4 α → double4 α) (addF : Forces α → Forces α → Forces α)
    (sqrt : α → α) (k : Nat) :
    ∀ (i : Nat) (ms : List (MultipleSystem α)) (ns : NbodySystem α), ms.length - i = k →
      (termination_scan add4 addF sqrt i ms ns).1.Sublist ms ∧
      (termination_scan add4 addF sqrt i ms ns).2.r_cl = ns.r_cl := by
  induction k using Nat.strong_induction_on with
  | _ k ih =>
    intro i ms ns hk
    by_cases h : i < ms.length
    · by_cases hr : member_separation sqrt (ms.get ⟨i, h⟩) > ns.r_cl
      · rw [termination_scan_erase add4 addF sqrt i ms ns h hr]
        have hlen : (ms.eraseIdx i).length - (i + 1) < k := by
          rw [List.length_eraseIdx_of_lt h]; omega
        obtain ⟨h1, h2⟩ := ih _ hlen (i + 1) (ms.eraseIdx i)
          (termination_restore add4 addF sqrt ns ((ms.get ⟨i, h⟩).parts 0)
            ((ms.get ⟨i, h⟩).parts 1)) rfl
        exact ⟨h1.trans (List.eraseIdx_sublist ms i),
          h2.trans (termination_restore_r_cl add4 addF sqrt ns _ _)⟩
      · rw [termination_scan_keep add4 addF sqrt i ms ns h hr]
        exact ih _ (by omega) (i + 1) ms ns rfl
    · rw [termination_scan_done add4 addF sqrt i ms ns h]
      exact ⟨List.Sublist.refl ms, rfl⟩

theorem farSystem_separation (id0 id1 : Nat) :
    member_separation Rat.sqrt (farSystem id0 id1) = 2 := by
  have h4 : Rat.sqrt 4 = 2 := rat_sqrt_of_sq 4 2 (by norm_num) (by norm_num)
  simp only [member_separation, farSystem]
  norm_num [h4]

/-- C12, evaluation at the failing input: with two systems whose separation `2` exceeds
`r_cl = 1`, the scan restores and erases the first one, advances the index past the
second, and stops; the second system stays in `ms` with separation `2 > r_cl`. -/
theorem termination_scan_skips_next :
    (termination_scan double4.add Forces.add Rat.sqrt 0 [farSystem 0 1, farSystem 2 3]
      scanState).1 = [farSystem 2 3] ∧
    (termination_scan double4.add Forces.add Rat.sqrt 0 [farSystem 0 1, farSystem 2 3]
      scanState).2.r_cl = 1 ∧
    member_separation Rat.sqrt (farSystem 2 3) = 2 := by
  have hr : member_separation Rat.sqrt
      ([farSystem 0 1, farSystem 2 3].get ⟨0, by decide⟩) > scanState.r_cl := by
    show member_separation Rat.sqrt (farSystem 0 1) > 1
    rw [farSystem_separation]; norm_num
  have hstep := termination_scan_erase double4.add Forces.add Rat.sqrt 0
    [farSystem 0 1, farSystem 2 3] scanState (by decide) hr
  have hdone := termination_scan_done double4.add Forces.add Rat.sqrt 1 [farSystem 2 3]
    (termination_restore double4.add Forces.add Rat.sqrt scanState
      ((farSystem 0 1).parts 0) ((farSystem 0 1).parts 1)) (by decide)
  have hres : termination_scan double4.add Forces.add Rat.sqrt 0
      [farSystem 0 1, farSystem 2 3] scanState =
      ([farSystem 2 3], termination_restore double4.add Forces.add Rat.sqrt scanState
        ((farSystem 0 1).parts 0) ((farSystem 0 1).parts 1)) := by
    rw [hstep]; exact hdone
  rw [hres]
  exact ⟨rfl, termination_restore_r_cl _ _ _ _ _ _, farSystem_separation 2 3⟩

/-! ## Binary creation loop -/

theorem creation_loop_done {α : Type} [LinearOrderedField α]
    (add4 : double4 α → double4 α → double4 α)
    (spawn : binary_id → NbodySystem α → SParticle α × MultipleSystem α × NbodySystem α)
    (b : Nat) (pairs : List binary_id) (ms : List (MultipleSystem α)) (ns : NbodySystem α)
    (h : ¬ b < pairs.length) :
    creation_loop add4 spawn b pairs ms ns = (pairs, ms, ns) := by
  rw [creation_loop, dif_neg h]

theorem creation_loop_step {α : Type} [LinearOrderedField α]
    (add4 : double4 α → double4 α → double4 α)
    (spawn : binary_id → NbodySystem α → SParticle α × MultipleSystem α × NbodySystem α)
    (b : Nat) (pairs : List binary_id) (ms : List (MultipleSystem α)) (ns : NbodySystem α)
    (h : b < pairs.length) :
    creation_loop add4 spawn b pairs ms ns =
      creation_loop add4 spawn (b + 1) pairs.tail
        (ms ++ [(spawn (pairs.get ⟨b, h⟩) ns).2.1])
        (spawn_diagnostic add4 (spawn (pairs.get ⟨b, h⟩) ns).2.2
          (spawn (pairs.get ⟨b, h⟩) ns).1
          ((spawn (pairs.get ⟨b, h⟩) ns).2.1.parts 0)
          ((spawn (pairs.get ⟨b, h⟩) ns).2.1.parts 1)) := by
  rw [creation_loop, dif_pos h]

/-- Shape of the result of the creation loop started at index `b`: the systems created are
appended to `ms`, there are `⌈(k - b) / 2⌉` of them for `k` pairs, as many pairs are erased
from the front, and (when `spawn` keeps the ids) their members are pairs found from
position `b` on, in order. -/
theorem creation_loop_shape {α : Type} [LinearOrderedField α]
    (add4 : double4 α → double4 α → double4 α)
    (spawn : binary_id → NbodySystem α → SParticle α × MultipleSystem α × NbodySystem α)
    (k : Nat) :
    ∀ (b : Nat) (pairs : List binary_id) (ms : List (MultipleSystem α)) (ns : NbodySystem α),
      pairs.length - b = k →
      ∃ created : List (MultipleSystem α),
        (creation_loop add4 spawn b pairs ms ns).2.1 = ms ++ created ∧
        created.length = (pairs.length - b + 1) / 2 ∧
        (creation_loop add4 spawn b pairs ms ns).1 = pairs.drop created.length ∧
        (SpawnKeepsIds spawn →
          (created.map MultipleSystem.members).Sublist
            ((pairs.drop b).map binary_id.ids)) := by
  induction k using Nat.strong_induction_on with
  | _ k ih =>
    intro b pairs ms ns hk
    by_cases h : b < pairs.length
    · rw [creation_loop_step add4 spawn b pairs ms ns h]
      have hlen : pairs.tail.length - (b + 1) < k := by
        rw [List.length_tail]; omega
      obtain ⟨c, h1, h2, h3, h4⟩ := ih _ hlen (b + 1) pairs.tail
        (ms ++ [(spawn (pairs.get ⟨b, h⟩) ns).2.1])
        (spawn_diagnostic add4 (spawn (pairs.get ⟨b, h⟩) ns).2.2
          (spawn (pairs.get ⟨b, h⟩) ns).1
          ((spawn (pairs.get ⟨b, h⟩) ns).2.1.parts 0)
          ((spawn (pairs.get ⟨b, h⟩) ns).2.1.parts 1)) rfl
      refine ⟨(spawn (pairs.get ⟨b, h⟩) ns).2.1 :: c, ?_, ?_, ?_, ?_⟩
      · rw [h1, List.append_assoc, List.singleton_append]
      · rw [List.length_cons, h2, List.length_tail]; omega
      · rw [h3, List.length_cons, List.drop_tail]
      · intro hs
        have hd : pairs.drop b = pairs.get ⟨b, h⟩ :: pairs.drop (b + 1) := by
          rw [List.get_eq_getElem]; exact List.drop_eq_getElem_cons h
        have ht : (pairs.tail.drop (b + 1)).Sublist (pairs.drop (b + 1)) := by
          rw [List.drop_tail]
          have : pairs.drop (b + 1 + 1) = (pairs.drop (b + 1)).drop 1 := by
            rw [List.drop_drop]
          rw [this]
          exact List.drop_sublist 1 _
        rw [hd, List.map_cons, List.map_cons, hs]
        exact List.Sublist.cons₂ _ ((h4 hs).trans (ht.map _))
    · rw [creation_loop_done add4 spawn b pairs ms ns h]
      refine ⟨[], by simp, ?_, by simp, fun _ => by simp⟩
      have : pairs.length - b = 0 := by omega
      rw [this]; rfl

/-- C13, evaluation of the creation loop: for `k` reported pairs the loop creates
`⌈k/2⌉` systems and leaves `⌊k/2⌋` pairs in `pairs`; on two pairs `[p0, p1]` it creates the
system of `p0` only and leaves `pairs = [p1]`. -/
theorem binary_creation_counts {α : Type} [LinearOrderedField α]
    (add4 : double4 α → double4 α → double4 α)
    (spawn : binary_id → NbodySystem α → SParticle α × MultipleSystem α × NbodySystem α)
    (pairs : List binary_id) (ms : List (MultipleSystem α)) (ns : NbodySystem α)
    (p0 p1 : binary_id) :
    (binary_creation add4 spawn true pairs ms ns).2.1.length
      = ms.length + (pairs.length + 1) / 2 ∧
    (binary_creation add4 spawn true pairs ms ns).1.length = pairs.length / 2 ∧
    (binary_creation add4 spawn true [p0, p1] ms ns).1 = [p1] ∧
    (binary_creation add4 spawn true [p0, p1] ms ns).2.1 = ms ++ [(spawn p0 ns).2.1] := by
  refine ⟨?_, ?_, ?_, ?_⟩
  · obtain ⟨c, h1, h2, -, -⟩ := creation_loop_shape add4 spawn _ 0 pairs ms ns rfl
    simp only [binary_creation, if_true]
    rw [h1, List.length_append, h2, Nat.sub_zero]
  · obtain ⟨c, -, h2, h3, -⟩ := creation_loop_shape add4 spawn _ 0 pairs ms ns rfl
    simp only [binary_creation, if_true]
    rw [h3, List.length_drop, h2, Nat.sub_zero]
    omega
  · simp only [binary_creation, if_true]
    rw [creation_loop_step add4 spawn 0 [p0, p1] ms ns (by simp),
      creation_loop_done add4 spawn 1 _ _ _ (by simp)]
    rfl
  · simp only [binary_creation, if_true]
    rw [creation_loop_step add4 spawn 0 [p0, p1] ms ns (by simp),
      creation_loop_done add4 spawn 1 _ _ _ (by simp)]
    rfl

/-- C14, counterexample: `ms` already holds a system on the slots `0` and `1`, the detector
hands over the pair `(0, 1)` again, and the creation loop appends a second system with
the same members: the ids `0` and `1` now belong to two systems. -/
theorem binary_creation_not_gated :
    NoSharedMember [farSystem 0 1] ∧
    (binary_creation double4.add spawnIds true [⟨0, 1⟩] [farSystem 0 1] scanState).2.1
      = [farSystem 0 1, (spawnIds ⟨0, 1⟩ scanState).2.1] ∧
    (spawnIds ⟨0, 1⟩ scanState).2.1.members = [0, 1] ∧
    ¬ NoSharedMember
      (binary_creation double4.add spawnIds true [⟨0, 1⟩] [farSystem 0 1] scanState).2.1 := by
  have hres : (binary_creation double4.add spawnIds true [⟨0, 1⟩] [farSystem 0 1]
      scanState).2.1 = [farSystem 0 1, (spawnIds ⟨0, 1⟩ scanState).2.1] := by
    simp only [binary_creation, if_true]
    rw [creation_loop_step double4.add spawnIds 0 [⟨0, 1⟩] _ _ (by simp),
      creation_loop_done double4.add spawnIds 1 _ _ _ (by simp)]
    rfl
  refine ⟨?_, hres, rfl, ?_⟩
  · simp [NoSharedMember]
  · rw [hres]
    simp [NoSharedMember, MultipleSystem.members, farSystem, spawnIds]

/-- C14, amended: the creation loop of `integration()` spawns a system for each pair it
takes from the detector without a membership check.  If each particle id is a member of
at most one system of `ms`, the reported pairs are pairwise disjoint and disjoint from
the members of the systems of `ms`, and the spawned system has the reported pair as its
members, then after the creation loop each particle id is still a member of at most one
system; the termination scan keeps the property without any condition. -/
theorem binary_creation_no_shared_member {α : Type} [LinearOrderedField α]
    (add4 : double4 α → double4 α → double4 α) (addF : Forces α → Forces α → Forces α)
    (sqrt : α → α)
    (spawn : binary_id → NbodySystem α → SParticle α × MultipleSystem α × NbodySystem α)
    (new_binaries : Bool) (pairs : List binary_id) (ms : List (MultipleSystem α))
    (ns : NbodySystem α)
    (hspawn : SpawnKeepsIds spawn) (hms : NoSharedMember ms)
    (hpairs : (pairs.map binary_id.ids).Pairwise List.Disjoint)
    (hcross : ∀ p ∈ pairs, ∀ m ∈ ms, List.Disjoint p.ids m.members) :
    NoSharedMember (binary_creation add4 spawn new_binaries pairs ms ns).2.1 ∧
    NoSharedMember (termination_scan add4 addF sqrt 0 ms ns).1 := by
  constructor
  · unfold binary_creation
    cases new_binaries with
    | false => exact hms
    | true =>
      obtain ⟨c, h1, -, -, h4⟩ := creation_loop_shape add4 spawn _ 0 pairs ms ns rfl
      have hsub := h4 hspawn
      rw [List.drop_zero] at hsub
      simp only [if_true]
      rw [h1]
      unfold NoSharedMember at hms ⊢
      rw [List.map_append, List.pairwise_append]
      refine ⟨hms, hpairs.sublist hsub, ?_⟩
      intro a ha b hb
      obtain ⟨m, hm, rfl⟩ := List.mem_map.mp ha
      obtain ⟨q, hq, rfl⟩ := List.mem_map.mp (hsub.subset hb)
      exact (hcross q hq m hm).symm
  · have hsub := (termination_scan_sublist add4 addF sqrt _ 0 ms ns rfl).1
    unfold NoSharedMember at hms ⊢
    exact hms.sublist (hsub.map _)

/-- Witness for C14 (amended): one existing system on the slots `0`, `1` and the reported
pair `(2, 3)`; afterwards no id is shared. -/
theorem binary_creation_no_shared_member_witness :
    SpawnKeepsIds spawnIds ∧ NoSharedMember [farSystem 0 1] ∧
    NoSharedMember
      (binary_creation double4.add spawnIds true [⟨2, 3⟩] [farSystem 0 1] scanState).2.1 := by
  have hs : SpawnKeepsIds spawnIds := fun p ns => rfl
  have hms : NoSharedMember [farSystem 0 1] := by simp [NoSharedMember]
  refine ⟨hs, hms, ?_⟩
  refine (binary_creation_no_shared_member double4.add Forces.add Rat.sqrt spawnIds true
    [⟨2, 3⟩] [farSystem 0 1] scanState hs hms (by simp) ?_).1
  intro p hp m hm
  rw [List.mem_singleton] at hp hm
  subst hp; subst hm
  simp [binary_id.ids, MultipleSystem.members, farSystem]

/-! ## Centre of density -/

theorem forLoop_succ {σ : Type} (lo hi : Nat) (body : Nat → σ → σ) (init : σ)
    (h : lo ≤ hi) :
    forLoop lo (hi + 1) body init = body hi (forLoop lo hi body init) := by
  unfold forLoop
  have e : hi + 1 - lo = (hi - lo) + 1 := by omega
  rw [e, List.range'_concat, List.foldl_append]
  simp only [List.foldl_cons, List.foldl_nil, Nat.one_mul]
  congr 1
  omega

theorem sortByValue_contract {α : Type} [LinearOrderedField α] :
    SortContract (sortByValue : List (Distance α) → List (Distance α)) := by
  intro l
  refine ⟨List.perm_insertionSort _ l, ?_⟩
  have : IsTotal (Distance α) (fun a b => a.value ≤ b.value) := ⟨fun a b => le_total _ _⟩
  have : IsTrans (Distance α) (fun a b => a.value ≤ b.value) :=
    ⟨fun a b c hab hbc => le_trans hab hbc⟩
  exact List.sorted_insertionSort (fun a b : Distance α => a.value ≤ b.value) l

/-- Under the contract of `std::sort` the distances of the sorted vector are the ascending
list of the distances, whatever the order among equal distances. -/
theorem sort_map_value {α : Type} [LinearOrderedField α]
    (sort : List (Distance α) → List (Distance α)) (hs : SortContract sort)
    (l : List (Distance α)) :
    (sort l).map (fun e => e.value)
      = (l.map (fun e => e.value)).insertionSort (fun a b => a ≤ b) := by
  obtain ⟨hp, hsorted⟩ := hs l
  apply List.eq_of_perm_of_sorted (r := fun a b : α => a ≤ b)
  · exact (hp.map _).trans (List.perm_insertionSort _ _).symm
  · exact List.pairwise_map.mpr hsorted
  · exact List.sorted_insertionSort (fun a b : α => a ≤ b) _

theorem collect_map_some {β γ : Type} (f : γ → Option β) (g : γ → β) (l : List γ)
    (h : ∀ i ∈ l, f i = some (g i)) : collect (l.map f) = some (l.map g) := by
  induction l with
  | nil => rfl
  | cons a rest ih =>
    have ha := h a (List.mem_cons_self a rest)
    have hrest := ih (fun i hi => h i (List.mem_cons_of_mem a hi))
    simp only [List.map_cons, ha, collect, hrest]

theorem density_of_float_eq {α : Type} [LinearOrderedField α] (env : Env α) (ns : NbodySystem α)
    (i : Nat) (hn : J < ns.n) (hs : SortContract env.sort) :
    density_of env ns i = some (float_density env ns i) := by
  unfold density_of
  simp only []
  generalize hd : (List.range ns.n).map (fun j =>
    if i ≠ j then
      ({ index := j, value := env.sqrt (((ns.h_r j).x - (ns.h_r i).x) * ((ns.h_r j).x - (ns.h_r i).x)
        + ((ns.h_r j).y - (ns.h_r i).y) * ((ns.h_r j).y - (ns.h_r i).y)
        + ((ns.h_r j).z - (ns.h_r i).z) * ((ns.h_r j).z - (ns.h_r i).z)) } : Distance α)
    else { index := 0, value := 0 }) = d
  have hval : d.map (fun e => e.value) = neighbourDistances env ns i := by
    rw [← hd, List.map_map]
    unfold neighbourDistances
    apply List.map_congr_left
    intro j _
    by_cases hij : i = j
    · simp [hij]
    · simp [hij, separation]
  have hlen : (env.sort d).length = ns.n := by
    rw [(hs d).1.length_eq, ← hd, List.length_map, List.length_range]
  have hJ : J < (env.sort d).length := by rw [hlen]; exact hn
  have hentry : (env.sort d)[J].value = jthNeighbourDistance env ns i := by
    unfold jthNeighbourDistance
    rw [← hval, ← sort_map_value env.sort hs d, List.getD_eq_getElem?_getD,
      List.getElem?_map, List.getElem?_eq_getElem hJ]
    rfl
  rw [List.getElem?_eq_getElem hJ]
  simp only []
  rw [hentry]
  unfold float_density
  have hJ9 : (((J - 1 : Nat) : α)) = (J : α) - 1 := by unfold J; norm_num
  have h4 : (4.0 : α) = 4 := by norm_num
  have h3 : (3.0 : α) = 3 := by norm_num
  rw [hJ9, h4, h3]

theorem float_density_exact {α : Type} [LinearOrderedField α] (env : Env α)
    (ns : NbodySystem α) (i : Nat) (hex : ∀ x, env.to_float x = x) :
    float_density env ns i = spec_density env ns i := by
  unfold float_density spec_density
  simp only [hex]
  congr 1
  ring

theorem float_sum_congr {α : Type} [LinearOrderedField α] (tf : α → α) (f g : Nat → α)
    (n : Nat) (h : ∀ i, i < n → f i = g i) : float_sum tf f n = float_sum tf g n := by
  induction n with
  | zero => rfl
  | succ k ih =>
    rw [float_sum, float_sum, ih (fun i hi => h i (Nat.lt_succ_of_lt hi)), h k (Nat.lt_succ_self k)]

theorem float_sum_exact {α : Type} [LinearOrderedField α] (tf : α → α) (f : Nat → α)
    (n : Nat) (hex : ∀ x, tf x = x) : float_sum tf f n = ∑ i in Finset.range n, f i := by
  induction n with
  | zero => simp [float_sum]
  | succ k ih => rw [float_sum, hex, ih, Finset.sum_range_succ]

theorem float_center_of_density_exact {α : Type} [LinearOrderedField α] (env : Env α)
    (ns : NbodySystem α) (hex : ∀ x, env.to_float x = x) :
    float_center_of_density env ns = spec_center_of_density env ns := by
  unfold float_center_of_density spec_center_of_density
  rw [float_sum_exact env.to_float _ _ hex]
  simp only [float_density_exact env ns _ hex]

theorem density_of_eq {α : Type} [LinearOrderedField α] (env : Env α) (ns : NbodySystem α)
    (i : Nat) (hn : J < ns.n) (hs : SortContract env.sort) (hex : ∀ x, env.to_float x = x) :
    density_of env ns i = some (spec_density env ns i) := by
  rw [density_of_float_eq env ns i hn hs, float_density_exact env ns i hex]

theorem cod_loop_eq {α : Type} [LinearOrderedField α] (tf : α → α) (ns : NbodySystem α)
    (p : List α) (n : Nat) :
    forLoop 0 n
      (fun i (st : α × double3 α) =>
        (tf (st.1 + p.getD i 0),
          ({ x := st.2.x + (ns.h_r i).x * p.getD i 0
             y := st.2.y + (ns.h_r i).y * p.getD i 0
             z := st.2.z + (ns.h_r i).z * p.getD i 0 } : double3 α)))
      (0, { x := 0, y := 0, z := 0 })
    = (float_sum tf (fun i => p.getD i 0) n,
        { x := ∑ i in Finset.range n, (ns.h_r i).x * p.getD i 0
          y := ∑ i in Finset.range n, (ns.h_r i).y * p.getD i 0
          z := ∑ i in Finset.range n, (ns.h_r i).z * p.getD i 0 }) := by
  induction n with
  | zero => simp [forLoop, float_sum]
  | succ m ih =>
    rw [forLoop_succ 0 m _ _ (Nat.zero_le m), ih]
    simp only [Finset.sum_range_succ, float_sum]

theorem getD_map_range {β : Type} (g : Nat → β) (n i : Nat) (d : β) (h : i < n) :
    ((List.range n).map g).getD i d = g i := by
  rw [List.getD_eq_getElem?_getD, List.getElem?_map, List.getElem?_range h]
  rfl

/-- The value of `get_center_of_density` when every read `d[J]` is inside the vector. -/
theorem get_center_of_density_float_eq {α : Type} [LinearOrderedField α] (env : Env α)
    (ns : NbodySystem α) (hn : J < ns.n) (hs : SortContract env.sort) :
    get_center_of_density env ns = some (float_center_of_density env ns) := by
  have hc : collect ((List.range ns.n).map (density_of env ns))
      = some ((List.range ns.n).map (float_density env ns)) :=
    collect_map_some _ _ _ (fun i _ => density_of_float_eq env ns i hn hs)
  unfold get_center_of_density
  rw [hc]
  simp only []
  rw [cod_loop_eq]
  have hsum : ∀ c : Nat → α,
      ∑ i in Finset.range ns.n, c i * ((List.range ns.n).map (float_density env ns)).getD i 0
        = ∑ i in Finset.range ns.n, float_density env ns i * c i := by
    intro c
    refine Finset.sum_congr rfl (fun i hi => ?_)
    rw [getD_map_range _ _ _ _ (Finset.mem_range.mp hi), mul_comm]
  have hsum1 : float_sum env.to_float
      (fun i => ((List.range ns.n).map (float_density env ns)).getD i 0) ns.n
        = float_sum env.to_float (float_density env ns) ns.n :=
    float_sum_congr _ _ _ _ (fun i hi => getD_map_range _ _ _ _ hi)
  simp only [hsum, hsum1]
  rfl

/-- The value of `get_center_of_density` when the conversions to `float` do not round. -/
theorem get_center_of_density_eq {α : Type} [LinearOrderedField α] (env : Env α)
    (ns : NbodySystem α) (hn : J < ns.n) (hs : SortContract env.sort)
    (hex : ∀ x, env.to_float x = x) :
    get_center_of_density env ns = some (spec_center_of_density env ns) := by
  rw [get_center_of_density_float_eq env ns hn hs, float_center_of_density_exact env ns hex]

theorem neighbourDistances_perm {α : Type} [LinearOrderedField α] (env : Env α)
    (ns : NbodySystem α) (i : Nat) (hi : i < ns.n) :
    (neighbourDistances env ns i).Perm (0 :: otherDistances env ns i) := by
  unfold neighbourDistances otherDistances
  have hp : (List.range ns.n).Perm (i :: (List.range ns.n).erase i) :=
    List.perm_cons_erase (List.mem_range.mpr hi)
  refine (hp.map _).trans ?_
  rw [List.map_cons, if_neg (by simp)]
  refine List.Perm.cons _ (List.Perm.of_eq ?_)
  apply List.map_congr_left
  intro j hj
  have hne : i ≠ j := by
    rintro rfl
    exact (List.Nodup.not_mem_erase (List.nodup_range ns.n)) hj
  rw [if_pos hne]

/-- With a nonnegative square root, the entry at index `J` of the ascending distance list
of particle `i` (self-entry `0` included) is the distance to its `J`-th nearest other
particle. -/
theorem jthNeighbourDistance_eq_nearest {α : Type} [LinearOrderedField α] (env : Env α)
    (ns : NbodySystem α) (i : Nat) (hi : i < ns.n) (hsqrt : ∀ x, 0 ≤ env.sqrt x) :
    jthNeighbourDistance env ns i = jthNearestOther env ns i := by
  have hsort : (neighbourDistances env ns i).insertionSort (fun a b => a ≤ b)
      = 0 :: (otherDistances env ns i).insertionSort (fun a b => a ≤ b) := by
    apply List.eq_of_perm_of_sorted (r := fun a b : α => a ≤ b)
    · refine (List.perm_insertionSort _ _).trans ((neighbourDistances_perm env ns i hi).trans ?_)
      exact List.Perm.cons _ (List.perm_insertionSort _ _).symm
    · exact List.sorted_insertionSort (fun a b : α => a ≤ b) _
    · refine List.sorted_cons.mpr ⟨?_, ?_⟩
      · intro b hb
        have hb' : b ∈ otherDistances env ns i :=
          (List.perm_insertionSort _ _).subset hb
        unfold otherDistances at hb'
        obtain ⟨j, -, rfl⟩ := List.mem_map.mp hb'
        exact hsqrt _
      · exact List.sorted_insertionSort (fun a b : α => a ≤ b) _
  unfold jthNeighbourDistance jthNearestOther
  rw [hsort]
  rfl

theorem lineState_distinct : DistinctPositions lineState := by
  intro i j _ _ hij h
  have hx : ((i : ℚ)) = (j : ℚ) := congrArg Prod.fst h
  exact hij (Nat.cast_injective hx)

/-! ## Half-mass radius -/

theorem collinear_separation (a b : ℚ) (m1 m2 : ℚ) :
    separation Rat.sqrt ⟨a, 0, 0, m1⟩ ⟨b, 0, 0, m2⟩ = |b - a| := by
  unfold separation
  have e : (b - a) * (b - a) + (0 - 0) * (0 - 0) + (0 - 0) * (0 - 0) = (b - a) * (b - a) := by
    ring
  simp only [e, Rat.sqrt_eq]

theorem rat_sqrt_collinear (a : ℚ) :
    Rat.sqrt (a * a + (0 - 0) * (0 - 0) + (0 - 0) * (0 - 0)) = |a| := by
  have e : a * a + (0 - 0) * (0 - 0) + (0 - 0) * (0 - 0) = a * a := by ring
  rw [e, Rat.sqrt_eq]

theorem heavyFar_jth (i : Nat) (hi : i < 12) :
    jthNeighbourDistance ratEnv heavyFarState i
      = if i < 11 then max (i : ℚ) (10 - i) else 999 := by
  unfold jthNeighbourDistance neighbourDistances
  simp only [ratEnv, heavyFarState, collinear_separation]
  interval_cases i <;>
    norm_num [List.range, List.range.loop, List.insertionSort, List.orderedInsert, J,
      abs_of_nonneg, abs_of_nonpos]

theorem heavyFar_cod : spec_center_of_density ratEnv heavyFarState = heavyFarCod := by
  unfold spec_center_of_density spec_density heavyFarCod
  simp only [show heavyFarState.n = 12 from rfl, Finset.sum_range_succ, Finset.sum_range_zero]
  rw [heavyFar_jth 0 (by norm_num), heavyFar_jth 1 (by norm_num), heavyFar_jth 2 (by norm_num),
    heavyFar_jth 3 (by norm_num), heavyFar_jth 4 (by norm_num), heavyFar_jth 5 (by norm_num),
    heavyFar_jth 6 (by norm_num), heavyFar_jth 7 (by norm_num), heavyFar_jth 8 (by norm_num),
    heavyFar_jth 9 (by norm_num), heavyFar_jth 10 (by norm_num), heavyFar_jth 11 (by norm_num)]
  simp only [ratEnv, heavyFarState, J]
  norm_num

theorem heavyFar_sorted :
    ratEnv.sort (distances_to ratEnv heavyFarCod heavyFarState) = heavyFarSorted := by
  unfold distances_to heavyFarSorted
  simp only [ratEnv, heavyFarState, heavyFarCod, rat_sqrt_collinear, sortByValue]
  norm_num [List.range, List.range.loop, List.insertionSort, List.orderedInsert,
    abs_of_nonneg, abs_of_nonpos]

theorem heavyFar_loop :
    (forLoop 0 heavyFarState.n (halfmass_step heavyFarState heavyFarSorted)
      { half_mass := 0, j := 0, broke := false }).j = 0 := by
  simp only [heavyFarState, heavyFarSorted]
  norm_num [forLoop, List.range', halfmass_step]

theorem heavyFar_halfmass (nu : NbodyUtils ℚ) (hcod : nu.cod = heavyFarCod) :
    get_halfmass_radius ratEnv nu heavyFarState = none := by
  unfold get_halfmass_radius
  simp only []
  rw [hcod, heavyFar_sorted, heavyFar_loop, List.getElem?_eq_none]
  show 12 ≤ unsigned_pred 0
  unfold unsigned_pred
  norm_num

/-- A failed read in `get_halfmass_radius()` fails `get_half_mass_relaxation_time()`. -/
theorem relaxation_time_none {α : Type} [LinearOrderedField α] (env : Env α)
    (nu : NbodyUtils α) (ns : NbodySystem α) (c : double3 α)
    (hc : get_center_of_density env ns = some c)
    (hh : get_halfmass_radius env { nu with cod := c } ns = none) :
    get_half_mass_relaxation_time env nu ns = none := by
  unfold get_half_mass_relaxation_time
  rw [hc]
  simp only []
  rw [hh]

/-- C15, evaluation at the failing input: for `heavyFarState` (`n = 12 > J`, positive
masses, `total_mass` their sum) the centre of density is `heavyFarCod`; no sorted prefix
of fewer than `n` particles reaches half of the mass, the loop ends without `break`, `j`
stays `0`, and `distances[j-1]` is the read at index `2^32 - 1`, outside the vector: the
call of `get_halfmass_radius()` made by `get_half_mass_relaxation_time()` fails. -/
theorem get_halfmass_radius_out_of_range :
    J < heavyFarState.n ∧
    get_center_of_density ratEnv heavyFarState = some heavyFarCod ∧
    (forLoop 0 heavyFarState.n (halfmass_step heavyFarState heavyFarSorted)
      { half_mass := 0, j := 0, broke := false }).j = 0 ∧
    unsigned_pred 0 = 4294967295 ∧
    get_halfmass_radius ratEnv { initialUtils with cod := heavyFarCod } heavyFarState = none ∧
    get_half_mass_relaxation_time ratEnv initialUtils heavyFarState = none := by
  have hcod : get_center_of_density ratEnv heavyFarState = some heavyFarCod := by
    rw [get_center_of_density_eq ratEnv heavyFarState (by decide) sortByValue_contract
      (fun _ => rfl),
      heavyFar_cod]
  exact ⟨by decide, hcod, heavyFar_loop, by unfold unsigned_pred; norm_num,
    heavyFar_halfmass _ rfl,
    relaxation_time_none ratEnv initialUtils heavyFarState heavyFarCod hcod
      (heavyFar_halfmass _ rfl)⟩

/-! ## Lagrange radii -/

theorem lineState_jth (i : Nat) (hi : i < 11) :
    jthNeighbourDistance ratEnv lineState i = max (i : ℚ) (10 - i) := by
  unfold jthNeighbourDistance neighbourDistances
  simp only [ratEnv, lineState, collinear_separation]
  interval_cases i <;>
    norm_num [List.range, List.range.loop, List.insertionSort, List.orderedInsert, J,
      abs_of_nonneg, abs_of_nonpos]

theorem lineState_cod :
    spec_center_of_density ratEnv lineState = { x := 5, y := 0, z := 0 } := by
  unfold spec_center_of_density spec_density
  simp only [show lineState.n = 11 from rfl, Finset.sum_range_succ, Finset.sum_range_zero]
  rw [lineState_jth 0 (by norm_num), lineState_jth 1 (by norm_num),
    lineState_jth 2 (by norm_num), lineState_jth 3 (by norm_num),
    lineState_jth 4 (by norm_num), lineState_jth 5 (by norm_num),
    lineState_jth 6 (by norm_num), lineState_jth 7 (by norm_num),
    lineState_jth 8 (by norm_num), lineState_jth 9 (by norm_num),
    lineState_jth 10 (by norm_num)]
  simp only [ratEnv, lineState, J]
  norm_num

theorem lineState_sorted (nu : NbodyUtils ℚ) (hcod : nu.cod = { x := 5, y := 0, z := 0 }) :
    ratEnv.sort (get_radii ratEnv nu lineState).radii = lineSorted := by
  unfold get_radii lineSorted
  simp only [hcod, ratEnv, lineState, rat_sqrt_collinear, sortByValue]
  norm_num [List.range, List.range.loop, List.insertionSort, List.orderedInsert,
    abs_of_nonneg, abs_of_nonpos]

theorem lineState_layers (nu : NbodyUtils ℚ) (hr : nu.radii = lineSorted)
    (hl : nu.layers_radii = [0, 0]) :
    get_layers ratEnv nu lineState = some { nu with layers_radii := [4, 0] } := by
  unfold get_layers
  simp only [hr, hl, lineState, lineSorted, ratEnv]
  norm_num [forLoop, List.range', get_layers_step]

theorem lagrange_radii_eq {α : Type} [LinearOrderedField α] (env : Env α)
    (nu : NbodyUtils α) (ns : NbodySystem α) (c : double3 α)
    (hc : get_center_of_density env ns = some c) :
    lagrange_radii env nu ns =
      get_layers env
        { get_radii env { nu with cod := c } ns with
          radii := env.sort (get_radii env { nu with cod := c } ns).radii } ns := by
  unfold lagrange_radii
  rw [hc]


/-- C16, evaluation at the failing input: for `lineState` (`n = 11`, equal masses,
`total_mass = 1`) and the table `LAGRANGE_RADII = {0.6, 1.0}`, `lagrange_radii()` finds
the centre of density `(5, 0, 0)` and stores `layers_radii[0] = 4`, the distance of the
first particle outside the enclosed mass, and leaves `layers_radii[1]` untouched; the
particles within distance `3` already hold `7/11 ≥ 0.6` of the mass, those within distance
`2` only `5/11`. -/
theorem lagrange_radii_next_particle :
    J < lineState.n ∧
    lagrange_radii ratEnv initialUtils lineState
      = some { cod := { x := 5, y := 0, z := 0 }, radii := lineSorted,
               layers_radii := [4, 0] } ∧
    ∑ i in (Finset.range lineState.n).filter (fun i => |(lineState.h_r i).x - 5| ≤ 3),
      (lineState.h_r i).w = 7 / 11 ∧
    ∑ i in (Finset.range lineState.n).filter (fun i => |(lineState.h_r i).x - 5| ≤ 2),
      (lineState.h_r i).w = 5 / 11 ∧
    (5 / 11 : ℚ) < 0.6 * lineState.total_mass ∧
    0.6 * lineState.total_mass ≤ (7 / 11 : ℚ) := by
  have hcod : get_center_of_density ratEnv lineState = some { x := 5, y := 0, z := 0 } := by
    rw [get_center_of_density_eq ratEnv lineState (by decide) sortByValue_contract
        (fun _ => rfl),
      lineState_cod]
  have hr := lineState_sorted { initialUtils with cod := { x := 5, y := 0, z := 0 } } rfl
  refine ⟨by decide, ?_, ?_, ?_, ?_, ?_⟩
  · rw [lagrange_radii_eq ratEnv initialUtils lineState _ hcod, lineState_layers _ hr rfl]
    simp only [hr]
    rfl
  · simp only [show lineState.n = 11 from rfl, Finset.sum_filter, Finset.sum_range_succ,
      Finset.sum_range_zero, lineState, abs_le]
    norm_num
  · simp only [show lineState.n = 11 from rfl, Finset.sum_filter, Finset.sum_range_succ,
      Finset.sum_range_zero, lineState, abs_le]
    norm_num
  · simp only [lineState]; norm_num
  · simp only [lineState]; norm_num

/-! ## Virial and close-encounter radius -/

theorem get_virial_radius_pos_iff {α : Type} [LinearOrderedField α] (ns : NbodySystem α)
    (E : α) (hM : ns.total_mass ≠ 0) : 0 < get_virial_radius ns E ↔ E < 0 := by
  have hMM : 0 < ns.total_mass * ns.total_mass := mul_self_pos.mpr hM
  have hnum : -G * ns.total_mass * ns.total_mass < 0 := by
    unfold G; linarith
  unfold get_virial_radius
  constructor
  · intro h
    by_contra hE
    rcases (not_lt.mp hE).eq_or_lt with h0 | hpos
    · rw [← h0, mul_zero, div_zero] at h
      exact lt_irrefl _ h
    · have : -G * ns.total_mass * ns.total_mass / (4 * E) < 0 :=
        div_neg_of_neg_of_pos hnum (by linarith)
      exact lt_asymm h this
  · intro hE
    exact div_pos_of_neg_of_neg hnum (by linarith)

theorem get_close_encounter_radius_pos_iff {α : Type} [LinearOrderedField α]
    (ns : NbodySystem α) (rv : α) (hn : 0 < ns.n) :
    0 < get_close_encounter_radius ns rv ↔ 0 < rv := by
  have hn' : (0 : α) < (ns.n : α) := Nat.cast_pos.mpr hn
  unfold get_close_encounter_radius
  rw [div_pos_iff_of_pos_right hn']
  constructor
  · intro h
    have h4 : (4.0 : α) = 4 := by norm_num
    rw [h4] at h
    linarith
  · intro h
    have h4 : (4.0 : α) = 4 := by norm_num
    rw [h4]
    linarith

/-- The relaxation time leaves `r_virial`, `r_cl`, `n`, `total_mass` and `en` of the state
as they are. -/
theorem relaxation_time_frame {α : Type} [LinearOrderedField α] (env : Env α)
    (nu : NbodyUtils α) (ns : NbodySystem α) (out : α × NbodyUtils α × NbodySystem α)
    (h : get_half_mass_relaxation_time env nu ns = some out) :
    out.2.2.r_virial = ns.r_virial ∧ out.2.2.r_cl = ns.r_cl ∧ out.2.2.n = ns.n := by
  unfold get_half_mass_relaxation_time at h
  cases hc : get_center_of_density env ns with
  | none => rw [hc] at h; simp at h
  | some c =>
    rw [hc] at h
    simp only [] at h
    cases hh : get_halfmass_radius env { nu with cod := c } ns with
    | none => rw [hh] at h; simp at h
    | some r_h =>
      rw [hh] at h
      simp only [Option.some.injEq] at h
      rw [← h]
      exact ⟨rfl, rfl, rfl⟩

/-- Whenever `nbody_attributes()` completes, the stored `r_virial` and `r_cl` are those of
its first assignments. -/
theorem nbody_attributes_stores {α : Type} [LinearOrderedField α] (env : Env α)
    (nu : NbodyUtils α) (ns : NbodySystem α) (out : NbodyUtils α × NbodySystem α)
    (h : nbody_attributes env nu ns = some out) :
    out.2.r_virial = (nbody_attributes_radii env.sqrt ns).r_virial ∧
    out.2.r_cl = (nbody_attributes_radii env.sqrt ns).r_cl := by
  unfold nbody_attributes at h
  simp only [] at h
  cases hc : get_core_radius env nu (nbody_attributes_radii env.sqrt ns) with
  | none => rw [hc] at h; simp at h
  | some rc =>
    rw [hc] at h
    simp only [] at h
    cases hr : get_half_mass_relaxation_time env nu
        { nbody_attributes_radii env.sqrt ns with r_core := rc } with
    | none => rw [hr] at h; simp at h
    | some o =>
      rw [hr] at h
      simp only [Option.some.injEq] at h
      obtain ⟨h1, h2, -⟩ := relaxation_time_frame env nu _ o hr
      rw [← h]
      exact ⟨h1, h2⟩

theorem get_core_radius_congr {α : Type} [LinearOrderedField α] (env : Env α)
    (nu : NbodyUtils α) (ns ns1 : NbodySystem α) (hn : ns1.n = ns.n) (hr : ns1.h_r = ns.h_r)
    (hm : ns1.total_mass = ns.total_mass) :
    get_core_radius env nu ns1 = get_core_radius env nu ns := by
  unfold get_core_radius
  simp only [hn, hr, hm]

theorem get_center_of_density_congr {α : Type} [LinearOrderedField α] (env : Env α)
    (ns ns1 : NbodySystem α) (hn : ns1.n = ns.n) (hr : ns1.h_r = ns.h_r) :
    get_center_of_density env ns1 = get_center_of_density env ns := by
  unfold get_center_of_density density_of
  simp only [hn, hr]

theorem get_halfmass_radius_congr {α : Type} [LinearOrderedField α] (env : Env α)
    (nu : NbodyUtils α) (ns ns1 : NbodySystem α) (hn : ns1.n = ns.n) (hr : ns1.h_r = ns.h_r)
    (hm : ns1.total_mass = ns.total_mass) :
    get_halfmass_radius env nu ns1 = get_halfmass_radius env nu ns := by
  unfold get_halfmass_radius distances_to halfmass_step
  simp only [hn, hr, hm]

/-- The function `nbody_attributes()` completes when the core radius, the centre of density
and the half-mass radius are read inside their vectors. -/
theorem nbody_attributes_completes {α : Type} [LinearOrderedField α] (env : Env α)
    (nu : NbodyUtils α) (ns : NbodySystem α) (rc : α) (c : double3 α) (rh : α)
    (h1 : get_core_radius env nu ns = some rc)
    (h2 : get_center_of_density env ns = some c)
    (h3 : get_halfmass_radius env { nu with cod := c } ns = some rh) :
    ∃ out, nbody_attributes env nu ns = some out := by
  have e1 : get_core_radius env nu (nbody_attributes_radii env.sqrt ns) = some rc :=
    (get_core_radius_congr env nu ns (nbody_attributes_radii env.sqrt ns) rfl rfl rfl).trans h1
  have e2 : get_center_of_density env
      { nbody_attributes_radii env.sqrt ns with r_core := rc } = some c :=
    (get_center_of_density_congr env ns
      { nbody_attributes_radii env.sqrt ns with r_core := rc } rfl rfl).trans h2
  have e3 : get_halfmass_radius env { nu with cod := c }
      { nbody_attributes_radii env.sqrt ns with r_core := rc } = some rh :=
    (get_halfmass_radius_congr env { nu with cod := c } ns
      { nbody_attributes_radii env.sqrt ns with r_core := rc } rfl rfl rfl).trans h3
  unfold nbody_attributes
  simp only []
  rw [e1]
  simp only []
  unfold get_half_mass_relaxation_time
  rw [e2]
  simp only []
  rw [e3]
  exact ⟨_, rfl⟩

theorem lineState_core_radius (ns : NbodySystem ℚ) (hn : ns.n = lineState.n)
    (hr : ns.h_r = lineState.h_r) (hm : ns.total_mass = lineState.total_mass) :
    get_core_radius ratEnv initialUtils ns = some 1 := by
  rw [get_core_radius_congr ratEnv initialUtils lineState ns hn hr hm]
  unfold get_core_radius
  simp only [ratEnv, lineState, initialUtils, rat_sqrt_collinear, sortByValue]
  norm_num [List.range, List.range.loop, List.insertionSort, List.orderedInsert,
    abs_of_nonneg, forLoop, List.range', unsigned_pred]


theorem lineState_halfmass (nu : NbodyUtils ℚ) (hcod : nu.cod = { x := 5, y := 0, z := 0 }) :
    get_halfmass_radius ratEnv nu lineState = some 3 := by
  have hs : ratEnv.sort (distances_to ratEnv nu.cod lineState) = lineSorted := by
    unfold distances_to lineSorted
    simp only [hcod, ratEnv, lineState, rat_sqrt_collinear, sortByValue]
    norm_num [List.range, List.range.loop, List.insertionSort, List.orderedInsert,
      abs_of_nonneg, abs_of_nonpos]
  have hj : (forLoop 0 lineState.n (halfmass_step lineState lineSorted)
      { half_mass := 0, j := 0, broke := false }).j = 6 := by
    simp only [lineState, lineSorted]
    norm_num [forLoop, List.range', halfmass_step]
  unfold get_halfmass_radius
  simp only []
  rw [hs, hj]
  have h5 : unsigned_pred 6 = 5 := by unfold unsigned_pred; norm_num
  rw [h5]
  rfl


theorem nbody_attributes_radii_values {α : Type} [LinearOrderedField α] (sqrt : α → α)
    (ns : NbodySystem α) :
    (nbody_attributes_radii sqrt ns).r_virial = get_virial_radius ns ns.en.ini ∧
    (nbody_attributes_radii sqrt ns).r_cl
      = 4 * (nbody_attributes_radii sqrt ns).r_virial / (ns.n : α) := by
  refine ⟨rfl, ?_⟩
  show (4.0 * get_virial_radius ns ns.en.ini) / (ns.n : α)
    = 4 * get_virial_radius ns ns.en.ini / (ns.n : α)
  norm_num

/-- C18: `get_virial_radius(E) = -G * total_mass^2 / (4 * E)` and
`get_close_encounter_radius(r_virial) = 4 * r_virial / n`; `nbody_attributes()` stores
`r_virial` computed from the initial energy `en.ini` and `r_cl = 4 * r_virial / n`, so for a
system of `n ≥ 1` particles with `total_mass ≠ 0` the stored `r_virial` and `r_cl` are
positive exactly when `en.ini < 0`. -/
theorem nbody_attributes_virial_and_close_radius {α : Type} [LinearOrderedField α]
    (env : Env α) (nu : NbodyUtils α) (ns : NbodySystem α) (E rv : α)
    (hM : ns.total_mass ≠ 0) (hn : 0 < ns.n) :
    get_virial_radius ns E = -G * ns.total_mass ^ 2 / (4 * E) ∧
    get_close_encounter_radius ns rv = 4 * rv / (ns.n : α) ∧
    (nbody_attributes_radii env.sqrt ns).r_virial = get_virial_radius ns ns.en.ini ∧
    (nbody_attributes_radii env.sqrt ns).r_cl
      = 4 * (nbody_attributes_radii env.sqrt ns).r_virial / (ns.n : α) ∧
    (∀ out, nbody_attributes env nu ns = some out →
      out.2.r_virial = get_virial_radius ns ns.en.ini ∧
      out.2.r_cl = 4 * out.2.r_virial / (ns.n : α) ∧
      (0 < out.2.r_virial ↔ ns.en.ini < 0) ∧
      (0 < out.2.r_cl ↔ ns.en.ini < 0)) := by
  obtain ⟨hv, hc⟩ := nbody_attributes_radii_values env.sqrt ns
  refine ⟨?_, ?_, hv, hc, ?_⟩
  · unfold get_virial_radius
    congr 1
    ring
  · unfold get_close_encounter_radius
    norm_num
  · intro out hout
    obtain ⟨h1, h2⟩ := nbody_attributes_stores env nu ns out hout
    have hrv : out.2.r_virial = get_virial_radius ns ns.en.ini := h1.trans hv
    have hrc : out.2.r_cl = 4 * out.2.r_virial / (ns.n : α) := by
      rw [h2, hc, h1]
    have hpos : 0 < out.2.r_virial ↔ ns.en.ini < 0 := by
      rw [hrv]; exact get_virial_radius_pos_iff ns ns.en.ini hM
    refine ⟨hrv, hrc, hpos, ?_⟩
    rw [← hpos, hrc]
    have hn' : (0 : α) < (ns.n : α) := Nat.cast_pos.mpr hn
    rw [div_pos_iff_of_pos_right hn']
    constructor <;> intro h <;> linarith

/-- Witness for C18: on `boundLineState` (`n = 11`, `total_mass = 1`, `en.ini = -1/4`)
`nbody_attributes()` completes and stores `r_virial = 1 > 0` and `r_cl = 4/11 > 0`. -/
theorem nbody_attributes_virial_and_close_radius_witness :
    boundLineState.total_mass ≠ 0 ∧ 0 < boundLineState.n ∧
    ∃ out, nbody_attributes ratEnv initialUtils boundLineState = some out ∧
      out.2.r_virial = 1 ∧ out.2.r_cl = 4 / 11 := by
  have hM : boundLineState.total_mass ≠ 0 := by
    show (1 : ℚ) ≠ 0
    norm_num
  have hn : 0 < boundLineState.n := by decide
  have hcod : get_center_of_density ratEnv boundLineState = some { x := 5, y := 0, z := 0 } := by
    rw [get_center_of_density_congr ratEnv lineState boundLineState rfl rfl,
      get_center_of_density_eq ratEnv lineState (by decide) sortByValue_contract
        (fun _ => rfl),
      lineState_cod]
  have hhalf : get_halfmass_radius ratEnv
      { initialUtils with cod := { x := 5, y := 0, z := 0 } } boundLineState = some 3 := by
    rw [get_halfmass_radius_congr ratEnv _ lineState boundLineState rfl rfl rfl]
    exact lineState_halfmass _ rfl
  obtain ⟨out, hout⟩ := nbody_attributes_completes ratEnv initialUtils boundLineState 1
    { x := 5, y := 0, z := 0 } 3 (lineState_core_radius boundLineState rfl rfl rfl) hcod hhalf
  obtain ⟨h1, h2, -, -⟩ :=
    (nbody_attributes_virial_and_close_radius ratEnv initialUtils boundLineState 0 0 hM
      hn).2.2.2.2 out hout
  have hv : get_virial_radius boundLineState boundLineState.en.ini = 1 := by
    simp only [get_virial_radius, G, boundLineState, lineState]
    norm_num
  refine ⟨hM, hn, out, hout, h1.trans hv, ?_⟩
  rw [h2, h1, hv]
  show (4 * 1 / ((11 : ℕ) : ℚ)) = 4 / 11
  norm_num

/-! ## Further properties of the step quantizer -/

/-- On numbers (no NaN) one of the six conditions of lines 373-393 holds, so the final
`else` is not taken. -/
theorem normalize_dt_else_unreachable {α : Type} [LinearOrderedField α]
    (new_dt old_dt : α) :
    normalize_dt_branch new_dt old_dt ≠ 7 ∧
    (new_dt ≤ old_dt / 8 ∨
      (old_dt / 8 < new_dt ∧ new_dt ≤ old_dt / 4) ∨
      (old_dt / 4 < new_dt ∧ new_dt ≤ old_dt / 2) ∨
      (old_dt / 2 < new_dt ∧ new_dt ≤ old_dt) ∨
      (old_dt < new_dt ∧ new_dt ≤ old_dt * 2) ∨
      2 * old_dt < new_dt) := by
  have hdisj : new_dt ≤ old_dt / 8 ∨
      (old_dt / 8 < new_dt ∧ new_dt ≤ old_dt / 4) ∨
      (old_dt / 4 < new_dt ∧ new_dt ≤ old_dt / 2) ∨
      (old_dt / 2 < new_dt ∧ new_dt ≤ old_dt) ∨
      (old_dt < new_dt ∧ new_dt ≤ old_dt * 2) ∨
      2 * old_dt < new_dt := by
    by_cases h1 : new_dt ≤ old_dt / 8
    · exact Or.inl h1
    by_cases h2 : new_dt ≤ old_dt / 4
    · exact Or.inr (Or.inl ⟨not_le.mp h1, h2⟩)
    by_cases h3 : new_dt ≤ old_dt / 2
    · exact Or.inr (Or.inr (Or.inl ⟨not_le.mp h2, h3⟩))
    by_cases h4 : new_dt ≤ old_dt
    · exact Or.inr (Or.inr (Or.inr (Or.inl ⟨not_le.mp h3, h4⟩)))
    by_cases h5 : new_dt ≤ old_dt * 2
    · exact Or.inr (Or.inr (Or.inr (Or.inr (Or.inl ⟨not_le.mp h4, h5⟩))))
    · right; right; right; right; right
      rw [mul_comm]; exact not_le.mp h5
  refine ⟨?_, hdisj⟩
  unfold normalize_dt_branch
  rcases hdisj with h | h | h | h | h | h
  · rw [if_pos h]; decide
  all_goals
    split_ifs <;> decide

theorem normalize_dt_clamp_mono {α : Type} [LinearOrderedField α] (x y : α) (h : x ≤ y) :
    normalize_dt_clamp x ≤ normalize_dt_clamp y := by
  rw [normalize_dt_clamp_eq_max_min, normalize_dt_clamp_eq_max_min]
  exact max_le_max le_rfl (min_le_min le_rfl h)

theorem normalize_dt_clamp_le_max {α : Type} [LinearOrderedField α] (x : α) :
    normalize_dt_clamp x ≤ max x D_TIME_MIN := by
  unfold normalize_dt_clamp
  split_ifs with h1 h2
  · exact le_max_right _ _
  · exact le_trans h2.le (le_max_left _ _)
  · exact le_max_left _ _

theorem normalize_dt_bin_ge {α : Type} [LinearOrderedField α] [FloorRing α]
    (y old_dt t : α) (i : Nat) (hold : 0 < old_dt) :
    (old_dt / 8 < y → old_dt / 8 ≤ normalize_dt_bin y old_dt t i) ∧
    (old_dt / 4 < y → old_dt / 4 ≤ normalize_dt_bin y old_dt t i) ∧
    (old_dt / 2 < y → old_dt / 2 ≤ normalize_dt_bin y old_dt t i) ∧
    (old_dt < y → old_dt ≤ normalize_dt_bin y old_dt t i) := by
  rw [normalize_dt_bin_eq]
  refine ⟨fun h => ?_, fun h => ?_, fun h => ?_, fun h => ?_⟩ <;>
    split_ifs <;> linarith

theorem normalize_dt_bin_top {α : Type} [LinearOrderedField α] [FloorRing α]
    (y old_dt t : α) (i : Nat) (hold : 0 < old_dt) (h : old_dt * 2 < y) :
    normalize_dt_bin y old_dt t i =
      if ((Int.ceil (t / (2 * old_dt)) : ℤ) : α) = t / (2 * old_dt) then 2 * old_dt
      else old_dt := by
  rw [normalize_dt_bin_eq]
  rw [if_neg (by intro h1; linarith), if_neg (by intro h1; linarith),
    if_neg (by intro h1; linarith), if_neg (by intro h1; linarith),
    if_neg (by intro h1; linarith)]

theorem normalize_dt_bin_mono {α : Type} [LinearOrderedField α] [FloorRing α]
    (new_dt1 new_dt2 old_dt t : α) (i : Nat) (hold : 0 < old_dt) (h : new_dt1 ≤ new_dt2) :
    normalize_dt_bin new_dt1 old_dt t i = D_TIME_MIN ∨
    normalize_dt_bin new_dt1 old_dt t i ≤ normalize_dt_bin new_dt2 old_dt t i := by
  obtain ⟨g8, g4, g2, g1⟩ := normalize_dt_bin_ge new_dt2 old_dt t i hold
  by_cases a1 : new_dt1 ≤ old_dt / 8
  · left; rw [normalize_dt_bin_eq, if_pos a1]
  right
  by_cases a5 : new_dt1 ≤ old_dt * 2
  · rw [normalize_dt_bin_eq new_dt1, if_neg a1]
    split_ifs with a2 a3 a4
    · exact g8 (lt_of_lt_of_le (not_le.mp a1) h)
    · exact g4 (lt_of_lt_of_le (not_le.mp a2) h)
    · exact g2 (lt_of_lt_of_le (not_le.mp a3) h)
    · exact g1 (lt_of_lt_of_le (not_le.mp a4) h)
  · rw [normalize_dt_bin_top new_dt1 old_dt t i hold (not_le.mp a5),
      normalize_dt_bin_top new_dt2 old_dt t i hold (lt_of_lt_of_le (not_le.mp a5) h)]

theorem normalize_dt_bin_le {α : Type} [LinearOrderedField α] [FloorRing α]
    (new_dt old_dt t : α) (i : Nat) :
    normalize_dt_bin new_dt old_dt t i ≤ max (2 * old_dt) D_TIME_MIN := by
  have hmin : (0 : α) < D_TIME_MIN := D_TIME_MIN_pos
  rw [le_max_iff]
  rcases normalize_dt_bin_cases new_dt old_dt t i with h | h | h | h | h | ⟨h, -⟩ <;> rw [h]
  · exact Or.inr le_rfl
  all_goals
    rcases le_or_lt 0 old_dt with hs | hs
    · left; linarith
    · right; linarith

/-- C25: `normalize_dt` is monotone in the requested step: for `old_dt > 0`, every `t` and
`new_dt1 ≤ new_dt2`, `normalize_dt(new_dt1, old_dt, t, i) ≤ normalize_dt(new_dt2, old_dt, t, i)`;
and its result never exceeds `max(2*old_dt, D_TIME_MIN)`. -/
theorem normalize_dt_monotone {α : Type} [LinearOrderedField α] [FloorRing α]
    (new_dt1 new_dt2 old_dt t : α) (i : Nat) (hold : 0 < old_dt) (h : new_dt1 ≤ new_dt2) :
    normalize_dt new_dt1 old_dt t i ≤ normalize_dt new_dt2 old_dt t i ∧
    normalize_dt new_dt1 old_dt t i ≤ max (2 * old_dt) D_TIME_MIN ∧
    normalize_dt new_dt2 old_dt t i ≤ max (2 * old_dt) D_TIME_MIN := by
  have hb : ∀ x : α, normalize_dt x old_dt t i ≤ max (2 * old_dt) D_TIME_MIN := by
    intro x
    unfold normalize_dt
    exact le_trans (normalize_dt_clamp_le_max _)
      (max_le (normalize_dt_bin_le x old_dt t i) (le_max_right _ _))
  refine ⟨?_, hb new_dt1, hb new_dt2⟩
  unfold normalize_dt
  rcases normalize_dt_bin_mono new_dt1 new_dt2 old_dt t i hold h with h1 | h1
  · rw [h1, normalize_dt_clamp_min]
    exact (normalize_dt_clamp_bounds _).1
  · exact normalize_dt_clamp_mono _ _ h1

/-- Witness for C25: `old_dt = 1/16`, `t = 0`, requests `1/30 ≤ 1/5`: results `1/32 ≤ 1/8`. -/
theorem normalize_dt_monotone_witness :
    (0 : ℚ) < 1 / 16 ∧ (1 / 30 : ℚ) ≤ 1 / 5 ∧
    normalize_dt (1 / 30 : ℚ) (1 / 16) 0 0 ≤ normalize_dt (1 / 5 : ℚ) (1 / 16) 0 0 :=
  ⟨by norm_num, by norm_num,
   (normalize_dt_monotone (1 / 30 : ℚ) (1 / 5) (1 / 16) 0 0 (by norm_num) (by norm_num)).1⟩

/-! ## Energy diagnostics that split a binary -/

theorem update_restore {β : Type} (f g : Nat → β) (a b : Nat)
    (hg : ∀ k, k ≠ a → k ≠ b → g k = f k) :
    Function.update (Function.update g a (f a)) b (f b) = f := by
  funext k
  by_cases hb : k = b
  · subst hb; simp
  · by_cases ha : k = a
    · subst ha; simp [Function.update, hb]
    · simp [Function.update, hb, ha, hg k ha hb]

/-- The SPLIT / REDO block returns the state it started from. -/
theorem spawn_diagnostic_state {α : Type} [LinearOrderedField α]
    (add4 : double4 α → double4 α → double4 α) (ns : NbodySystem α) (sp : SParticle α)
    (part0 part1 : MParticle α) : spawn_diagnostic add4 ns sp part0 part1 = ns := by
  have hr : (spawn_diagnostic add4 ns sp part0 part1).h_r = ns.h_r := by
    unfold spawn_diagnostic
    simp only []
    apply update_restore
    intro k h0 h1
    simp [Function.update, h0, h1]
  have hv : (spawn_diagnostic add4 ns sp part0 part1).h_v = ns.h_v := by
    unfold spawn_diagnostic
    simp only []
    apply update_restore
    intro k h0 h1
    simp [Function.update, h0, h1]
  have hrest : spawn_diagnostic add4 ns sp part0 part1 =
      { ns with h_r := (spawn_diagnostic add4 ns sp part0 part1).h_r,
                h_v := (spawn_diagnostic add4 ns sp part0 part1).h_v } := rfl
  rw [hrest, hr, hv]

/-- The diagnostic block at a global synchronization returns the state it started from. -/
theorem sync_diagnostic_state {α : Type} [LinearOrderedField α]
    (add4 : double4 α → double4 α → double4 α) (sqrt : α → α) (ns : NbodySystem α) (ee : α)
    (part0 part1 : MParticle α) : (sync_diagnostic add4 sqrt ns ee part0 part1).2 = ns := by
  have hr : (sync_diagnostic add4 sqrt ns ee part0 part1).2.h_r = ns.h_r := by
    unfold sync_diagnostic
    simp only []
    funext k
    by_cases h1 : k = part1.id
    · subst h1; simp [Function.update]
    · by_cases h0 : k = part0.id
      · subst h0; simp [Function.update, h1]
      · simp [Function.update, h0, h1]
  have hv : (sync_diagnostic add4 sqrt ns ee part0 part1).2.h_v = ns.h_v := by
    unfold sync_diagnostic
    simp only []
    funext k
    by_cases h1 : k = part1.id
    · subst h1; simp [Function.update]
    · by_cases h0 : k = part0.id
      · subst h0; simp [Function.update, h1]
      · simp [Function.update, h0, h1]
  have hrest : (sync_diagnostic add4 sqrt ns ee part0 part1).2 =
      { ns with h_r := (sync_diagnostic add4 sqrt ns ee part0 part1).2.h_r,
                h_v := (sync_diagnostic add4 sqrt ns ee part0 part1).2.h_v } := rfl
  rw [hrest, hr, hv]

/-- C27: the energy diagnostics that temporarily split a binary are state-neutral: for
every multiple system (with distinct member ids or not), the per-system diagnostic block
at a global synchronization and the SPLIT/REDO block at spawn leave every entry of `h_r`
and `h_v` (positions, velocities and the mass component `w`, of the member slots and of
all other particles) equal to its value before the block; nothing else is written. -/
theorem energy_diagnostics_state_neutral {α : Type} [LinearOrderedField α]
    (add4 : double4 α → double4 α → double4 α) (sqrt : α → α) (ns : NbodySystem α) (ee : α)
    (sp : SParticle α) (part0 part1 : MParticle α) :
    (∀ k, (sync_diagnostic add4 sqrt ns ee part0 part1).2.h_r k = ns.h_r k ∧
      (sync_diagnostic add4 sqrt ns ee part0 part1).2.h_v k = ns.h_v k) ∧
    (∀ k, (spawn_diagnostic add4 ns sp part0 part1).h_r k = ns.h_r k ∧
      (spawn_diagnostic add4 ns sp part0 part1).h_v k = ns.h_v k) ∧
    (sync_diagnostic add4 sqrt ns ee part0 part1).2 = ns ∧
    spawn_diagnostic add4 ns sp part0 part1 = ns := by
  have h1 := sync_diagnostic_state add4 sqrt ns ee part0 part1
  have h2 := spawn_diagnostic_state add4 ns sp part0 part1
  refine ⟨fun k => ?_, fun k => ?_, h1, h2⟩
  · rw [h1]; exact ⟨rfl, rfl⟩
  · rw [h2]; exact ⟨rfl, rfl⟩

/-! ## The main loop of `integration()` -/

theorem main_loop_of_not_guard {α ε : Type} [LinearOrderedField α] (P : Hermite4CPU α ε)
    (env : Env α) (fuel : Nat) (s : LoopState α ε)
    (h : ¬ s.ITIME < s.m.ns.integration_time) :
    main_loop P env fuel s = Outcome.finished s := by
  cases fuel with
  | zero => rw [main_loop, if_neg h]
  | succ k => rw [main_loop, if_neg h]

theorem main_loop_succ {α ε : Type} [LinearOrderedField α] (P : Hermite4CPU α ε)
    (env : Env α) (fuel : Nat) (s : LoopState α ε)
    (h : s.ITIME < s.m.ns.integration_time) :
    main_loop P env (fuel + 1) s =
      match loop_body P env s with
      | none => Outcome.out_of_range
      | some s1 => main_loop P env fuel s1 := by
  rw [main_loop, if_pos h]

theorem integration_entry_ITIME {α ε : Type} [LinearOrderedField α]
    (P : Hermite4CPU α ε) (env : Env α) (m : Machine α ε) (interactions : Int)
    (s : LoopState α ε) (h : integration_entry P env m interactions = some s) :
    s.ITIME = 0 := by
  unfold integration_entry at h
  simp only [] at h
  split at h
  · cases h
  · split at h
    · cases h
    · cases h
      show (0.0 : α) = 0
      norm_num

/-- The loop is left in `s1` after exactly `k` passes: the guard holds at the head of each
of the `k` passes and fails in `s1`. -/
theorem main_loop_finished_iff {α ε : Type} [LinearOrderedField α] (P : Hermite4CPU α ε)
    (env : Env α) (fuel : Nat) (s s1 : LoopState α ε) :
    main_loop P env fuel s = Outcome.finished s1 ↔
      ∃ k, k ≤ fuel ∧ loop_iterate P env k s = some s1 ∧
        ¬ s1.ITIME < s1.m.ns.integration_time ∧
        ∀ j, j < k → ∃ sj, loop_iterate P env j s = some sj ∧
          sj.ITIME < sj.m.ns.integration_time := by
  induction fuel generalizing s with
  | zero =>
    constructor
    · intro h
      by_cases hg : s.ITIME < s.m.ns.integration_time
      · rw [main_loop, if_pos hg] at h
        cases h
      · rw [main_loop, if_neg hg] at h
        cases h
        exact ⟨0, le_rfl, rfl, hg, fun j hj => absurd hj (Nat.not_lt_zero j)⟩
    · rintro ⟨k, hk, hit, hg, -⟩
      have hk0 : k = 0 := Nat.le_zero.mp hk
      subst hk0
      have hs : s = s1 := Option.some.inj hit
      rw [hs]
      exact main_loop_of_not_guard P env 0 s1 hg
  | succ fuel ih =>
    by_cases hg : s.ITIME < s.m.ns.integration_time
    · rw [main_loop_succ P env fuel s hg]
      cases hb : loop_body P env s with
      | none =>
        constructor
        · intro h
          cases h
        · rintro ⟨k, -, hit, hg1, -⟩
          cases k with
          | zero =>
            cases hit
            exact absurd hg hg1
          | succ k =>
            rw [loop_iterate, hb] at hit
            cases hit
      | some s2 =>
        show main_loop P env fuel s2 = Outcome.finished s1 ↔ _
        rw [ih s2]
        constructor
        · rintro ⟨k, hk, hit, hg1, hall⟩
          refine ⟨k + 1, Nat.succ_le_succ hk, ?_, hg1, ?_⟩
          · rw [loop_iterate, hb]
            exact hit
          · intro j hj
            cases j with
            | zero => exact ⟨s, rfl, hg⟩
            | succ j =>
              obtain ⟨sj, h1, h2⟩ := hall j (Nat.lt_of_succ_lt_succ hj)
              refine ⟨sj, ?_, h2⟩
              rw [loop_iterate, hb]
              exact h1
        · rintro ⟨k, hk, hit, hg1, hall⟩
          cases k with
          | zero =>
            cases hit
            exact absurd hg hg1
          | succ k =>
            rw [loop_iterate, hb] at hit
            refine ⟨k, Nat.le_of_succ_le_succ hk, hit, hg1, ?_⟩
            intro j hj
            obtain ⟨sj, h1, h2⟩ := hall (j + 1) (Nat.succ_lt_succ hj)
            rw [loop_iterate, hb] at h1
            exact ⟨sj, h1, h2⟩
    · rw [main_loop_of_not_guard P env (fuel + 1) s hg]
      constructor
      · intro h
        cases h
        exact ⟨0, Nat.zero_le _, rfl, hg, fun j hj => absurd hj (Nat.not_lt_zero j)⟩
      · rintro ⟨k, -, hit, -, hall⟩
        cases k with
        | zero =>
          cases hit
          rfl
        | succ k =>
          obtain ⟨sj, h1, h2⟩ := hall 0 (Nat.succ_pos k)
          cases h1
          exact absurd h2 hg

/-- C21: the main loop of `integration()` terminates exactly when
`ITIME >= integration_time`: the loop is left in a state `s1` exactly when `s1` is reached
after some number `k` of passes of the body, the guard `ITIME < integration_time` held at
the head of each of these passes and fails in `s1` (so `integration_time <= ITIME` at the
exit); when the guard fails at the start (in particular when `ITIME = 0` and
`integration_time <= 0`) the loop is left at once, in the unchanged state; when the
guard holds the body is entered; and a run of `integration()` that reaches the loop with
`integration_time <= 0` makes no pass. -/
theorem main_loop_exit {α ε : Type} [LinearOrderedField α] (P : Hermite4CPU α ε)
    (env : Env α) (fuel : Nat) (s : LoopState α ε) :
    (∀ s1, main_loop P env fuel s = Outcome.finished s1 ↔
      ∃ k, k ≤ fuel ∧ loop_iterate P env k s = some s1 ∧
        ¬ s1.ITIME < s1.m.ns.integration_time ∧
        ∀ j, j < k → ∃ sj, loop_iterate P env j s = some sj ∧
          sj.ITIME < sj.m.ns.integration_time) ∧
    (∀ s1, main_loop P env fuel s = Outcome.finished s1 →
      s1.m.ns.integration_time ≤ s1.ITIME) ∧
    (s.m.ns.integration_time ≤ s.ITIME → main_loop P env fuel s = Outcome.finished s) ∧
    (s.ITIME = 0 → s.m.ns.integration_time ≤ 0 →
      main_loop P env fuel s = Outcome.finished s) ∧
    (s.ITIME < s.m.ns.integration_time →
      main_loop P env (fuel + 1) s =
        match loop_body P env s with
        | none => Outcome.out_of_range
        | some s1 => main_loop P env fuel s1) ∧
    (∀ (m : Machine α ε) (interactions : Int) (s0 : LoopState α ε),
      integration_entry P env m interactions = some s0 →
      s0.m.ns.integration_time ≤ 0 →
      integration P env m interactions fuel = Outcome.finished s0) := by
  refine ⟨fun s1 => main_loop_finished_iff P env fuel s s1, ?_, ?_, ?_, ?_, ?_⟩
  · intro s1 h
    obtain ⟨k, -, -, hg, -⟩ := (main_loop_finished_iff P env fuel s s1).mp h
    exact not_lt.mp hg
  · intro h
    exact main_loop_of_not_guard P env fuel s (not_lt.mpr h)
  · intro h0 h
    exact main_loop_of_not_guard P env fuel s (not_lt.mpr (by rw [h0]; exact h))
  · intro h
    exact main_loop_succ P env fuel s h
  · intro m interactions s0 h0 ht
    unfold integration
    rw [h0]
    refine main_loop_of_not_guard P env fuel s0 (not_lt.mpr ?_)
    rw [integration_entry_ITIME P env m interactions s0 h0]
    exact ht

/-! ## Order of the phases in one pass -/

/-- The pass of the code is the pass that runs the phases in the order `code_phase_order`:
the encounter detection before the correction. -/
theorem loop_head_eq_spec_pass {α ε : Type} [LinearOrderedField α] (P : Hermite4CPU α ε)
    (s : LoopState α ε) : loop_head P s = spec_pass P code_phase_order s := by
  unfold loop_head spec_pass code_phase_order
  simp only [List.foldl_cons, List.foldl_nil, run_phase]

/-- The order in which the member functions are called, as the stand-ins `recorder` write
it down. -/
theorem loop_head_recorder {α : Type} [LinearOrderedField α] (nact : Int) (found : Bool)
    (spawn : binary_id → NbodySystem α → SParticle α × MultipleSystem α × NbodySystem α)
    (s : LoopState α (List Phase)) :
    (loop_head (recorder nact found spawn) s).m.priv =
      s.m.priv ++ [Phase.find_particles_to_move, Phase.save_old_acc_jrk] ++
      (if 0 < s.ms.length then [Phase.multiple_systems_integration] else []) ++
      [Phase.predicted_pos_vel, Phase.update_acc_jrk, Phase.get_close_encounters,
       Phase.correction_pos_vel, Phase.next_integration_time] := by
  unfold loop_head recorder
  simp only []
  split_ifs <;> simp

/-- C22 (as amended): in every pass of the main loop of `integration()` the calls run in
this order: `find_particles_to_move`, `save_old_acc_jrk`, `multiple_systems_integration`
(only when `ms` is not empty), `predicted_pos_vel`, `update_acc_jrk`,
`get_close_encounters`, `correction_pos_vel`, the binary creation block (only when
`get_close_encounters` returned `true`), `next_integration_time`; the encounter detection
runs before the correction.  For all functions outside the sources the pass is the
composition of the phases in this order, and functions that write down the order of their
calls write down this order. -/
theorem loop_head_phase_order {α ε : Type} [LinearOrderedField α] (P : Hermite4CPU α ε)
    (s : LoopState α ε) :
    loop_head P s = spec_pass P
      [Phase.find_particles_to_move, Phase.save_old_acc_jrk,
       Phase.multiple_systems_integration, Phase.predicted_pos_vel, Phase.update_acc_jrk,
       Phase.get_close_encounters, Phase.correction_pos_vel, Phase.binary_creation,
       Phase.next_integration_time] s ∧
    (∀ (nact : Int) (found : Bool)
      (spawn : binary_id → NbodySystem α → SParticle α × MultipleSystem α × NbodySystem α)
      (r : LoopState α (List Phase)),
      (loop_head (recorder nact found spawn) r).m.priv =
        r.m.priv ++ [Phase.find_particles_to_move, Phase.save_old_acc_jrk] ++
        (if 0 < r.ms.length then [Phase.multiple_systems_integration] else []) ++
        [Phase.predicted_pos_vel, Phase.update_acc_jrk, Phase.get_close_encounters,
         Phase.correction_pos_vel, Phase.next_integration_time]) :=
  ⟨loop_head_eq_spec_pass P s, fun nact found spawn r => loop_head_recorder nact found spawn r⟩

/-- Counterexample to C22: with the stand-ins `probeHermite` the detector of the pass from
`probeStart` finds the mark of the correction cleared and reports no encounter, although the
correction runs in this pass; a pass in the order of the spec (correction, then detection)
would report one.  So the pass of the code is not the pass in the order of the spec. -/
theorem loop_head_detects_before_correction :
    (loop_head probeHermite probeStart).new_binaries = false ∧
    (loop_head probeHermite probeStart).m.priv = true ∧
    (spec_pass probeHermite spec_phase_order probeStart).new_binaries = true ∧
    loop_head probeHermite probeStart ≠ spec_pass probeHermite spec_phase_order probeStart := by
  have h1 : (loop_head probeHermite probeStart).new_binaries = false := rfl
  have h2 : (spec_pass probeHermite spec_phase_order probeStart).new_binaries = true := rfl
  refine ⟨h1, rfl, h2, ?_⟩
  intro h
  rw [h, h2] at h1
  cases h1

/-! ## The energy of the multiple systems at a synchronization -/

theorem stub_loop_body (env : Env ℚ) (s : LoopState ℚ Unit) (hms : s.ms = [])
    (hn : (1 : Int) ≠ (s.m.ns.n : Int)) :
    ∃ s1, loop_body stubHermite env s = some s1 ∧ s1.ITIME = s.ATIME ∧
      s1.ATIME = s.ATIME + 1 / 8 ∧ s1.ms = [] ∧ s1.m.ns.n = s.m.ns.n ∧
      s1.m.ns.integration_time = s.m.ns.integration_time ∧
      s1.m.ns.iterations = s.m.ns.iterations + 1 := by
  have hh : loop_head stubHermite s =
      { s with ITIME := s.ATIME, nact := 1, new_binaries := false,
               interactions := s.interactions + 1 * (s.m.ns.n : Int),
               ATIME := s.ATIME + 1 / 8 } := by
    unfold loop_head stubHermite
    simp [hms]
  unfold loop_body
  simp only []
  rw [hh]
  simp only []
  rw [if_neg hn]
  exact ⟨_, rfl, rfl, rfl, hms, rfl, rfl, rfl⟩

/-- Witness for C21: with the stand-ins the loop started in `stubStart`
(`integration_time = 1/4`, clock step `1/8`) is left after three passes, with
`ITIME = 1/4`. -/
theorem main_loop_exit_witness :
    ∃ s3, main_loop stubHermite ratEnv 5 stubStart = Outcome.finished s3 ∧
      s3.ITIME = 1 / 4 ∧ s3.m.ns.iterations = 3 ∧ s3.m.ns.integration_time ≤ s3.ITIME := by
  have hn0 : (1 : Int) ≠ (stubStart.m.ns.n : Int) := by decide
  obtain ⟨s1, b1, i1, a1, m1, n1, t1, c1⟩ := stub_loop_body ratEnv stubStart rfl hn0
  obtain ⟨s2, b2, i2, a2, m2, n2, t2, c2⟩ :=
    stub_loop_body ratEnv s1 m1 (by rw [n1]; exact hn0)
  obtain ⟨s3, b3, i3, a3, m3, n3, t3, c3⟩ :=
    stub_loop_body ratEnv s2 m2 (by rw [n2, n1]; exact hn0)
  have hA0 : stubStart.ATIME = 0 := rfl
  have hT0 : stubStart.m.ns.integration_time = 1 / 4 := rfl
  have hI0 : stubStart.ITIME = 0 := rfl
  have hc0 : stubStart.m.ns.iterations = 0 := rfl
  have e1 : loop_iterate stubHermite ratEnv 1 stubStart = some s1 := by
    rw [loop_iterate, b1]; rfl
  have e2 : loop_iterate stubHermite ratEnv 2 stubStart = some s2 := by
    rw [loop_iterate, b1]
    show loop_iterate stubHermite ratEnv 1 s1 = some s2
    rw [loop_iterate, b2]; rfl
  have e3 : loop_iterate stubHermite ratEnv 3 stubStart = some s3 := by
    rw [loop_iterate, b1]
    show loop_iterate stubHermite ratEnv 2 s1 = some s3
    rw [loop_iterate, b2]
    show loop_iterate stubHermite ratEnv 1 s2 = some s3
    rw [loop_iterate, b3]; rfl
  have hI3 : s3.ITIME = 1 / 4 := by rw [i3, a2, a1, hA0]; norm_num
  have hT3 : s3.m.ns.integration_time = 1 / 4 := by rw [t3, t2, t1, hT0]
  have hfin : main_loop stubHermite ratEnv 5 stubStart = Outcome.finished s3 := by
    refine ((main_loop_exit stubHermite ratEnv 5 stubStart).1 s3).mpr
      ⟨3, by decide, e3, ?_, ?_⟩
    · rw [hI3, hT3]; exact lt_irrefl _
    · intro j hj
      interval_cases j
      · exact ⟨stubStart, rfl, by rw [hI0, hT0]; norm_num⟩
      · exact ⟨s1, e1, by rw [i1, t1, hA0, hT0]; norm_num⟩
      · exact ⟨s2, e2, by rw [i2, t2, t1, a1, hA0, hT0]; norm_num⟩
  refine ⟨s3, hfin, hI3, ?_, ?_⟩
  · rw [c3, c2, c1, hc0]
  · rw [hI3, hT3]

/-! ## Reads of `d[J]` in small systems -/

theorem sort_length {α : Type} [LinearOrderedField α] (env : Env α)
    (hs : SortContract env.sort) (l : List (Distance α)) :
    (env.sort l).length = l.length :=
  (hs l).1.length_eq

/-- The read `d[J]` of particle `i` is inside the vector exactly when `n > J`. -/
theorem density_of_isSome {α : Type} [LinearOrderedField α] (env : Env α)
    (ns : NbodySystem α) (i : Nat) (hs : SortContract env.sort) :
    (density_of env ns i).isSome ↔ J < ns.n := by
  unfold density_of
  simp only []
  split
  next h =>
    have hl := List.getElem?_eq_none_iff.mp h
    rw [sort_length env hs, List.length_map, List.length_range] at hl
    simp only [Option.isSome_none, Bool.false_eq_true, false_iff, not_lt]
    exact hl
  next dJ h =>
    simp only [Option.isSome_some, true_iff]
    by_contra hn
    rw [List.getElem?_eq_none_iff.mpr (by
      rw [sort_length env hs, List.length_map, List.length_range]
      exact not_lt.mp hn)] at h
    cases h

theorem collect_eq_none {β : Type} (l : List (Option β)) (h : none ∈ l) :
    collect l = none := by
  induction l with
  | nil => cases h
  | cons a rest ih =>
    cases a with
    | none => rfl
    | some a =>
      have hr : none ∈ rest := by
        rcases List.mem_cons.mp h with h1 | h1
        · cases h1
        · exact h1
      rw [collect, ih hr]

theorem get_center_of_density_none {α : Type} [LinearOrderedField α] (env : Env α)
    (ns : NbodySystem α) (hs : SortContract env.sort) (h1 : 1 ≤ ns.n) (h10 : ns.n ≤ J) :
    get_center_of_density env ns = none := by
  have hd : density_of env ns 0 = none := by
    cases hd : density_of env ns 0 with
    | none => rfl
    | some v =>
      have := (density_of_isSome env ns 0 hs).mp (by rw [hd]; rfl)
      omega
  have hmem : none ∈ (List.range ns.n).map (density_of env ns) :=
    List.mem_map.mpr ⟨0, List.mem_range.mpr h1, hd⟩
  unfold get_center_of_density
  rw [collect_eq_none _ hmem]

theorem get_center_of_density_isSome {α : Type} [LinearOrderedField α] (env : Env α)
    (ns : NbodySystem α) (hs : SortContract env.sort) :
    (get_center_of_density env ns).isSome ↔ (ns.n = 0 ∨ J < ns.n) := by
  rcases Nat.eq_zero_or_pos ns.n with h0 | hpos
  · constructor
    · intro _
      exact Or.inl h0
    · intro _
      unfold get_center_of_density
      rw [h0]
      rfl
  · by_cases hJ : J < ns.n
    · rw [get_center_of_density_float_eq env ns hJ hs]
      exact ⟨fun _ => Or.inr hJ, fun _ => rfl⟩
    · rw [get_center_of_density_none env ns hs hpos (not_lt.mp hJ)]
      constructor
      · intro h
        cases h
      · rintro (h | h)
        · omega
        · exact absurd h hJ

theorem initial_energy_frame {α : Type} [LinearOrderedField α] (sqrt : α → α)
    (ns : NbodySystem α) :
    (initial_energy sqrt ns).n = ns.n ∧ (initial_energy sqrt ns).h_r = ns.h_r ∧
    (initial_energy sqrt ns).total_mass = ns.total_mass ∧
    (initial_energy sqrt ns).ops = ns.ops ∧
    (initial_energy sqrt ns).integration_time = ns.integration_time := by
  have h := congrArg Prod.snd (get_energy_eq sqrt ns 0)
  show (get_energy sqrt ns 0).2.n = ns.n ∧ (get_energy sqrt ns 0).2.h_r = ns.h_r ∧
    (get_energy sqrt ns 0).2.total_mass = ns.total_mass ∧
    (get_energy sqrt ns 0).2.ops = ns.ops ∧
    (get_energy sqrt ns 0).2.integration_time = ns.integration_time
  rw [h]
  exact ⟨rfl, rfl, rfl, rfl, rfl⟩

theorem nbody_attributes_none {α : Type} [LinearOrderedField α] (env : Env α)
    (nu : NbodyUtils α) (ns : NbodySystem α) (hs : SortContract env.sort)
    (h1 : 1 ≤ ns.n) (h10 : ns.n ≤ J) :
    get_half_mass_relaxation_time env nu ns = none ∧ nbody_attributes env nu ns = none := by
  have hrel : ∀ (nu1 : NbodyUtils α) (ns1 : NbodySystem α), ns1.n = ns.n →
      get_half_mass_relaxation_time env nu1 ns1 = none := by
    intro nu1 ns1 hn
    unfold get_half_mass_relaxation_time
    rw [get_center_of_density_none env ns1 hs (by rw [hn]; exact h1) (by rw [hn]; exact h10)]
  refine ⟨hrel nu ns rfl, ?_⟩
  unfold nbody_attributes
  simp only []
  cases get_core_radius env nu (nbody_attributes_radii env.sqrt ns) with
  | none => rfl
  | some rc =>
    simp only []
    rw [hrel nu { nbody_attributes_radii env.sqrt ns with r_core := rc } rfl]

theorem integration_entry_none {α ε : Type} [LinearOrderedField α] (P : Hermite4CPU α ε)
    (env : Env α) (m : Machine α ε) (interactions : Int) (hs : SortContract env.sort)
    (h1 : 1 ≤ m.ns.n) (h10 : m.ns.n ≤ J) :
    integration_entry P env m interactions = none := by
  have hn := (initial_energy_frame env.sqrt m.ns).1
  unfold integration_entry
  simp only []
  rw [(nbody_attributes_none env m.nu (initial_energy env.sqrt m.ns) hs
    (by rw [hn]; exact h1) (by rw [hn]; exact h10)).2]

/-- C26: `get_center_of_density()` reads element `J = 10` of a distance list of length `n`
for every particle, so the read is inside the list if and only if `n >= 11`; and since
`integration()` calls `nbody_attributes()`, which reaches `get_center_of_density()` through
`get_half_mass_relaxation_time()`, every run with `1 <= n <= 10` particles performs a read
outside the list, whatever the functions outside the sources do. -/
theorem center_of_density_out_of_range {α ε : Type} [LinearOrderedField α]
    (P : Hermite4CPU α ε) (env : Env α) (m : Machine α ε) (interactions : Int) (fuel : Nat)
    (hs : SortContract env.sort) (h1 : 1 ≤ m.ns.n) (h10 : m.ns.n ≤ 10) :
    (∀ (ns : NbodySystem α) (i : Nat), (density_of env ns i).isSome ↔ 11 ≤ ns.n) ∧
    (∀ ns : NbodySystem α, (get_center_of_density env ns).isSome ↔ (ns.n = 0 ∨ 11 ≤ ns.n)) ∧
    get_center_of_density env m.ns = none ∧
    (∀ nu, get_half_mass_relaxation_time env nu m.ns = none) ∧
    (∀ nu, nbody_attributes env nu m.ns = none) ∧
    integration_entry P env m interactions = none ∧
    integration P env m interactions fuel = Outcome.out_of_range := by
  have he := integration_entry_none P env m interactions hs h1 h10
  refine ⟨fun ns i => density_of_isSome env ns i hs,
    fun ns => get_center_of_density_isSome env ns hs,
    get_center_of_density_none env m.ns hs h1 h10,
    fun nu => (nbody_attributes_none env nu m.ns hs h1 h10).1,
    fun nu => (nbody_attributes_none env nu m.ns hs h1 h10).2, he, ?_⟩
  unfold integration
  rw [he]

/-- Witness for C26: the two-body scenario (`n = 2`) with an insertion sort: the centre of
density cannot be computed and `integration()` stops at the read outside the list. -/
theorem center_of_density_out_of_range_witness :
    SortContract ratEnv.sort ∧ 1 ≤ twoBodyMachine.ns.n ∧ twoBodyMachine.ns.n ≤ 10 ∧
    get_center_of_density ratEnv twoBodyMachine.ns = none ∧
    integration stubHermite ratEnv twoBodyMachine 0 5 = Outcome.out_of_range :=
  ⟨sortByValue_contract, by decide, by decide,
   (center_of_density_out_of_range stubHermite ratEnv twoBodyMachine 0 5
      sortByValue_contract (by decide) (by decide)).2.2.1,
   (center_of_density_out_of_range stubHermite ratEnv twoBodyMachine 0 5
      sortByValue_contract (by decide) (by decide)).2.2.2.2.2.2⟩

/-! ## A run that enters the main loop -/

theorem normalize_dt_branch_nan_some {α : Type} [LinearOrderedField α] (x y : α) :
    normalize_dt_branch_nan (some x) (some y) = normalize_dt_branch x y := by
  unfold normalize_dt_branch_nan normalize_dt_branch
  simp only [nan_le, nan_lt, Option.map_some', Bool.and_eq_true, decide_eq_true_eq]

theorem normalize_dt_bin_nan_some {α : Type} [LinearOrderedField α] [FloorRing α]
    (x y t : α) (i : Nat) :
    normalize_dt_bin_nan (some x) (some y) (some t) i = some (normalize_dt_bin x y t i) := by
  unfold normalize_dt_bin_nan normalize_dt_bin
  simp only [nan_le, nan_lt, nan_eq, Option.map_some', Option.some_bind, Bool.and_eq_true,
    decide_eq_true_eq, apply_ite some]

theorem normalize_dt_clamp_nan_some {α : Type} [LinearOrderedField α] (x : α) :
    normalize_dt_clamp_nan (some x) = some (normalize_dt_clamp x) := by
  unfold normalize_dt_clamp_nan normalize_dt_clamp
  simp only [nan_lt, decide_eq_true_eq, apply_ite some, gt_iff_lt]

theorem normalize_dt_nan_some {α : Type} [LinearOrderedField α] [FloorRing α]
    (x y t : α) (i : Nat) :
    normalize_dt_nan (some x) (some y) (some t) i = some (normalize_dt x y t i) := by
  unfold normalize_dt_nan normalize_dt
  rw [normalize_dt_bin_nan_some, normalize_dt_clamp_nan_some]

theorem normalize_dt_bin_nan_none {α : Type} [LinearOrderedField α] [FloorRing α]
    (y : α) (t : Option α) (i : Nat) :
    normalize_dt_bin_nan none (some y) t i = some y := by
  unfold normalize_dt_bin_nan
  simp only [nan_le, nan_lt, Option.map_some', Bool.and_false, Bool.false_and,
    Bool.false_eq_true, if_false]

/-- C24 (as amended): the final `else` of `normalize_dt` is taken exactly when `new_dt` or
`old_dt` is NaN; for numbers one of the six preceding conditions holds and the function
is the one on numbers; for a NaN `new_dt` and a number `old_dt` the chain leaves `old_dt`
and the function returns it after the two limit tests. -/
theorem normalize_dt_else_iff_nan {α : Type} [LinearOrderedField α] [FloorRing α] :
    (∀ new_dt old_dt : Option α,
      normalize_dt_branch_nan new_dt old_dt = 7 ↔ (new_dt = none ∨ old_dt = none)) ∧
    (∀ x y : α, normalize_dt_branch_nan (some x) (some y) = normalize_dt_branch x y ∧
      normalize_dt_branch x y ≠ 7) ∧
    (∀ (x y t : α) (i : Nat),
      normalize_dt_nan (some x) (some y) (some t) i = some (normalize_dt x y t i)) ∧
    (∀ (y : α) (t : Option α) (i : Nat),
      normalize_dt_bin_nan none (some y) t i = some y ∧
      normalize_dt_nan none (some y) t i = some (normalize_dt_clamp y)) := by
  refine ⟨?_, ?_, normalize_dt_nan_some, ?_⟩
  · intro new_dt old_dt
    cases new_dt with
    | none =>
      cases old_dt <;> simp [normalize_dt_branch_nan, nan_le, nan_lt]
    | some x =>
      cases old_dt with
      | none => simp [normalize_dt_branch_nan, nan_le, nan_lt]
      | some y =>
        rw [normalize_dt_branch_nan_some]
        have h := (normalize_dt_else_unreachable x y).1
        simp [h]
  · intro x y
    exact ⟨normalize_dt_branch_nan_some x y, (normalize_dt_else_unreachable x y).1⟩
  · intro y t i
    refine ⟨normalize_dt_bin_nan_none y t i, ?_⟩
    unfold normalize_dt_nan
    rw [normalize_dt_bin_nan_none, normalize_dt_clamp_nan_some]

/-- Counterexample to C24: with `new_dt` NaN and `old_dt = 1/16` all six conditions are
false, the final `else` is taken and `old_dt = 1/16` is returned. -/
theorem normalize_dt_else_reached :
    normalize_dt_branch_nan (none : Option ℚ) (some (1 / 16)) = 7 ∧
    normalize_dt_nan (none : Option ℚ) (some (1 / 16)) (some 0) 0 = some (1 / 16) := by
  refine ⟨rfl, ?_⟩
  unfold normalize_dt_nan
  rw [normalize_dt_bin_nan_none, normalize_dt_clamp_nan_some]
  norm_num [normalize_dt_clamp, D_TIME_MIN, D_TIME_MAX]

/-! ## The step quantizer with the rounded quotient -/

theorem round_half_even_eq {α : Type} [LinearOrderedField α] [FloorRing α] (x : α) (n : ℤ)
    (h1 : (n : α) - 1 / 2 < x) (h2 : x < (n : α) + 1 / 2) : round_half_even x = n := by
  have hf : Int.floor (x + 1 / 2) = n := by
    rw [Int.floor_eq_iff]
    constructor <;> linarith
  unfold round_half_even
  rw [hf, if_neg]
  rintro ⟨h, -⟩
  linarith

theorem int_log_two_eq {α : Type} [LinearOrderedField α] [FloorRing α] (q : α) (e : ℤ)
    (hq : 0 < q) (h1 : (2 : α) ^ e ≤ q) (h2 : q < (2 : α) ^ (e + 1)) : Int.log 2 q = e := by
  have hb : 1 < 2 := by decide
  have ha : e ≤ Int.log 2 q := by
    rw [← Int.zpow_le_iff_le_log hb hq]
    simpa using h1
  have hc : Int.log 2 q < e + 1 := by
    rw [← Int.lt_zpow_iff_log_lt hb hq]
    simpa using h2
  omega

/-- Evaluation of the rounding of a positive `q` in the binade `[2^e, 2^(e+1))` that is
not half-way between two neighbours. -/
theorem round_to_bits_eq {α : Type} [LinearOrderedField α] [FloorRing α] (p : ℤ) (q : α)
    (e n : ℤ) (hq : 0 < q) (h1 : (2 : α) ^ e ≤ q) (h2 : q < (2 : α) ^ (e + 1))
    (hn1 : (n : α) - 1 / 2 < q / (2 : α) ^ (e - p))
    (hn2 : q / (2 : α) ^ (e - p) < (n : α) + 1 / 2) :
    round_to_bits p q = (n : α) * (2 : α) ^ (e - p) := by
  unfold round_to_bits
  rw [if_neg (ne_of_gt hq), abs_of_pos hq, int_log_two_eq q e hq h1 h2,
    round_half_even_eq _ n hn1 hn2]

theorem normalize_dt_bin_fl_id {α : Type} [LinearOrderedField α] [FloorRing α]
    (new_dt old_dt t : α) (i : Nat) :
    normalize_dt_bin_fl (fun x => x) new_dt old_dt t i = normalize_dt_bin new_dt old_dt t i :=
  rfl

/-- The double nearest to `1/20`. -/
theorem round_double_twentieth :
    round_double (1 / 20 : ℚ) = 3602879701896397 / 72057594037927936 := by
  unfold round_double
  rw [round_to_bits_eq 52 (1 / 20 : ℚ) (-5) 7205759403792794 (by norm_num) (by norm_num)
    (by norm_num) (by norm_num) (by norm_num)]
  norm_num

/-- The double nearest to `(1/2) / (2 x)` for `x` the double nearest to `1/20` is `5`. -/
theorem round_double_quotient :
    round_double ((1 / 2 : ℚ) / (2 * (3602879701896397 / 72057594037927936))) = 5 := by
  unfold round_double
  rw [round_to_bits_eq 52 _ 2 5629499534213120 (by norm_num) (by norm_num)
    (by norm_num) (by norm_num) (by norm_num)]
  norm_num

theorem int_log_two_scale {α : Type} [LinearOrderedField α] [FloorRing α] (x : α) (k : ℤ)
    (hx : 0 < x) : Int.log 2 (x * (2 : α) ^ k) = Int.log 2 x + k := by
  have hb : 1 < 2 := by decide
  have h2 : (0 : α) < (2 : α) ^ k := zpow_pos (by norm_num) k
  have h1 : (2 : α) ^ Int.log 2 x ≤ x := by
    simpa using Int.zpow_log_le_self hb hx
  have h3 : x < (2 : α) ^ (Int.log 2 x + 1) := by
    simpa using Int.lt_zpow_succ_log_self hb x
  apply int_log_two_eq _ _ (mul_pos hx h2)
  · rw [zpow_add₀ (by norm_num : (2 : α) ≠ 0)]
    exact mul_le_mul_of_nonneg_right h1 h2.le
  · rw [show Int.log 2 x + k + 1 = (Int.log 2 x + 1) + k by ring,
      zpow_add₀ (by norm_num : (2 : α) ≠ 0)]
    exact mul_lt_mul_of_pos_right h3 h2

/-- The rounding commutes with the product by a power of two (the exponent range is not
limited in the model). -/
theorem round_to_bits_scale {α : Type} [LinearOrderedField α] [FloorRing α] (p : ℤ) (x : α)
    (k : ℤ) : round_to_bits p (x * (2 : α) ^ k) = round_to_bits p x * (2 : α) ^ k := by
  have h2 : (0 : α) < (2 : α) ^ k := zpow_pos (by norm_num) k
  have h20 : (2 : α) ≠ 0 := by norm_num
  by_cases hx : x = 0
  · rw [hx, zero_mul]
    simp [round_to_bits]
  have hx' : 0 < |x| := abs_pos.mpr hx
  have hne : x * (2 : α) ^ k ≠ 0 := mul_ne_zero hx (ne_of_gt h2)
  unfold round_to_bits
  rw [if_neg hne, if_neg hx, abs_mul, abs_of_pos h2, int_log_two_scale |x| k hx']
  have he : (2 : α) ^ (Int.log 2 |x| + k - p) = (2 : α) ^ (Int.log 2 |x| - p) * (2 : α) ^ k := by
    rw [← zpow_add₀ h20]
    congr 1
    ring
  rw [he, mul_div_mul_right _ _ (ne_of_gt h2)]
  ring

/-- The quotient of a double by twice a power of two is exact. -/
theorem round_double_div_pow {α : Type} [LinearOrderedField α] [FloorRing α] (t : α)
    (k : ℤ) (ht : round_double t = t) :
    round_double (t / (2 * (2 : α) ^ k)) = t / (2 * (2 : α) ^ k) := by
  have h20 : (2 : α) ≠ 0 := by norm_num
  have e : t / (2 * (2 : α) ^ k) = t * (2 : α) ^ (-(k + 1)) := by
    rw [zpow_neg, zpow_add₀ h20, zpow_one, div_eq_mul_inv, mul_comm ((2 : α) ^ k) 2]
  unfold round_double at ht ⊢
  rw [e, round_to_bits_scale, ht]

theorem normalize_dt_bin_fl_eq {α : Type} [LinearOrderedField α] [FloorRing α] (fl : α → α)
    (new_dt old_dt t : α) (i : Nat) :
    normalize_dt_bin_fl fl new_dt old_dt t i =
      if new_dt ≤ old_dt / 8 then D_TIME_MIN
      else if new_dt ≤ old_dt / 4 then old_dt / 8
      else if new_dt ≤ old_dt / 2 then old_dt / 4
      else if new_dt ≤ old_dt then old_dt / 2
      else if new_dt ≤ old_dt * 2 then old_dt
      else if ((Int.ceil (fl (t / (2 * old_dt))) : ℤ) : α) = fl (t / (2 * old_dt)) then
        2 * old_dt
      else old_dt := by
  unfold normalize_dt_bin_fl
  simp only []
  by_cases h1 : new_dt ≤ old_dt / 8
  · rw [if_pos h1, if_pos h1]
  rw [if_neg h1, if_neg h1]
  by_cases h2 : new_dt ≤ old_dt / 4
  · rw [if_pos ⟨not_le.mp h1, h2⟩, if_pos h2]
  rw [if_neg (fun h => h2 h.2), if_neg h2]
  by_cases h3 : new_dt ≤ old_dt / 2
  · rw [if_pos ⟨not_le.mp h2, h3⟩, if_pos h3]
  rw [if_neg (fun h => h3 h.2), if_neg h3]
  by_cases h4 : new_dt ≤ old_dt
  · rw [if_pos ⟨not_le.mp h3, h4⟩, if_pos h4]
  rw [if_neg (fun h => h4 h.2), if_neg h4]
  by_cases h5 : new_dt ≤ old_dt * 2
  · rw [if_pos ⟨not_le.mp h4, h5⟩, if_pos h5]
  rw [if_neg (fun h => h5 h.2), if_neg h5]
  have h6 : 2 * old_dt < new_dt := by rw [mul_comm]; exact not_le.mp h5
  rw [if_pos h6]

/-- C1 (as amended): for `old_dt > 0` the value of `normalize_dt` before the limit tests
follows the bin table on `r = new_dt / old_dt` (`r ≤ 1/8` gives `D_TIME_MIN`, `(1/8, 1/4]`
gives `old_dt/8`, `(1/4, 1/2]` gives `old_dt/4`, `(1/2, 1]` gives `old_dt/2`, `(1, 2]`
gives `old_dt`); for `r > 2` it is `2*old_dt` when the quotient `t / (2*old_dt)` as the
machine rounds it is an integer and `old_dt` otherwise; when that quotient is computed
exactly (as it is for a double `t` and `old_dt` a power of two), it is an integer exactly
when `t` is an integer multiple of `2*old_dt`; the returned value is the bin value clamped
into `[D_TIME_MIN, D_TIME_MAX]`. -/
theorem normalize_dt_fl_table {α : Type} [LinearOrderedField α] [FloorRing α] (fl : α → α)
    (new_dt old_dt t : α) (i : Nat) (hold : 0 < old_dt) :
    (new_dt / old_dt ≤ 1 / 8 → normalize_dt_bin_fl fl new_dt old_dt t i = D_TIME_MIN) ∧
    (1 / 8 < new_dt / old_dt → new_dt / old_dt ≤ 1 / 4 →
      normalize_dt_bin_fl fl new_dt old_dt t i = old_dt / 8) ∧
    (1 / 4 < new_dt / old_dt → new_dt / old_dt ≤ 1 / 2 →
      normalize_dt_bin_fl fl new_dt old_dt t i = old_dt / 4) ∧
    (1 / 2 < new_dt / old_dt → new_dt / old_dt ≤ 1 →
      normalize_dt_bin_fl fl new_dt old_dt t i = old_dt / 2) ∧
    (1 < new_dt / old_dt → new_dt / old_dt ≤ 2 →
      normalize_dt_bin_fl fl new_dt old_dt t i = old_dt) ∧
    (2 < new_dt / old_dt →
      ((Int.ceil (fl (t / (2 * old_dt))) : ℤ) : α) = fl (t / (2 * old_dt)) →
      normalize_dt_bin_fl fl new_dt old_dt t i = 2 * old_dt) ∧
    (2 < new_dt / old_dt →
      ¬ ((Int.ceil (fl (t / (2 * old_dt))) : ℤ) : α) = fl (t / (2 * old_dt)) →
      normalize_dt_bin_fl fl new_dt old_dt t i = old_dt) ∧
    (fl (t / (2 * old_dt)) = t / (2 * old_dt) →
      (((Int.ceil (fl (t / (2 * old_dt))) : ℤ) : α) = fl (t / (2 * old_dt)) ↔
        IsIntMultiple t (2 * old_dt))) ∧
    (∀ k : ℤ, round_double t = t →
      round_double (t / (2 * (2 : α) ^ k)) = t / (2 * (2 : α) ^ k)) ∧
    normalize_dt_fl fl new_dt old_dt t i
      = max D_TIME_MIN (min D_TIME_MAX (normalize_dt_bin_fl fl new_dt old_dt t i)) := by
  have hle : ∀ c : α, new_dt / old_dt ≤ c ↔ new_dt ≤ c * old_dt := fun c => div_le_iff₀ hold
  have hlt : ∀ c : α, c < new_dt / old_dt ↔ c * old_dt < new_dt := fun c => lt_div_iff₀ hold
  have hne : (2 * old_dt) ≠ 0 := by positivity
  have hc := ceil_eq_iff_isIntMultiple t (2 * old_dt) hne
  simp only [hle, hlt]
  rw [normalize_dt_bin_fl_eq]
  refine ⟨?_, ?_, ?_, ?_, ?_, ?_, ?_, ?_, fun k ht => round_double_div_pow t k ht, ?_⟩
  · intro h
    rw [if_pos (by linarith)]
  · intro h1 h2
    rw [if_neg (by linarith), if_pos (by linarith)]
  · intro h1 h2
    rw [if_neg (by linarith), if_neg (by linarith), if_pos (by linarith)]
  · intro h1 h2
    rw [if_neg (by linarith), if_neg (by linarith), if_neg (by linarith),
      if_pos (by linarith)]
  · intro h1 h2
    rw [if_neg (by linarith), if_neg (by linarith), if_neg (by linarith),
      if_neg (by linarith), if_pos (by linarith)]
  · intro h1 h2
    rw [if_neg (by linarith), if_neg (by linarith), if_neg (by linarith),
      if_neg (by linarith), if_neg (by linarith), if_pos h2]
  · intro h1 h2
    rw [if_neg (by linarith), if_neg (by linarith), if_neg (by linarith),
      if_neg (by linarith), if_neg (by linarith), if_neg h2]
  · intro he
    rw [he]
    exact hc
  · rw [← normalize_dt_bin_fl_eq]
    unfold normalize_dt_fl
    exact normalize_dt_clamp_eq_max_min _

/-- Witness for C1 as amended: `old_dt = 1/16`, `new_dt = 1/30` returns `1/32`, with the
rounding to the nearest double. -/
theorem normalize_dt_fl_table_witness :
    (0 : ℚ) < 1 / 16 ∧ normalize_dt_fl round_double (1 / 30 : ℚ) (1 / 16) 0 0 = 1 / 32 := by
  have h := normalize_dt_fl_table round_double (1 / 30 : ℚ) (1 / 16) 0 0 (by norm_num)
  refine ⟨by norm_num, ?_⟩
  rw [h.2.2.2.2.2.2.2.2.2, h.2.2.2.1 (by norm_num) (by norm_num), D_TIME_MIN_eq,
    D_TIME_MAX_eq]
  norm_num

/-- Counterexample to C1: `old_dt` the double nearest to `0.05`, `new_dt = 1`, `t = 0.5`.
Then `r > 2` and `t` is not an integer multiple of `2*old_dt`, but the quotient
`t / (2*old_dt)` rounds to the double `5`, so the code returns `2*old_dt` (about `0.1`)
where the table of the claim gives `old_dt`. -/
theorem normalize_dt_rounded_quotient :
    round_double (1 / 20 : ℚ) = 3602879701896397 / 72057594037927936 ∧
    (0 : ℚ) < 3602879701896397 / 72057594037927936 ∧
    (2 : ℚ) < 1 / (3602879701896397 / 72057594037927936) ∧
    ¬ IsIntMultiple (1 / 2 : ℚ) (2 * (3602879701896397 / 72057594037927936)) ∧
    normalize_dt_bin_fl round_double (1 : ℚ) (3602879701896397 / 72057594037927936) (1 / 2) 0
      = 2 * (3602879701896397 / 72057594037927936) ∧
    normalize_dt_fl round_double (1 : ℚ) (3602879701896397 / 72057594037927936) (1 / 2) 0
      = 2 * (3602879701896397 / 72057594037927936) ∧
    normalize_dt (1 : ℚ) (3602879701896397 / 72057594037927936) (1 / 2) 0
      = 3602879701896397 / 72057594037927936 := by
  have hx : (0 : ℚ) < 3602879701896397 / 72057594037927936 := by norm_num
  have hr : (2 : ℚ) < 1 / (3602879701896397 / 72057594037927936) := by norm_num
  have hne : (2 * (3602879701896397 / 72057594037927936) : ℚ) ≠ 0 := by norm_num
  have hceil : Int.ceil ((1 / 2 : ℚ) / (2 * (3602879701896397 / 72057594037927936))) = 5 := by
    rw [Int.ceil_eq_iff]
    constructor <;> norm_num
  have hnot : ¬ IsIntMultiple (1 / 2 : ℚ) (2 * (3602879701896397 / 72057594037927936)) := by
    rw [← ceil_eq_iff_isIntMultiple _ _ hne, hceil]
    norm_num
  have hbin : normalize_dt_bin_fl round_double (1 : ℚ)
      (3602879701896397 / 72057594037927936) (1 / 2) 0
      = 2 * (3602879701896397 / 72057594037927936) := by
    rw [normalize_dt_bin_fl_eq, round_double_quotient]
    norm_num
  have hexact : normalize_dt_bin (1 : ℚ) (3602879701896397 / 72057594037927936) (1 / 2) 0
      = 3602879701896397 / 72057594037927936 := by
    rw [normalize_dt_bin_eq, hceil]
    norm_num
  refine ⟨round_double_twentieth, hx, hr, hnot, hbin, ?_, ?_⟩
  · unfold normalize_dt_fl
    rw [hbin]
    norm_num [normalize_dt_clamp, D_TIME_MIN, D_TIME_MAX]
  · unfold normalize_dt
    rw [hexact]
    norm_num [normalize_dt_clamp, D_TIME_MIN, D_TIME_MAX]

/-! ## The centre of density with the conversions to `float` -/

theorem round_half_even_tie {α : Type} [LinearOrderedField α] [FloorRing α] (x : α) (k : ℤ)
    (h : x + 1 / 2 = (k : α)) :
    round_half_even x = if k % 2 = 1 then k - 1 else k := by
  have hf : Int.floor (x + 1 / 2) = k := by rw [h, Int.floor_intCast]
  unfold round_half_even
  rw [hf]
  by_cases hk : k % 2 = 1
  · rw [if_pos ⟨h, hk⟩, if_pos hk]
  · rw [if_neg (fun hc => hk hc.2), if_neg hk]

/-- Evaluation of the rounding of a positive `q` in the binade `[2^e, 2^(e+1))` that lies
half-way between two neighbours: the even one is taken. -/
theorem round_to_bits_tie {α : Type} [LinearOrderedField α] [FloorRing α] (p : ℤ) (q : α)
    (e k : ℤ) (hq : 0 < q) (h1 : (2 : α) ^ e ≤ q) (h2 : q < (2 : α) ^ (e + 1))
    (ht : q / (2 : α) ^ (e - p) + 1 / 2 = (k : α)) :
    round_to_bits p q = (((if k % 2 = 1 then k - 1 else k : ℤ) : ℤ) : α) * (2 : α) ^ (e - p) := by
  unfold round_to_bits
  rw [if_neg (ne_of_gt hq), abs_of_pos hq, int_log_two_eq q e hq h1 h2,
    round_half_even_tie _ k ht]

theorem round_float_aa : round_float (9 / 11 : ℚ) = 13726813 / 16777216 := by
  unfold round_float
  rw [round_to_bits_eq 23 _ (-1) 13726813 (by norm_num) (by norm_num) (by norm_num) (by norm_num)
    (by norm_num)]
  norm_num

theorem round_float_r5 : round_float (5 : ℚ) = 5 := by
  unfold round_float
  rw [round_to_bits_eq 23 _ (2) 10485760 (by norm_num) (by norm_num) (by norm_num) (by norm_num)
    (by norm_num)]
  norm_num

theorem round_float_bb5 : round_float (110534964875444375 / 211106232532992 : ℚ) = 4289321 / 8192 := by
  unfold round_float
  rw [round_to_bits_eq 23 _ (9) 8578642 (by norm_num) (by norm_num) (by norm_num) (by norm_num)
    (by norm_num)]
  norm_num

theorem round_float_p5 : round_float (13726813 / 8784529408 : ℚ) = 13422737 / 8589934592 := by
  unfold round_float
  rw [round_to_bits_eq 23 _ (-10) 13422737 (by norm_num) (by norm_num) (by norm_num) (by norm_num)
    (by norm_num)]
  norm_num

theorem round_float_r6 : round_float (6 : ℚ) = 6 := by
  unfold round_float
  rw [round_to_bits_eq 23 _ (2) 12582912 (by norm_num) (by norm_num) (by norm_num) (by norm_num)
    (by norm_num)]
  norm_num

theorem round_float_bb6 : round_float (7958517471031995 / 8796093022208 : ℚ) = 7411947 / 8192 := by
  unfold round_float
  rw [round_to_bits_eq 23 _ (9) 14823894 (by norm_num) (by norm_num) (by norm_num) (by norm_num)
    (by norm_num)]
  norm_num

theorem round_float_p6 : round_float (13726813 / 15179667456 : ℚ) = 7767787 / 8589934592 := by
  unfold round_float
  rw [round_to_bits_eq 23 _ (-11) 15535574 (by norm_num) (by norm_num) (by norm_num) (by norm_num)
    (by norm_num)]
  norm_num

theorem round_float_r7 : round_float (7 : ℚ) = 7 := by
  unfold round_float
  rw [round_to_bits_eq 23 _ (2) 14680064 (by norm_num) (by norm_num) (by norm_num) (by norm_num)
    (by norm_num)]
  norm_num

theorem round_float_bb7 : round_float (303307943618219365 / 211106232532992 : ℚ) = 11769897 / 8192 := by
  unfold round_float
  rw [round_to_bits_eq 23 _ (10) 11769897 (by norm_num) (by norm_num) (by norm_num) (by norm_num)
    (by norm_num)]
  norm_num

theorem round_float_p7 : round_float (13726813 / 24104749056 : ℚ) = 1222917 / 2147483648 := by
  unfold round_float
  rw [round_to_bits_eq 23 _ (-11) 9783336 (by norm_num) (by norm_num) (by norm_num) (by norm_num)
    (by norm_num)]
  norm_num

theorem round_float_r8 : round_float (8 : ℚ) = 8 := by
  unfold round_float
  rw [round_to_bits_eq 23 _ (3) 8388608 (by norm_num) (by norm_num) (by norm_num) (by norm_num)
    (by norm_num)]
  norm_num

theorem round_float_bb8 : round_float (884279719003555 / 412316860416 : ℚ) = 4392265 / 2048 := by
  unfold round_float
  rw [round_to_bits_eq 23 _ (11) 8784530 (by norm_num) (by norm_num) (by norm_num) (by norm_num)
    (by norm_num)]
  norm_num

theorem round_float_p8 : round_float (13726813 / 35981434880 : ℚ) = 3277035 / 8589934592 := by
  unfold round_float
  rw [round_to_bits_eq 23 _ (-12) 13108140 (by norm_num) (by norm_num) (by norm_num) (by norm_num)
    (by norm_num)]
  norm_num

theorem round_float_r9 : round_float (9 : ℚ) = 9 := by
  unfold round_float
  rw [round_to_bits_eq 23 _ (3) 9437184 (by norm_num) (by norm_num) (by norm_num) (by norm_num)
    (by norm_num)]
  norm_num

theorem round_float_bb9 : round_float (214879971717863865 / 70368744177664 : ℚ) = 12507661 / 4096 := by
  unfold round_float
  rw [round_to_bits_eq 23 _ (11) 12507661 (by norm_num) (by norm_num) (by norm_num) (by norm_num)
    (by norm_num)]
  norm_num

theorem round_float_p9 : round_float (13726813 / 51231379456 : ℚ) = 4603133 / 17179869184 := by
  unfold round_float
  rw [round_to_bits_eq 23 _ (-12) 9206266 (by norm_num) (by norm_num) (by norm_num) (by norm_num)
    (by norm_num)]
  norm_num

theorem round_float_r10 : round_float (10 : ℚ) = 10 := by
  unfold round_float
  rw [round_to_bits_eq 23 _ (3) 10485760 (by norm_num) (by norm_num) (by norm_num) (by norm_num)
    (by norm_num)]
  norm_num

theorem round_float_bb10 : round_float (110534964875444375 / 26388279066624 : ℚ) = 4289321 / 1024 := by
  unfold round_float
  rw [round_to_bits_eq 23 _ (12) 8578642 (by norm_num) (by norm_num) (by norm_num) (by norm_num)
    (by norm_num)]
  norm_num

theorem round_float_p10 : round_float (13726813 / 70276235264 : ℚ) = 13422737 / 68719476736 := by
  unfold round_float
  rw [round_to_bits_eq 23 _ (-13) 13422737 (by norm_num) (by norm_num) (by norm_num) (by norm_num)
    (by norm_num)]
  norm_num

theorem round_float_s0 : round_float (13422737 / 68719476736 : ℚ) = 13422737 / 68719476736 := by
  unfold round_float
  rw [round_to_bits_eq 23 _ (-13) 13422737 (by norm_num) (by norm_num) (by norm_num) (by norm_num)
    (by norm_num)]
  norm_num

theorem round_float_s1 : round_float (31835269 / 68719476736 : ℚ) = 7958817 / 17179869184 := by
  unfold round_float
  rw [round_to_bits_tie 23 _ (-12) 15917635 (by norm_num) (by norm_num) (by norm_num) (by norm_num)]
  norm_num

theorem round_float_s2 : round_float (14512887 / 17179869184 : ℚ) = 14512887 / 17179869184 := by
  unfold round_float
  rw [round_to_bits_eq 23 _ (-11) 14512887 (by norm_num) (by norm_num) (by norm_num) (by norm_num)
    (by norm_num)]
  norm_num

theorem round_float_s3 : round_float (24296223 / 17179869184 : ℚ) = 759257 / 536870912 := by
  unfold round_float
  rw [round_to_bits_tie 23 _ (-10) 12148112 (by norm_num) (by norm_num) (by norm_num) (by norm_num)]
  norm_num

theorem round_float_s4 : round_float (19915899 / 8589934592 : ℚ) = 4978975 / 2147483648 := by
  unfold round_float
  rw [round_to_bits_tie 23 _ (-9) 9957950 (by norm_num) (by norm_num) (by norm_num) (by norm_num)]
  norm_num

theorem round_float_s5 : round_float (33338637 / 8589934592 : ℚ) = 8334659 / 2147483648 := by
  unfold round_float
  rw [round_to_bits_tie 23 _ (-9) 16669319 (by norm_num) (by norm_num) (by norm_num) (by norm_num)]
  norm_num

theorem round_float_s6 : round_float (41106423 / 8589934592 : ℚ) = 5138303 / 1073741824 := by
  unfold round_float
  rw [round_to_bits_eq 23 _ (-8) 10276606 (by norm_num) (by norm_num) (by norm_num) (by norm_num)
    (by norm_num)]
  norm_num

theorem round_float_s7 : round_float (11499523 / 2147483648 : ℚ) = 11499523 / 2147483648 := by
  unfold round_float
  rw [round_to_bits_eq 23 _ (-8) 11499523 (by norm_num) (by norm_num) (by norm_num) (by norm_num)
    (by norm_num)]
  norm_num

theorem round_float_s8 : round_float (49275127 / 8589934592 : ℚ) = 6159391 / 1073741824 := by
  unfold round_float
  rw [round_to_bits_eq 23 _ (-8) 12318782 (by norm_num) (by norm_num) (by norm_num) (by norm_num)
    (by norm_num)]
  norm_num

theorem round_float_s9 : round_float (103153389 / 17179869184 : ℚ) = 6447087 / 1073741824 := by
  unfold round_float
  rw [round_to_bits_eq 23 _ (-8) 12894174 (by norm_num) (by norm_num) (by norm_num) (by norm_num)
    (by norm_num)]
  norm_num

theorem round_float_s10 : round_float (426036305 / 68719476736 : ℚ) = 13313635 / 2147483648 := by
  unfold round_float
  rw [round_to_bits_eq 23 _ (-8) 13313635 (by norm_num) (by norm_num) (by norm_num) (by norm_num)
    (by norm_num)]
  norm_num

theorem lineState_jth_float (i : Nat) (hi : i < 11) :
    jthNeighbourDistance floatEnv lineState i = max (i : ℚ) (10 - i) :=
  lineState_jth i hi

theorem lineState_float_density (i : Nat) (hi : i < 11) :
    float_density floatEnv lineState i = lineFloatDensities.getD i 0 := by
  unfold float_density
  rw [lineState_jth_float i hi]
  simp only [floatEnv, ratEnv, lineState, lineFloatDensities, J]
  interval_cases i <;>
    norm_num [round_float_aa, round_float_r5, round_float_bb5, round_float_p5,
      round_float_r6, round_float_bb6, round_float_p6, round_float_r7, round_float_bb7,
      round_float_p7, round_float_r8, round_float_bb8, round_float_p8, round_float_r9,
      round_float_bb9, round_float_p9, round_float_r10, round_float_bb10, round_float_p10]

theorem lineState_float_sum :
    float_sum floatEnv.to_float (float_density floatEnv lineState) 11
      = 13313635 / 2147483648 := by
  simp only [float_sum]
  rw [lineState_float_density 0 (by norm_num), lineState_float_density 1 (by norm_num),
    lineState_float_density 2 (by norm_num), lineState_float_density 3 (by norm_num),
    lineState_float_density 4 (by norm_num), lineState_float_density 5 (by norm_num),
    lineState_float_density 6 (by norm_num), lineState_float_density 7 (by norm_num),
    lineState_float_density 8 (by norm_num), lineState_float_density 9 (by norm_num),
    lineState_float_density 10 (by norm_num)]
  simp only [floatEnv, lineFloatDensities]
  norm_num [round_float_s0, round_float_s1, round_float_s2, round_float_s3, round_float_s4,
    round_float_s5, round_float_s6, round_float_s7, round_float_s8, round_float_s9,
    round_float_s10]

theorem lineState_float_cod :
    float_center_of_density floatEnv lineState
      = { x := 213018137 / 42603632, y := 0, z := 0 } := by
  unfold float_center_of_density
  simp only [show lineState.n = 11 from rfl]
  rw [lineState_float_sum]
  simp only [Finset.sum_range_succ, Finset.sum_range_zero]
  rw [lineState_float_density 0 (by norm_num), lineState_float_density 1 (by norm_num),
    lineState_float_density 2 (by norm_num), lineState_float_density 3 (by norm_num),
    lineState_float_density 4 (by norm_num), lineState_float_density 5 (by norm_num),
    lineState_float_density 6 (by norm_num), lineState_float_density 7 (by norm_num),
    lineState_float_density 8 (by norm_num), lineState_float_density 9 (by norm_num),
    lineState_float_density 10 (by norm_num)]
  simp only [lineState, lineFloatDensities]
  norm_num

theorem lineState_cod_float :
    spec_center_of_density floatEnv lineState = { x := 5, y := 0, z := 0 } := by
  unfold spec_center_of_density spec_density
  simp only [show lineState.n = 11 from rfl, Finset.sum_range_succ, Finset.sum_range_zero]
  rw [lineState_jth_float 0 (by norm_num), lineState_jth_float 1 (by norm_num),
    lineState_jth_float 2 (by norm_num), lineState_jth_float 3 (by norm_num),
    lineState_jth_float 4 (by norm_num), lineState_jth_float 5 (by norm_num),
    lineState_jth_float 6 (by norm_num), lineState_jth_float 7 (by norm_num),
    lineState_jth_float 8 (by norm_num), lineState_jth_float 9 (by norm_num),
    lineState_jth_float 10 (by norm_num)]
  simp only [floatEnv, ratEnv, lineState, J]
  norm_num

/-- C17 (as amended): for every system with `n > J = 10` particles at pairwise distinct
positions, when the pass of each particle runs without another thread writing `radius`,
`aa` or `bb`, `get_center_of_density()` returns `Σ_i ρ_i r_i / dsum` with
`ρ_i = float(float((J−1) m_i) / float(4π r_i³ / 3))`, `r_i = float(d_{i,J})`, and `dsum` the
sum of the `ρ_i` accumulated in a `float` (`dsum ← float(dsum + ρ_i)` in the order of the
index); `d_{i,J}` is the entry at index `J` of the ascending list of the distances from
particle `i` that has `0` as the self-entry, which for a nonnegative square root is the
distance to the `J`-th nearest other particle.  When the conversions to `float` do not
round, this is `Σ_i ρ_i r_i / Σ_i ρ_i` with `ρ_i = (J−1) m_i / ((4π/3) d_{i,J}³)`. -/
theorem get_center_of_density_float_form {α : Type} [LinearOrderedField α] (env : Env α)
    (ns : NbodySystem α) (hn : J < ns.n) (_hdistinct : DistinctPositions ns)
    (hs : SortContract env.sort) :
    get_center_of_density env ns = some (float_center_of_density env ns) ∧
    float_center_of_density env ns =
      { x := (∑ i in Finset.range ns.n, float_density env ns i * (ns.h_r i).x)
          / float_sum env.to_float (float_density env ns) ns.n
        y := (∑ i in Finset.range ns.n, float_density env ns i * (ns.h_r i).y)
          / float_sum env.to_float (float_density env ns) ns.n
        z := (∑ i in Finset.range ns.n, float_density env ns i * (ns.h_r i).z)
          / float_sum env.to_float (float_density env ns) ns.n } ∧
    (∀ i, float_density env ns i =
      env.to_float
        (env.to_float (((J : α) - 1) * (ns.h_r i).w) /
          env.to_float
            ((4 * env.M_PI * env.to_float (jthNeighbourDistance env ns i) *
                env.to_float (jthNeighbourDistance env ns i) *
                env.to_float (jthNeighbourDistance env ns i)) / 3))) ∧
    (∀ f : Nat → α, float_sum env.to_float f 0 = 0 ∧
      ∀ k, float_sum env.to_float f (k + 1)
        = env.to_float (float_sum env.to_float f k + f k)) ∧
    ((∀ x, env.to_float x = x) →
      get_center_of_density env ns = some (spec_center_of_density env ns) ∧
      (spec_center_of_density env ns).x
        = (∑ i in Finset.range ns.n, spec_density env ns i * (ns.h_r i).x)
          / ∑ i in Finset.range ns.n, spec_density env ns i ∧
      ∀ i, spec_density env ns i
        = ((J : α) - 1) * (ns.h_r i).w
          / ((4 * env.M_PI / 3) * jthNeighbourDistance env ns i ^ 3)) ∧
    ((∀ x, 0 ≤ env.sqrt x) → ∀ i, i < ns.n →
      jthNeighbourDistance env ns i = jthNearestOther env ns i) :=
  ⟨get_center_of_density_float_eq env ns hn hs, rfl, fun _ => rfl,
    fun _ => ⟨rfl, fun _ => rfl⟩,
    fun hex => ⟨get_center_of_density_eq env ns hn hs hex, rfl, fun _ => rfl⟩,
    fun hsqrt i hi => jthNeighbourDistance_eq_nearest env ns i hi hsqrt⟩

/-- Witness for C17 as amended: eleven particles on a line, with the insertion sort for
`std::sort` and the rounding to the nearest `float`. -/
theorem get_center_of_density_float_form_witness :
    J < lineState.n ∧ DistinctPositions lineState ∧ SortContract floatEnv.sort ∧
    get_center_of_density floatEnv lineState
      = some (float_center_of_density floatEnv lineState) ∧
    jthNeighbourDistance floatEnv lineState 3 = jthNearestOther floatEnv lineState 3 :=
  ⟨by decide, lineState_distinct, sortByValue_contract,
   (get_center_of_density_float_form floatEnv lineState (by decide) lineState_distinct
      sortByValue_contract).1,
   (get_center_of_density_float_form floatEnv lineState (by decide) lineState_distinct
      sortByValue_contract).2.2.2.2.2 Rat.sqrt_nonneg 3 (by decide)⟩

/-- Counterexample to C17: eleven particles of mass `1/11` at `(0,0,0), ..., (10,0,0)`, with
the double nearest to `π` and the rounding to the nearest `float`.  The formula of the
claim gives the centre `(5, 0, 0)`; the code returns `x = 213018137/42603632`, about
`4.99999946`. -/
theorem get_center_of_density_not_exact :
    J < lineState.n ∧ DistinctPositions lineState ∧
    spec_center_of_density floatEnv lineState = { x := 5, y := 0, z := 0 } ∧
    get_center_of_density floatEnv lineState
      = some { x := 213018137 / 42603632, y := 0, z := 0 } ∧
    get_center_of_density floatEnv lineState
      ≠ some (spec_center_of_density floatEnv lineState) := by
  have hcode : get_center_of_density floatEnv lineState
      = some { x := 213018137 / 42603632, y := 0, z := 0 } := by
    rw [get_center_of_density_float_eq floatEnv lineState (by decide) sortByValue_contract,
      lineState_float_cod]
  refine ⟨by decide, lineState_distinct, lineState_cod_float, hcode, ?_⟩
  rw [hcode, lineState_cod_float]
  intro h
  have hx := congrArg double3.x (Option.some.inj h)
  norm_num at hx

end Gravidy
